import Mathlib

/-! EPC token ledger chaincode (`blockchain/chaincode/epc/epc.go`)

A shallow embedding of the EPC stable-coin contract and proofs of its
bookkeeping properties.

Modelling conventions

* Amounts are embedded twice.  The definitions directly in the namespace
  `EPC` read a `float64` amount as the exact decimal it denotes (`ℚ`): they
  are the contract with every sum and difference formed exactly, where no
  number is too large to encode.  The namespace `EPC.Float64` embeds the
  same functions over IEEE 754 binary64 values: sums and differences round
  to nearest (ties to even), overflow to an infinity, and `json.Marshal`
  returns an error on an infinity or a NaN, so every `if err != nil` branch
  after a `json.Marshal` is present there.  Where no number read or formed
  is rounded the two embeddings leave the same stub (`EPC.Float64.Mint_agrees`
  and the theorems next to it).  Go strings are valid Unicode text.
* A stored byte string is represented by the JSON document it parses to
  (`Doc`).  `json.Marshal` builds the object with the struct's tagged fields
  in declaration order; `json.Unmarshal` walks the object's members in
  order, assigns the members whose name is a field tag, ignores the others,
  leaves a field alone on `null`, and fails on a member of the wrong JSON
  type.  Member names are compared exactly.
* The transaction stub (`ctx.GetStub()`) is a record: the committed world
  state that `GetState` reads, the `PutState` calls issued so far, the event
  set by `SetEvent`, the transaction id, the wall clock read by
  `time.Now()`, and the history index read by `GetHistoryForKey`.  `GetState`
  and `PutState` themselves never fail (every key this contract builds is
  non-empty), and neither does the history iterator.
* The host commits nothing of an invocation that returns an error.  The
  exact-decimal model does not lean on that: `EPC.exec` applies every write
  an invocation issued, and the theorems show where a failing call has
  issued none.  `EPC.Float64.exec` follows the host: it keeps the prior
  store when the invocation returned an error (`EPC.Float64.commit`).
* A Go `error` value is one constructor of `EPCError` per `fmt.Errorf` site.

The REC token contract and the DID contract of the same repository are
embedded in the namespaces `REC` and `DID`, each with its own conventions.
-/

namespace EPC

/-! ## Stored documents -/

/-- The value of one member of a JSON object, as far as the decoders of this
contract distinguish values: `other` stands for booleans, arrays and nested
objects. -/
inductive JSONValue where
  | null
  | number (q : ℚ)
  | string (s : String)
  | other
  deriving DecidableEq

/-- The content of a byte string held by the world state: a JSON object, the
JSON literal `null`, or anything that `json.Unmarshal` into a struct rejects
(invalid JSON, or JSON of another shape). -/
inductive Doc where
  | object (fields : List (String × JSONValue))
  | null
  | undecodable
  deriving DecidableEq

/-- Assignment of a JSON member to a Go `string` field. -/
def setString (v : JSONValue) (old : String) : Option String :=
  match v with
  | .string s => some s
  | .null => some old
  | _ => none

/-- Assignment of a JSON member to a Go `float64` field. -/
def setNumber (v : JSONValue) (old : ℚ) : Option ℚ :=
  match v with
  | .number q => some q
  | .null => some old
  | _ => none

/-! ## Records (epc.go, lines 17-55) -/

/-- Go struct `TokenBalance`. -/
structure TokenBalance where
  UserID : String
  Balance : ℚ
  LockedBalance : ℚ
  UpdatedAt : String
  deriving DecidableEq

/-- Go struct `TokenTransaction`. -/
structure TokenTransaction where
  TxID : String
  /-- Go field `Type` (a reserved word here): MINT, BURN, TRANSFER, LOCK or UNLOCK. -/
  Type_ : String
  From : String
  To : String
  Amount : ℚ
  Reason : String
  RefID : String
  CreatedAt : String
  deriving DecidableEq

/-- Go struct `PriceRecord`. -/
structure PriceRecord where
  PriceID : String
  Source : String
  Price : ℚ
  Currency : String
  BasketPrice : ℚ
  Timestamp : String
  RecordedAt : String
  deriving DecidableEq

/-- Go struct `TokenSupply`. -/
structure TokenSupply where
  TotalSupply : ℚ
  TotalMinted : ℚ
  TotalBurned : ℚ
  CurrentPrice : ℚ
  UpdatedAt : String
  deriving DecidableEq

/-- The value `json.Marshal` produces for a `TokenBalance`. -/
def TokenBalance.marshal (b : TokenBalance) : Doc :=
  .object [("userId", .string b.UserID), ("balance", .number b.Balance),
    ("lockedBalance", .number b.LockedBalance), ("updatedAt", .string b.UpdatedAt)]

/-- One step of `json.Unmarshal` into a `TokenBalance`: the member `kv`. -/
def TokenBalance.setField (b : TokenBalance) (kv : String × JSONValue) : Option TokenBalance :=
  if kv.1 = "userId" then (setString kv.2 b.UserID).map fun s => { b with UserID := s }
  else if kv.1 = "balance" then (setNumber kv.2 b.Balance).map fun q => { b with Balance := q }
  else if kv.1 = "lockedBalance" then
    (setNumber kv.2 b.LockedBalance).map fun q => { b with LockedBalance := q }
  else if kv.1 = "updatedAt" then
    (setString kv.2 b.UpdatedAt).map fun s => { b with UpdatedAt := s }
  else some b

/-- The result of `json.Unmarshal(bytes, &balance)` on a zero `TokenBalance`;
`none` is a decoding error. -/
def TokenBalance.unmarshal : Doc → Option TokenBalance
  | .object fs => fs.foldlM TokenBalance.setField ⟨"", 0, 0, ""⟩
  | .null => some ⟨"", 0, 0, ""⟩
  | .undecodable => none

/-- The value `json.Marshal` produces for a `TokenSupply`. -/
def TokenSupply.marshal (s : TokenSupply) : Doc :=
  .object [("totalSupply", .number s.TotalSupply), ("totalMinted", .number s.TotalMinted),
    ("totalBurned", .number s.TotalBurned), ("currentPrice", .number s.CurrentPrice),
    ("updatedAt", .string s.UpdatedAt)]

/-- One step of `json.Unmarshal` into a `TokenSupply`. -/
def TokenSupply.setField (s : TokenSupply) (kv : String × JSONValue) : Option TokenSupply :=
  if kv.1 = "totalSupply" then
    (setNumber kv.2 s.TotalSupply).map fun q => { s with TotalSupply := q }
  else if kv.1 = "totalMinted" then
    (setNumber kv.2 s.TotalMinted).map fun q => { s with TotalMinted := q }
  else if kv.1 = "totalBurned" then
    (setNumber kv.2 s.TotalBurned).map fun q => { s with TotalBurned := q }
  else if kv.1 = "currentPrice" then
    (setNumber kv.2 s.CurrentPrice).map fun q => { s with CurrentPrice := q }
  else if kv.1 = "updatedAt" then
    (setString kv.2 s.UpdatedAt).map fun t => { s with UpdatedAt := t }
  else some s

/-- The result of `json.Unmarshal(bytes, &supply)` on a zero `TokenSupply`. -/
def TokenSupply.unmarshal : Doc → Option TokenSupply
  | .object fs => fs.foldlM TokenSupply.setField ⟨0, 0, 0, 0, ""⟩
  | .null => some ⟨0, 0, 0, 0, ""⟩
  | .undecodable => none

/-- The value `json.Marshal` produces for a `PriceRecord`. -/
def PriceRecord.marshal (r : PriceRecord) : Doc :=
  .object [("priceId", .string r.PriceID), ("source", .string r.Source),
    ("price", .number r.Price), ("currency", .string r.Currency),
    ("basketPrice", .number r.BasketPrice), ("timestamp", .string r.Timestamp),
    ("recordedAt", .string r.RecordedAt)]

/-- One step of `json.Unmarshal` into a `PriceRecord`. -/
def PriceRecord.setField (r : PriceRecord) (kv : String × JSONValue) : Option PriceRecord :=
  if kv.1 = "priceId" then (setString kv.2 r.PriceID).map fun s => { r with PriceID := s }
  else if kv.1 = "source" then (setString kv.2 r.Source).map fun s => { r with Source := s }
  else if kv.1 = "price" then (setNumber kv.2 r.Price).map fun q => { r with Price := q }
  else if kv.1 = "currency" then
    (setString kv.2 r.Currency).map fun s => { r with Currency := s }
  else if kv.1 = "basketPrice" then
    (setNumber kv.2 r.BasketPrice).map fun q => { r with BasketPrice := q }
  else if kv.1 = "timestamp" then
    (setString kv.2 r.Timestamp).map fun s => { r with Timestamp := s }
  else if kv.1 = "recordedAt" then
    (setString kv.2 r.RecordedAt).map fun s => { r with RecordedAt := s }
  else some r

/-- The result of `json.Unmarshal(bytes, &record)` on a zero `PriceRecord`. -/
def PriceRecord.unmarshal : Doc → Option PriceRecord
  | .object fs => fs.foldlM PriceRecord.setField ⟨"", "", 0, "", 0, "", ""⟩
  | .null => some ⟨"", "", 0, "", 0, "", ""⟩
  | .undecodable => none

/-- The value `json.Marshal` produces for a `TokenTransaction`. -/
def TokenTransaction.marshal (t : TokenTransaction) : Doc :=
  .object [("txId", .string t.TxID), ("type", .string t.Type_), ("from", .string t.From),
    ("to", .string t.To), ("amount", .number t.Amount), ("reason", .string t.Reason),
    ("refId", .string t.RefID), ("createdAt", .string t.CreatedAt)]

/-- One step of `json.Unmarshal` into a `TokenTransaction`. -/
def TokenTransaction.setField (t : TokenTransaction) (kv : String × JSONValue) :
    Option TokenTransaction :=
  if kv.1 = "txId" then (setString kv.2 t.TxID).map fun s => { t with TxID := s }
  else if kv.1 = "type" then (setString kv.2 t.Type_).map fun s => { t with Type_ := s }
  else if kv.1 = "from" then (setString kv.2 t.From).map fun s => { t with From := s }
  else if kv.1 = "to" then (setString kv.2 t.To).map fun s => { t with To := s }
  else if kv.1 = "amount" then (setNumber kv.2 t.Amount).map fun q => { t with Amount := q }
  else if kv.1 = "reason" then (setString kv.2 t.Reason).map fun s => { t with Reason := s }
  else if kv.1 = "refId" then (setString kv.2 t.RefID).map fun s => { t with RefID := s }
  else if kv.1 = "createdAt" then
    (setString kv.2 t.CreatedAt).map fun s => { t with CreatedAt := s }
  else some t

/-- The result of `json.Unmarshal(bytes, &tx)` on a zero `TokenTransaction`. -/
def TokenTransaction.unmarshal : Doc → Option TokenTransaction
  | .object fs => fs.foldlM TokenTransaction.setField ⟨"", "", "", "", 0, "", "", ""⟩
  | .null => some ⟨"", "", "", "", 0, "", "", ""⟩
  | .undecodable => none

/-! ## Errors -/

/-- The errors the contract returns, one constructor per `fmt.Errorf` site
(the sites that wrap a stub or marshalling failure, which the model never
takes, are left out). -/
inductive EPCError where
  /-- In `SetPrice`: the price must be greater than 0. -/
  | priceNotPositive
  /-- In `SetPrice`: the basket price must be greater than 0. -/
  | basketPriceNotPositive
  /-- In `GetPrice`: there is no price data. -/
  | noPriceData
  /-- In `GetPrice`: the stored price does not decode. -/
  | priceDecode
  /-- In `Mint`: the minted amount must be greater than 0. -/
  | mintAmountNotPositive
  /-- In `Burn`: the burnt amount must be greater than 0. -/
  | burnAmountNotPositive
  /-- In `Burn`: insufficient balance (current balance, required amount). -/
  | insufficientBalance (current required : ℚ)
  /-- In `Transfer`: the transferred amount must be greater than 0. -/
  | transferAmountNotPositive
  /-- In `Transfer`: sender and receiver are the same account. -/
  | selfTransfer
  /-- In `Transfer` and `Lock`: insufficient available balance (available, required). -/
  | insufficientAvailable (available required : ℚ)
  /-- In `Lock`: the locked amount must be greater than 0. -/
  | lockAmountNotPositive
  /-- In `Unlock`: the released amount must be greater than 0. -/
  | unlockAmountNotPositive
  /-- In `Unlock`: insufficient locked balance (locked, requested). -/
  | insufficientLocked (locked requested : ℚ)
  /-- In `getOrCreateBalance`: the stored balance does not decode. -/
  | balanceDecode
  /-- In `getSupply`: the stored supply does not decode. -/
  | supplyDecode
  deriving DecidableEq

/-- The spec's error class InsufficientFunds: a debit, transfer or lock that
exceeds what the account holds. -/
def EPCError.isInsufficientFunds : EPCError → Bool
  | .insufficientBalance _ _ => true
  | .insufficientAvailable _ _ => true
  | _ => false

/-- The spec's error class InsufficientLock. -/
def EPCError.isInsufficientLock : EPCError → Bool
  | .insufficientLocked _ _ => true
  | _ => false

/-- The spec's error class NotFound. -/
def EPCError.isNotFound : EPCError → Bool
  | .noPriceData => true
  | _ => false

/-- The spec's error class ValidationError. -/
def EPCError.isValidation : EPCError → Bool
  | .priceNotPositive => true
  | .basketPriceNotPositive => true
  | .mintAmountNotPositive => true
  | .burnAmountNotPositive => true
  | .transferAmountNotPositive => true
  | .selfTransfer => true
  | .lockAmountNotPositive => true
  | .unlockAmountNotPositive => true
  | _ => false

/-! ## The transaction stub -/

/-- The world state: the bytes stored under each key, `none` for a key that
was never written. -/
abbrev Store := String → Option Doc

/-- The ledger on which nothing has been written. -/
def emptyStore : Store := fun _ => none

/-- The store with `v` written under `k`. -/
def Store.put (s : Store) (k : String) (v : Doc) : Store :=
  fun k' => if k' = k then some v else s k'

/-- What the host supplies to one invocation: the transaction id returned by
`GetTxID` and the wall clock, `clock n` being the RFC 3339 text of the
`n`-th `time.Now()` read of the invocation. -/
structure Env where
  txID : String
  clock : Nat → String
  /-- The timestamp of the transaction header (`GetTxTimestamp`).  No operation
  of the contract reads it, so the stub does not carry it. -/
  txTimestamp : String := ""

/-- The stub of one invocation. -/
structure Stub where
  /-- Committed world state, read by `GetState`. -/
  state : Store
  /-- The `PutState` calls issued so far, oldest first. -/
  writes : List (String × Doc)
  /-- The event set by `SetEvent`, if any (a later call replaces it). -/
  event : Option (String × Doc)
  /-- Transaction id. -/
  txID : String
  /-- Wall clock. -/
  clock : Nat → String
  /-- Number of `time.Now()` reads made so far. -/
  ticks : Nat
  /-- The host's history index, read by `GetHistoryForKey`: the values each key
  has held, in the order the history iterator yields them.  Only the history
  query reads it; a stub built without one has an empty index. -/
  history : String → List Doc := fun _ => []

/-- The stub at the start of an invocation on the committed state `s`. -/
def newStub (env : Env) (s : Store) : Stub :=
  { state := s, writes := [], event := none, txID := env.txID, clock := env.clock, ticks := 0 }

/-- Stub method `GetState`: reads the committed state (writes of the running
invocation are not visible to it). -/
def Stub.GetState (st : Stub) (key : String) : Option Doc := st.state key

/-- Stub method `PutState`. -/
def Stub.PutState (st : Stub) (key : String) (value : Doc) : Stub :=
  { st with writes := st.writes ++ [(key, value)] }

/-- Stub method `GetHistoryForKey`: the versions the iterator yields for the
key, first to last. -/
def Stub.GetHistoryForKey (st : Stub) (key : String) : List Doc := st.history key

/-- Stub method `SetEvent`. -/
def Stub.SetEvent (st : Stub) (name : String) (payload : Doc) : Stub :=
  { st with event := some (name, payload) }

/-- The text `time.Now().UTC().Format(time.RFC3339)` evaluates to. -/
def Stub.now (st : Stub) : String := st.clock st.ticks

/-- The stub after one `time.Now()` read. -/
def Stub.tick (st : Stub) : Stub := { st with ticks := st.ticks + 1 }

/-- The world state once every `PutState` of the invocation has been applied,
in the order issued. -/
def Stub.ledger (st : Stub) : Store :=
  st.writes.foldl (fun s kv => s.put kv.1 kv.2) st.state

/-! ## Internal helpers (epc.go, lines 454-508) -/

/-- Go `getOrCreateBalance`: the stored balance of `userID`, or a zero record
stamped with the current time when nothing is stored. -/
def getOrCreateBalance (st : Stub) (userID : String) : Except EPCError TokenBalance × Stub :=
  match st.GetState ("BAL_" ++ userID) with
  | none =>
    (.ok { UserID := userID, Balance := 0, LockedBalance := 0, UpdatedAt := st.now }, st.tick)
  | some balanceJSON =>
    match TokenBalance.unmarshal balanceJSON with
    | none => (.error .balanceDecode, st)
    | some balance => (.ok balance, st)

/-- Go `saveBalance`: stores the record under the key built from its own
`UserID` field. -/
def saveBalance (st : Stub) (balance : TokenBalance) : Stub :=
  st.PutState ("BAL_" ++ balance.UserID) balance.marshal

/-- Go `getSupply`: the stored supply, or a zero record when nothing is stored. -/
def getSupply (st : Stub) : Except EPCError TokenSupply × Stub :=
  match st.GetState "EPC_SUPPLY" with
  | none =>
    (.ok { TotalSupply := 0, TotalMinted := 0, TotalBurned := 0, CurrentPrice := 0,
           UpdatedAt := st.now }, st.tick)
  | some supplyJSON =>
    match TokenSupply.unmarshal supplyJSON with
    | none => (.error .supplyDecode, st)
    | some supply => (.ok supply, st)

/-! ## Public operations -/

/-- Go `InitLedger` (lines 58-73). -/
def InitLedger (st : Stub) : Except EPCError Unit × Stub :=
  let supply : TokenSupply :=
    { TotalSupply := 0, TotalMinted := 0, TotalBurned := 0, CurrentPrice := 0,
      UpdatedAt := st.now }
  let st := st.tick
  (.ok (), st.PutState "EPC_SUPPLY" supply.marshal)

/-- Go `SetPrice` (lines 76-123). -/
def SetPrice (st : Stub) (priceID source : String) (price : ℚ) (currency : String)
    (basketPrice : ℚ) (timestamp : String) : Except EPCError Unit × Stub :=
  if price ≤ 0 then (.error .priceNotPositive, st)
  else if basketPrice ≤ 0 then (.error .basketPriceNotPositive, st)
  else
    let record : PriceRecord :=
      { PriceID := priceID, Source := source, Price := price, Currency := currency,
        BasketPrice := basketPrice, Timestamp := timestamp, RecordedAt := st.now }
    let st := st.tick
    let recordJSON := record.marshal
    let st := st.PutState ("PRICE_" ++ priceID) recordJSON
    let st := st.PutState "EPC_LATEST_PRICE" recordJSON
    match getSupply st with
    | (.error err, st) => (.error err, st)
    | (.ok supply, st) =>
      let supply := { supply with CurrentPrice := basketPrice }
      let supply := { supply with UpdatedAt := st.now }
      let st := st.tick
      (.ok (), st.PutState "EPC_SUPPLY" supply.marshal)

/-- Go `GetPrice` (lines 126-141). -/
def GetPrice (st : Stub) : Except EPCError PriceRecord × Stub :=
  match st.GetState "EPC_LATEST_PRICE" with
  | none => (.error .noPriceData, st)
  | some recordJSON =>
    match PriceRecord.unmarshal recordJSON with
    | none => (.error .priceDecode, st)
    | some record => (.ok record, st)

/-- The loop of `GetPriceHistory` (lines 151-163) over the versions still to
be read: a version that does not decode is skipped (`continue`), a decoded one
is appended to `records`. -/
def collectPriceRecords : List Doc → List PriceRecord → List PriceRecord
  | [], records => records
  | value :: rest, records =>
    match PriceRecord.unmarshal value with
    | none => collectPriceRecords rest records
    | some record => collectPriceRecords rest (records ++ [record])

/-- Go `GetPriceHistory` (lines 144-166). -/
def GetPriceHistory (st : Stub) (priceID : String) :
    Except EPCError (List PriceRecord) × Stub :=
  let historyIter := st.GetHistoryForKey ("PRICE_" ++ priceID)
  (.ok (collectPriceRecords historyIter []), st)

/-- Go `Mint` (lines 169-228). -/
def Mint (st : Stub) (userID : String) (amount : ℚ) (reason refID : String) :
    Except EPCError Unit × Stub :=
  if amount ≤ 0 then (.error .mintAmountNotPositive, st)
  else
    match getOrCreateBalance st userID with
    | (.error err, st) => (.error err, st)
    | (.ok balance, st) =>
      let balance := { balance with Balance := balance.Balance + amount }
      let balance := { balance with UpdatedAt := st.now }
      let st := st.tick
      let st := saveBalance st balance
      match getSupply st with
      | (.error err, st) => (.error err, st)
      | (.ok supply, st) =>
        let supply := { supply with TotalSupply := supply.TotalSupply + amount }
        let supply := { supply with TotalMinted := supply.TotalMinted + amount }
        let supply := { supply with UpdatedAt := st.now }
        let st := st.tick
        let st := st.PutState "EPC_SUPPLY" supply.marshal
        let txID := st.txID
        let tx : TokenTransaction :=
          { TxID := txID, Type_ := "MINT", From := "", To := userID, Amount := amount,
            Reason := reason, RefID := refID, CreatedAt := st.now }
        let st := st.tick
        let txJSON := tx.marshal
        let st := st.PutState ("TX_" ++ txID) txJSON
        let st := st.SetEvent "MintEvent" txJSON
        (.ok (), st)

/-- Go `Burn` (lines 231-293). -/
def Burn (st : Stub) (userID : String) (amount : ℚ) (reason refID : String) :
    Except EPCError Unit × Stub :=
  if amount ≤ 0 then (.error .burnAmountNotPositive, st)
  else
    match getOrCreateBalance st userID with
    | (.error err, st) => (.error err, st)
    | (.ok balance, st) =>
      if balance.Balance < amount then
        (.error (.insufficientBalance balance.Balance amount), st)
      else
        let balance := { balance with Balance := balance.Balance - amount }
        let balance := { balance with UpdatedAt := st.now }
        let st := st.tick
        let st := saveBalance st balance
        match getSupply st with
        | (.error err, st) => (.error err, st)
        | (.ok supply, st) =>
          let supply := { supply with TotalSupply := supply.TotalSupply - amount }
          let supply := { supply with TotalBurned := supply.TotalBurned + amount }
          let supply := { supply with UpdatedAt := st.now }
          let st := st.tick
          let st := st.PutState "EPC_SUPPLY" supply.marshal
          let txID := st.txID
          let tx : TokenTransaction :=
            { TxID := txID, Type_ := "BURN", From := userID, To := "", Amount := amount,
              Reason := reason, RefID := refID, CreatedAt := st.now }
          let st := st.tick
          let txJSON := tx.marshal
          let st := st.PutState ("TX_" ++ txID) txJSON
          let st := st.SetEvent "BurnEvent" txJSON
          (.ok (), st)

/-- Go `Transfer` (lines 296-356). -/
def Transfer (st : Stub) (fromUserID toUserID : String) (amount : ℚ) (reason refID : String) :
    Except EPCError Unit × Stub :=
  if amount ≤ 0 then (.error .transferAmountNotPositive, st)
  else if fromUserID = toUserID then (.error .selfTransfer, st)
  else
    match getOrCreateBalance st fromUserID with
    | (.error err, st) => (.error err, st)
    | (.ok fromBalance, st) =>
      let availableBalance := fromBalance.Balance - fromBalance.LockedBalance
      if availableBalance < amount then
        (.error (.insufficientAvailable availableBalance amount), st)
      else
        match getOrCreateBalance st toUserID with
        | (.error err, st) => (.error err, st)
        | (.ok toBalance, st) =>
          let now := st.now
          let st := st.tick
          let fromBalance := { fromBalance with Balance := fromBalance.Balance - amount }
          let fromBalance := { fromBalance with UpdatedAt := now }
          let toBalance := { toBalance with Balance := toBalance.Balance + amount }
          let toBalance := { toBalance with UpdatedAt := now }
          let st := saveBalance st fromBalance
          let st := saveBalance st toBalance
          let txID := st.txID
          let tx : TokenTransaction :=
            { TxID := txID, Type_ := "TRANSFER", From := fromUserID, To := toUserID,
              Amount := amount, Reason := reason, RefID := refID, CreatedAt := now }
          let txJSON := tx.marshal
          let st := st.PutState ("TX_" ++ txID) txJSON
          let st := st.SetEvent "TransferEvent" txJSON
          (.ok (), st)

/-- Go `Lock` (lines 359-399). -/
def Lock (st : Stub) (userID : String) (amount : ℚ) (refID : String) :
    Except EPCError Unit × Stub :=
  if amount ≤ 0 then (.error .lockAmountNotPositive, st)
  else
    match getOrCreateBalance st userID with
    | (.error err, st) => (.error err, st)
    | (.ok balance, st) =>
      let availableBalance := balance.Balance - balance.LockedBalance
      if availableBalance < amount then
        (.error (.insufficientAvailable availableBalance amount), st)
      else
        let balance := { balance with LockedBalance := balance.LockedBalance + amount }
        let balance := { balance with UpdatedAt := st.now }
        let st := st.tick
        let st := saveBalance st balance
        let txID := st.txID
        let tx : TokenTransaction :=
          { TxID := txID, Type_ := "LOCK", From := userID, To := "", Amount := amount,
            Reason := "trade_lock", RefID := refID, CreatedAt := st.now }
        let st := st.tick
        let txJSON := tx.marshal
        let st := st.PutState ("TX_" ++ txID) txJSON
        let st := st.SetEvent "LockEvent" txJSON
        (.ok (), st)

/-- Go `Unlock` (lines 402-440). -/
def Unlock (st : Stub) (userID : String) (amount : ℚ) (refID : String) :
    Except EPCError Unit × Stub :=
  if amount ≤ 0 then (.error .unlockAmountNotPositive, st)
  else
    match getOrCreateBalance st userID with
    | (.error err, st) => (.error err, st)
    | (.ok balance, st) =>
      if balance.LockedBalance < amount then
        (.error (.insufficientLocked balance.LockedBalance amount), st)
      else
        let balance := { balance with LockedBalance := balance.LockedBalance - amount }
        let balance := { balance with UpdatedAt := st.now }
        let st := st.tick
        let st := saveBalance st balance
        let txID := st.txID
        let tx : TokenTransaction :=
          { TxID := txID, Type_ := "UNLOCK", From := "", To := userID, Amount := amount,
            Reason := "trade_unlock", RefID := refID, CreatedAt := st.now }
        let st := st.tick
        let txJSON := tx.marshal
        let st := st.PutState ("TX_" ++ txID) txJSON
        let st := st.SetEvent "UnlockEvent" txJSON
        (.ok (), st)

/-- Go `BalanceOf` (lines 443-445). -/
def BalanceOf (st : Stub) (userID : String) : Except EPCError TokenBalance × Stub :=
  getOrCreateBalance st userID

/-- Go `TotalSupply` (lines 448-450). -/
def TotalSupply (st : Stub) : Except EPCError TokenSupply × Stub :=
  getSupply st

/-! ## Ledger-level view -/

/-- A call of one of the state-changing operations, with its arguments. -/
inductive Call where
  | initLedger
  | setPrice (priceID source : String) (price : ℚ) (currency : String) (basketPrice : ℚ)
      (timestamp : String)
  | mint (userID : String) (amount : ℚ) (reason refID : String)
  | burn (userID : String) (amount : ℚ) (reason refID : String)
  | transfer (fromUserID toUserID : String) (amount : ℚ) (reason refID : String)
  | lock (userID : String) (amount : ℚ) (refID : String)
  | unlock (userID : String) (amount : ℚ) (refID : String)

/-- The operation a call invokes. -/
def Call.run : Call → Stub → Except EPCError Unit × Stub
  | .initLedger, st => InitLedger st
  | .setPrice priceID source price currency basketPrice timestamp, st =>
    SetPrice st priceID source price currency basketPrice timestamp
  | .mint userID amount reason refID, st => Mint st userID amount reason refID
  | .burn userID amount reason refID, st => Burn st userID amount reason refID
  | .transfer fromUserID toUserID amount reason refID, st =>
    Transfer st fromUserID toUserID amount reason refID
  | .lock userID amount refID, st => Lock st userID amount refID
  | .unlock userID amount refID, st => Unlock st userID amount refID

/-- The world state one invocation leaves behind: every `PutState` it issued
is applied, whether the call returned an error or not (no rollback by the host
is assumed). -/
def exec (s : Store) (inv : Env × Call) : Store :=
  (inv.2.run (newStub inv.1 s)).2.ledger

/-- The world state after a sequence of invocations, each run on the state
the previous one left. -/
def execAll (s : Store) (invs : List (Env × Call)) : Store :=
  invs.foldl exec s

/-- The environment used to read a store through the query operations (the
fields read below do not depend on it). -/
def readEnv : Env := { txID := "", clock := fun _ => "" }

/-- The record `BalanceOf(u)` returns on the store `s`; `none` when the query
fails. -/
def balanceRecord (s : Store) (u : String) : Option TokenBalance :=
  match (BalanceOf (newStub readEnv s) u).1 with
  | .ok b => some b
  | .error _ => none

/-- The record `TotalSupply()` returns on the store `s`; `none` when the query
fails. -/
def supplyOf (s : Store) : Option TokenSupply :=
  match (TotalSupply (newStub readEnv s)).1 with
  | .ok sup => some sup
  | .error _ => none

/-- A ledger state in the sense of the state layout: whatever is stored under
`BAL_u` is a serialized balance record of account `u`, and whatever is stored
under `EPC_SUPPLY` is a serialized supply record. -/
def LedgerState (s : Store) : Prop :=
  (∀ u d, s ("BAL_" ++ u) = some d → ∃ b, TokenBalance.unmarshal d = some b ∧ b.UserID = u) ∧
  (∀ d, s "EPC_SUPPLY" = some d → ∃ sup, TokenSupply.unmarshal d = some sup)

/-- Both partitions of every readable account are non-negative. -/
def NonNeg (s : Store) : Prop :=
  ∀ u b, balanceRecord s u = some b → 0 ≤ b.Balance ∧ 0 ≤ b.LockedBalance

/-- The supply record balances: `totalSupply = totalMinted - totalBurned`. -/
def SupplyBalanced (s : Store) : Prop :=
  ∃ sup, supplyOf s = some sup ∧ sup.TotalSupply = sup.TotalMinted - sup.TotalBurned

/-- The invariant carried along every run of the contract. -/
def Inv (s : Store) : Prop :=
  LedgerState s ∧ NonNeg s ∧ SupplyBalanced s

/-- An environment for worked examples: transaction id `txID` and a clock that
stands still. -/
def exampleEnv (txID : String) : Env :=
  { txID := txID, clock := fun _ => "2024-01-01T00:00:00Z" }

/-- Worked example: the ledger after `Mint("alice", 100, "reward", "")` on the
empty ledger. -/
def afterMint : Store :=
  execAll emptyStore [(exampleEnv "tx1", .mint "alice" 100 "reward" "")]

/-- Worked example: the ledger after `Mint("alice", 100, "reward", "")` and
`Lock("alice", 70, "order1")`. -/
def afterLock : Store :=
  execAll emptyStore
    [(exampleEnv "tx1", .mint "alice" 100 "reward" ""), (exampleEnv "tx2", .lock "alice" 70 "order1")]

/-- Worked example: the ledger after `Mint("alice", 100, "reward", "")`,
`Lock("alice", 70, "order1")` and `Burn("alice", 50, "redeem", "")`. -/
def afterBurn : Store :=
  execAll emptyStore
    [(exampleEnv "tx1", .mint "alice" 100 "reward" ""), (exampleEnv "tx2", .lock "alice" 70 "order1"),
      (exampleEnv "tx3", .burn "alice" 50 "redeem" "")]

/-! ## Write sets and the transaction log -/

/-- The key holds bookkeeping data of the token: a balance or the supply. -/
def IsBookKey (k : String) : Prop :=
  (∃ u, k = "BAL_" ++ u) ∨ k = "EPC_SUPPLY"

/-- The key belongs to the transaction log. -/
def IsTxKey (k : String) : Prop :=
  ∃ t, k = "TX_" ++ t

/-- The keys a call can write when it runs in the environment `env`. -/
def Call.mayWrite (env : Env) : Call → String → Prop
  | .initLedger, k => k = "EPC_SUPPLY"
  | .setPrice priceID _ _ _ _ _, k =>
    k = "PRICE_" ++ priceID ∨ k = "EPC_LATEST_PRICE" ∨ k = "EPC_SUPPLY"
  | .mint _ _ _ _, k => IsBookKey k ∨ k = "TX_" ++ env.txID
  | .burn _ _ _ _, k => IsBookKey k ∨ k = "TX_" ++ env.txID
  | .transfer _ _ _ _ _, k => IsBookKey k ∨ k = "TX_" ++ env.txID
  | .lock _ _ _, k => IsBookKey k ∨ k = "TX_" ++ env.txID
  | .unlock _ _ _, k => IsBookKey k ∨ k = "TX_" ++ env.txID

/-- What a token operation (Mint, Burn, Transfer, Lock, Unlock) run on the
store `s` has done once it returns `r`: it never touches the committed state;
when it fails it has set no event and written bookkeeping keys at most, and
none at all unless the failure is the supply record not decoding; when
it succeeds its last write is the log entry `entry createdAt` under
`TX_txID`, every earlier write is on a bookkeeping key, and the event `name`
carries the same serialized entry. -/
def TokenOutcome (s : Store) (r : Except EPCError Unit × Stub) (txID name : String)
    (entry : String → TokenTransaction) : Prop :=
  r.2.state = s ∧
  (((∃ e, r.1 = .error e ∧ (e ≠ .supplyDecode → r.2.writes = [])) ∧ r.2.event = none ∧
      ∀ kv ∈ r.2.writes, IsBookKey kv.1) ∨
   (r.1 = .ok () ∧ ∃ pre createdAt,
      r.2.writes = pre ++ [("TX_" ++ txID, (entry createdAt).marshal)] ∧
      (∀ kv ∈ pre, IsBookKey kv.1) ∧
      r.2.event = some (name, (entry createdAt).marshal)))

/-- The call was rejected without effect: it returned a validation error,
issued no write, set no event, and the store is as it was. -/
def Rejected (s : Store) (r : Except EPCError Unit × Stub) : Prop :=
  (∃ e, r.1 = .error e ∧ e.isValidation = true) ∧ r.2.writes = [] ∧ r.2.event = none ∧
    r.2.ledger = s

/-- The invocation wrote exactly one transaction entry, `tx` under the key
`TX_` followed by its transaction id (no earlier write is on a log key), and
set the event `name` with the same serialized entry as payload. -/
def LoggedOnce (st : Stub) (name : String) (tx : TokenTransaction) : Prop :=
  (∃ pre, st.writes = pre ++ [("TX_" ++ tx.TxID, tx.marshal)] ∧ ∀ kv ∈ pre, ¬ IsTxKey kv.1) ∧
    st.event = some (name, tx.marshal)

/-- The invocation wrote no transaction entry and set no event. -/
def LoggedNothing (st : Stub) : Prop :=
  (∀ kv ∈ st.writes, ¬ IsTxKey kv.1) ∧ st.event = none

/-! ## Price calls in a run -/

/-- The price record a `SetPrice` call stores when it succeeds: its arguments,
stamped with the first clock read of the invocation. -/
def Call.priceRecord (env : Env) : Call → Option PriceRecord
  | .setPrice priceID source price currency basketPrice timestamp =>
    some { PriceID := priceID, Source := source, Price := price, Currency := currency,
           BasketPrice := basketPrice, Timestamp := timestamp, RecordedAt := env.clock 0 }
  | _ => none

/-- The record of the call when it is a `SetPrice` that succeeds on `s`. -/
def successfulPrice (s : Store) (inv : Env × Call) : Option PriceRecord :=
  match (inv.2.run (newStub inv.1 s)).1 with
  | .ok _ => inv.2.priceRecord inv.1
  | .error _ => none

/-- The record of the most recent `SetPrice` call that succeeded in the run
`invs` started on `s`; `last` is the answer when there is none in the run. -/
def lastSuccessfulSetPrice : Store → Option PriceRecord → List (Env × Call) → Option PriceRecord
  | _, last, [] => last
  | s, last, inv :: rest =>
    lastSuccessfulSetPrice (exec s inv)
      (match successfulPrice s inv with
       | some record => some record
       | none => last) rest

/-- The records of the `SetPrice` calls with price id `priceID` that succeeded
in the run `invs` started on `s`, in call order. -/
def priceVersions (priceID : String) : Store → List (Env × Call) → List PriceRecord
  | _, [] => []
  | s, inv :: rest =>
    (match successfulPrice s inv with
     | some record => if record.PriceID = priceID then [record] else []
     | none => []) ++ priceVersions priceID (exec s inv) rest

/-! ## The versioned store -/

/-- The versions every key has held, oldest first. -/
abbrev History := String → List Doc

/-- The versioned store on which nothing was committed. -/
def emptyHistory : History := fun _ => []

/-- The value a write set holds for a key: that of the last `PutState` on it. -/
def lastWrite : List (String × Doc) → String → Option Doc
  | [], _ => none
  | kv :: rest, k =>
    match lastWrite rest k with
    | some d => some d
    | none => if kv.1 = k then some kv.2 else none

/-- Modelled from the spec: the host's versioned store, which is not part of
this repository.  Committing an invocation appends, for every key of its write
set, the written value as the newest version of that key. -/
def History.commit (h : History) (writes : List (String × Doc)) : History :=
  fun k =>
    match lastWrite writes k with
    | none => h k
    | some d => h k ++ [d]

/-- The world state of a versioned store: the newest version of every key. -/
def History.current (h : History) : Store :=
  fun k => (h k).getLast?

/-- Modelled from the spec: the history iterator yields the versions of a key
in commit order.  The stub of an invocation on the versioned store `h`. -/
def historyStub (env : Env) (h : History) : Stub :=
  { newStub env h.current with history := h }

/-- The versioned store one invocation leaves behind (as in `exec`, the write
set is committed whatever the call returned). -/
def vexec (h : History) (inv : Env × Call) : History :=
  h.commit (inv.2.run (newStub inv.1 h.current)).2.writes

/-- The versioned store after a sequence of invocations. -/
def vexecAll (h : History) (invs : List (Env × Call)) : History :=
  invs.foldl vexec h

/-! ## Further worked examples -/

/-- Worked example: a store whose `EPC_SUPPLY` bytes do not decode. -/
def corruptSupply : Store :=
  emptyStore.put "EPC_SUPPLY" .undecodable

/-- Worked example: two price updates under the same price id. -/
def twoPrices : List (Env × Call) :=
  [(exampleEnv "tx1", .setPrice "p1" "KPX" 10 "KRW" 12 "2024-01-01T00:00:00Z"),
   (exampleEnv "tx2", .setPrice "p1" "KPX" 20 "KRW" 22 "2024-01-02T00:00:00Z")]

/-! ## Key categories -/

/-- Key of the balance record of account `u` (`getOrCreateBalance`, line 455;
`saveBalance`, line 482). -/
def balanceKey (u : String) : String := "BAL_" ++ u

/-- Key of the price record with id `p` (`SetPrice`, line 100;
`GetPriceHistory`, line 145). -/
def priceKey (p : String) : String := "PRICE_" ++ p

/-- Key of the log entry of transaction `t` (lines 222, 287, 350, 393, 434). -/
def txKey (t : String) : String := "TX_" ++ t

/-- Key of the supply record (lines 68, 117, 207, 272, 496). -/
def supplyKey : String := "EPC_SUPPLY"

/-- Key of the latest price (lines 106, 127). -/
def latestPriceKey : String := "EPC_LATEST_PRICE"

/-! ## The wall clock -/

/-- The wall clocks of two environments give the same first `n` readings. -/
def SameReadings (n : Nat) (env env' : Env) : Prop :=
  ∀ k, k < n → env.clock k = env'.clock k

/-- Worked example: the environment of `exampleEnv` with the wall clock one
second further. -/
def laterEnv (txID : String) : Env :=
  { txID := txID, clock := fun _ => "2024-01-01T00:00:01Z" }

/-! ## Balances summed over the accounts -/

/-- The balance `BalanceOf(u)` reports on the store `s` (0 when the query
fails). -/
def balanceAmount (s : Store) (u : String) : ℚ :=
  match balanceRecord s u with
  | some b => b.Balance
  | none => 0

/-- The finite set `A` holds every account with a stored balance record. -/
def Covers (s : Store) (A : Finset String) : Prop :=
  ∀ u, s ("BAL_" ++ u) ≠ none → u ∈ A

/-- The finite set `A` is the set of accounts with a stored balance record. -/
def StoredAccounts (s : Store) (A : Finset String) : Prop :=
  ∀ u, u ∈ A ↔ s ("BAL_" ++ u) ≠ none

/-- Finitely many accounts are stored and their balances add up to `q`. -/
def SumIs (s : Store) (q : ℚ) : Prop :=
  ∃ A : Finset String, Covers s A ∧ A.sum (balanceAmount s) = q

/-- The supply record accounts for the stored balances: they add up to
`totalSupply`, and the running totals `totalMinted` and `totalBurned` are
non-negative. -/
def Accounted (s : Store) : Prop :=
  ∃ sup, supplyOf s = some sup ∧ SumIs s sup.TotalSupply ∧ 0 ≤ sup.TotalMinted ∧
    0 ≤ sup.TotalBurned

/-- Worked example: a run of the token operations on two accounts. -/
def exampleRun : List (Env × Call) :=
  [(exampleEnv "tx1", .mint "alice" 100 "reward" ""),
   (exampleEnv "tx2", .lock "alice" 70 "order1"),
   (exampleEnv "tx3", .transfer "alice" "bob" 20 "payment" ""),
   (exampleEnv "tx4", .burn "bob" 5 "redeem" ""),
   (exampleEnv "tx5", .setPrice "p1" "KPX" 10 "KRW" 12 "2024-01-01T00:00:00Z")]

/-! ## The scenario of the specification -/

/-- The five calls of the worked scenario; `env n` is the environment of the
`n`-th call, `reason n` and `refID n` the arguments the scenario leaves open. -/
def scenarioCalls (env : Nat → Env) (reason refID : Nat → String) : List (Env × Call) :=
  [(env 0, .mint "alice" 100 "reward" ""),
   (env 1, .lock "alice" 70 "order1"),
   (env 2, .transfer "alice" "bob" 50 (reason 2) (refID 2)),
   (env 3, .unlock "alice" 70 "order1"),
   (env 4, .transfer "alice" "bob" 50 (reason 4) (refID 4))]

/-- The ledger after the first `n` calls of the scenario, run on the empty
ledger. -/
def scenarioState (env : Nat → Env) (reason refID : Nat → String) (n : Nat) : Store :=
  execAll emptyStore ((scenarioCalls env reason refID).take n)

/-- What the call with index `n` of the scenario returns (`none` past the
last call). -/
def scenarioResult (env : Nat → Env) (reason refID : Nat → String) (n : Nat) :
    Option (Except EPCError Unit) :=
  ((scenarioCalls env reason refID).get? n).map
    (fun inv => (inv.2.run (newStub inv.1 (scenarioState env reason refID n))).1)

namespace Float64

/-! ## Binary64 arithmetic

Go's `float64` is the IEEE 754 binary64 format.  A value is a finite number, an
infinity or NaN; the two signed zeros are identified (nothing the contract
does tells them apart).  Sums and differences are the exact result rounded to
the nearest representable number, ties going to the even significand, and a
result of magnitude `2 ^ 1024` or more is an infinity.  Every finite value the
arithmetic or the decoder produces is representable; a `finite q` handed in as
an argument stands for the `float64` whose value is `q`. -/

/-- A `float64` value. -/
inductive F64 where
  | finite (q : ℚ)
  | posInf
  | negInf
  | nan
  deriving DecidableEq

/-- The power `2 ^ k` for an integer exponent. -/
def pow2 (k : ℤ) : ℚ :=
  if 0 ≤ k then ((2 ^ k.toNat : ℕ) : ℚ) else 1 / ((2 ^ (-k).toNat : ℕ) : ℚ)

/-- The number of halvings that bring `n` below 2, with `fuel` steps at most. -/
def log2Aux : ℕ → ℕ → ℕ
  | 0, _ => 0
  | fuel + 1, n => if n < 2 then 0 else log2Aux fuel (n / 2) + 1

/-- The exponent `e` with `2 ^ e ≤ n < 2 ^ (e + 1)`, for `n > 0`. -/
def natLog2 (n : ℕ) : ℕ := log2Aux n n

/-- The exponent `e` with `2 ^ e ≤ a < 2 ^ (e + 1)`, for a rational `a > 0`. -/
def ilog2 (a : ℚ) : ℤ :=
  let e0 : ℤ := (natLog2 a.num.natAbs : ℤ) - (natLog2 a.den : ℤ)
  if pow2 e0 ≤ a then e0 else e0 - 1

/-- The integer nearest to `x ≥ 0`, the even one of the two when `x` lies half
way. -/
def roundHalfEven (x : ℚ) : ℤ :=
  let f := x.floor
  let r := x - f
  if r < 1 / 2 then f
  else if 1 / 2 < r then f + 1
  else if f % 2 = 0 then f
  else f + 1

/-- The `float64` nearest to the number `q`: 53 significant bits, or a multiple
of `2 ^ (-1074)` below `2 ^ (-1022)`; an infinity from `2 ^ 1024` on. -/
def F64.round (q : ℚ) : F64 :=
  if q = 0 then .finite 0
  else
    let a := if q < 0 then -q else q
    let e := max (ilog2 a) (-1022)
    let ulp := pow2 (e - 52)
    let r := (roundHalfEven (a / ulp) : ℚ) * ulp
    if pow2 1024 ≤ r then (if q < 0 then .negInf else .posInf)
    else .finite (if q < 0 then -r else r)

/-- Go `-x`. -/
def F64.neg : F64 → F64
  | .finite q => .finite (-q)
  | .posInf => .negInf
  | .negInf => .posInf
  | .nan => .nan

/-- Go `x + y`. -/
def F64.add : F64 → F64 → F64
  | .finite x, .finite y => F64.round (x + y)
  | .nan, _ => .nan
  | _, .nan => .nan
  | .posInf, .negInf => .nan
  | .negInf, .posInf => .nan
  | .posInf, _ => .posInf
  | _, .posInf => .posInf
  | .negInf, _ => .negInf
  | _, .negInf => .negInf

/-- Go `x - y`. -/
def F64.sub (x y : F64) : F64 := x.add y.neg

/-- Go `x < y`: false when either side is NaN. -/
def F64.lt : F64 → F64 → Bool
  | .finite x, .finite y => decide (x < y)
  | .nan, _ => false
  | _, .nan => false
  | .negInf, .negInf => false
  | .negInf, _ => true
  | _, .negInf => false
  | .posInf, _ => false
  | _, .posInf => true

/-- Go `x <= y`: false when either side is NaN. -/
def F64.le : F64 → F64 → Bool
  | .finite x, .finite y => decide (x ≤ y)
  | .nan, _ => false
  | _, .nan => false
  | .negInf, _ => true
  | _, .posInf => true
  | .posInf, _ => false
  | _, .negInf => false

/-- The literal `0`. -/
def F64.zero : F64 := .finite 0

/-! ## The contract over binary64

The operations of `epc.go` once more, with amounts in `float64` arithmetic
and with the error paths of `json.Marshal`, which rejects infinities and NaN.
The stub, the store and the stored documents are those of the exact-decimal
embedding above; a JSON number decodes into a `float64` field as the nearest
representable value and is a decoding error when that is an infinity. -/

/-- The JSON number `json.Marshal` writes for a `float64` field; `none` is its
error on an infinity or NaN. -/
def F64.toJSON : F64 → Option JSONValue
  | .finite q => some (.number q)
  | _ => none

/-- Assignment of a JSON member to a Go `float64` field. -/
def setFloat (v : JSONValue) (old : F64) : Option F64 :=
  match v with
  | .number q =>
    match F64.round q with
    | .finite x => some (.finite x)
    | _ => none
  | .null => some old
  | _ => none

/-- Go struct `TokenBalance` (lines 18-23). -/
structure TokenBalance where
  UserID : String
  Balance : F64
  LockedBalance : F64
  UpdatedAt : String
  deriving DecidableEq

/-- Go struct `TokenTransaction` (lines 26-35). -/
structure TokenTransaction where
  TxID : String
  /-- Go field `Type`. -/
  Type_ : String
  From : String
  To : String
  Amount : F64
  Reason : String
  RefID : String
  CreatedAt : String
  deriving DecidableEq

/-- Go struct `PriceRecord` (lines 38-46). -/
structure PriceRecord where
  PriceID : String
  Source : String
  Price : F64
  Currency : String
  BasketPrice : F64
  Timestamp : String
  RecordedAt : String
  deriving DecidableEq

/-- Go struct `TokenSupply` (lines 49-55). -/
structure TokenSupply where
  TotalSupply : F64
  TotalMinted : F64
  TotalBurned : F64
  CurrentPrice : F64
  UpdatedAt : String
  deriving DecidableEq

/-- Go `json.Marshal(balance)`; `none` is its error. -/
def TokenBalance.marshal (b : TokenBalance) : Option Doc :=
  match b.Balance.toJSON, b.LockedBalance.toJSON with
  | some balance, some lockedBalance =>
    some (.object [("userId", .string b.UserID), ("balance", balance),
      ("lockedBalance", lockedBalance), ("updatedAt", .string b.UpdatedAt)])
  | _, _ => none

/-- One step of `json.Unmarshal` into a `TokenBalance`: the member `kv`. -/
def TokenBalance.setField (b : TokenBalance) (kv : String × JSONValue) : Option TokenBalance :=
  if kv.1 = "userId" then (setString kv.2 b.UserID).map fun s => { b with UserID := s }
  else if kv.1 = "balance" then (setFloat kv.2 b.Balance).map fun x => { b with Balance := x }
  else if kv.1 = "lockedBalance" then
    (setFloat kv.2 b.LockedBalance).map fun x => { b with LockedBalance := x }
  else if kv.1 = "updatedAt" then
    (setString kv.2 b.UpdatedAt).map fun s => { b with UpdatedAt := s }
  else some b

/-- The result of `json.Unmarshal(bytes, &balance)` on a zero `TokenBalance`;
`none` is a decoding error. -/
def TokenBalance.unmarshal : Doc → Option TokenBalance
  | .object fs => fs.foldlM TokenBalance.setField ⟨"", .zero, .zero, ""⟩
  | .null => some ⟨"", .zero, .zero, ""⟩
  | .undecodable => none

/-- Go `json.Marshal(supply)`; `none` is its error. -/
def TokenSupply.marshal (s : TokenSupply) : Option Doc :=
  match s.TotalSupply.toJSON, s.TotalMinted.toJSON, s.TotalBurned.toJSON,
    s.CurrentPrice.toJSON with
  | some totalSupply, some totalMinted, some totalBurned, some currentPrice =>
    some (.object [("totalSupply", totalSupply), ("totalMinted", totalMinted),
      ("totalBurned", totalBurned), ("currentPrice", currentPrice),
      ("updatedAt", .string s.UpdatedAt)])
  | _, _, _, _ => none

/-- One step of `json.Unmarshal` into a `TokenSupply`. -/
def TokenSupply.setField (s : TokenSupply) (kv : String × JSONValue) : Option TokenSupply :=
  if kv.1 = "totalSupply" then
    (setFloat kv.2 s.TotalSupply).map fun x => { s with TotalSupply := x }
  else if kv.1 = "totalMinted" then
    (setFloat kv.2 s.TotalMinted).map fun x => { s with TotalMinted := x }
  else if kv.1 = "totalBurned" then
    (setFloat kv.2 s.TotalBurned).map fun x => { s with TotalBurned := x }
  else if kv.1 = "currentPrice" then
    (setFloat kv.2 s.CurrentPrice).map fun x => { s with CurrentPrice := x }
  else if kv.1 = "updatedAt" then
    (setString kv.2 s.UpdatedAt).map fun t => { s with UpdatedAt := t }
  else some s

/-- The result of `json.Unmarshal(bytes, &supply)` on a zero `TokenSupply`. -/
def TokenSupply.unmarshal : Doc → Option TokenSupply
  | .object fs => fs.foldlM TokenSupply.setField ⟨.zero, .zero, .zero, .zero, ""⟩
  | .null => some ⟨.zero, .zero, .zero, .zero, ""⟩
  | .undecodable => none

/-- Go `json.Marshal(record)`; `none` is its error. -/
def PriceRecord.marshal (r : PriceRecord) : Option Doc :=
  match r.Price.toJSON, r.BasketPrice.toJSON with
  | some price, some basketPrice =>
    some (.object [("priceId", .string r.PriceID), ("source", .string r.Source),
      ("price", price), ("currency", .string r.Currency), ("basketPrice", basketPrice),
      ("timestamp", .string r.Timestamp), ("recordedAt", .string r.RecordedAt)])
  | _, _ => none

/-- Go `json.Marshal(tx)`; `none` is its error. -/
def TokenTransaction.marshal (t : TokenTransaction) : Option Doc :=
  match t.Amount.toJSON with
  | some amount =>
    some (.object [("txId", .string t.TxID), ("type", .string t.Type_),
      ("from", .string t.From), ("to", .string t.To), ("amount", amount),
      ("reason", .string t.Reason), ("refId", .string t.RefID),
      ("createdAt", .string t.CreatedAt)])
  | none => none

/-- The errors the contract returns, one constructor per `fmt.Errorf` site
(the sites that wrap a failure of the stub, which the model never takes, are
left out). -/
inductive EPCError where
  /-- In `SetPrice`: the price must be greater than 0 (line 78). -/
  | priceNotPositive
  /-- In `SetPrice`: the basket price must be greater than 0 (line 81). -/
  | basketPriceNotPositive
  /-- In `SetPrice`: the price record does not encode (line 96). -/
  | priceMarshal
  /-- In `Mint`: the minted amount must be greater than 0 (line 171). -/
  | mintAmountNotPositive
  /-- In `Burn`: the burnt amount must be greater than 0 (line 233). -/
  | burnAmountNotPositive
  /-- In `Burn`: insufficient balance (line 242). -/
  | insufficientBalance (current required : F64)
  /-- In `Transfer`: the transferred amount must be greater than 0 (line 298). -/
  | transferAmountNotPositive
  /-- In `Transfer`: sender and receiver are the same account (line 301). -/
  | selfTransfer
  /-- In `Transfer` and `Lock`: insufficient available balance (lines 311, 371). -/
  | insufficientAvailable (available required : F64)
  /-- In `Lock`: the locked amount must be greater than 0 (line 361). -/
  | lockAmountNotPositive
  /-- In `Unlock`: the released amount must be greater than 0 (line 404). -/
  | unlockAmountNotPositive
  /-- In `Unlock`: insufficient locked balance (line 413). -/
  | insufficientLocked (locked requested : F64)
  /-- In `getOrCreateBalance`: the stored balance does not decode (line 471). -/
  | balanceDecode
  /-- In `saveBalance`: the balance does not encode (line 480). -/
  | balanceMarshal
  /-- In `getSupply`: the stored supply does not decode (line 504). -/
  | supplyDecode
  /-- In `SetPrice`, `Mint` and `Burn`: the supply does not encode (lines 119,
  197, 263). -/
  | supplyMarshal
  /-- In `Mint`, `Burn` and `Transfer`: the log entry does not encode (lines 218,
  284, 347). -/
  | txMarshal
  deriving DecidableEq

/-- The spec's error class InsufficientFunds. -/
def EPCError.isInsufficientFunds : EPCError → Bool
  | .insufficientBalance _ _ => true
  | .insufficientAvailable _ _ => true
  | _ => false

/-- The spec's error class InsufficientLock. -/
def EPCError.isInsufficientLock : EPCError → Bool
  | .insufficientLocked _ _ => true
  | _ => false

/-- Go `getOrCreateBalance` (lines 454-475). -/
def getOrCreateBalance (st : Stub) (userID : String) : Except EPCError TokenBalance × Stub :=
  match st.GetState ("BAL_" ++ userID) with
  | none =>
    (.ok { UserID := userID, Balance := .zero, LockedBalance := .zero, UpdatedAt := st.now },
      st.tick)
  | some balanceJSON =>
    match TokenBalance.unmarshal balanceJSON with
    | none => (.error .balanceDecode, st)
    | some balance => (.ok balance, st)

/-- Go `saveBalance` (lines 477-484). -/
def saveBalance (st : Stub) (balance : TokenBalance) : Except EPCError Unit × Stub :=
  match balance.marshal with
  | none => (.error .balanceMarshal, st)
  | some balanceJSON => (.ok (), st.PutState ("BAL_" ++ balance.UserID) balanceJSON)

/-- Go `getSupply` (lines 486-508). -/
def getSupply (st : Stub) : Except EPCError TokenSupply × Stub :=
  match st.GetState "EPC_SUPPLY" with
  | none =>
    (.ok { TotalSupply := .zero, TotalMinted := .zero, TotalBurned := .zero,
           CurrentPrice := .zero, UpdatedAt := st.now }, st.tick)
  | some supplyJSON =>
    match TokenSupply.unmarshal supplyJSON with
    | none => (.error .supplyDecode, st)
    | some supply => (.ok supply, st)

/-- Go `SetPrice` (lines 76-123). -/
def SetPrice (st : Stub) (priceID source : String) (price : F64) (currency : String)
    (basketPrice : F64) (timestamp : String) : Except EPCError Unit × Stub :=
  if price.le .zero then (.error .priceNotPositive, st)
  else if basketPrice.le .zero then (.error .basketPriceNotPositive, st)
  else
    let record : PriceRecord :=
      { PriceID := priceID, Source := source, Price := price, Currency := currency,
        BasketPrice := basketPrice, Timestamp := timestamp, RecordedAt := st.now }
    let st := st.tick
    match record.marshal with
    | none => (.error .priceMarshal, st)
    | some recordJSON =>
      let st := st.PutState ("PRICE_" ++ priceID) recordJSON
      let st := st.PutState "EPC_LATEST_PRICE" recordJSON
      match getSupply st with
      | (.error err, st) => (.error err, st)
      | (.ok supply, st) =>
        let supply := { supply with CurrentPrice := basketPrice }
        let supply := { supply with UpdatedAt := st.now }
        let st := st.tick
        match supply.marshal with
        | none => (.error .supplyMarshal, st)
        | some supplyJSON => (.ok (), st.PutState "EPC_SUPPLY" supplyJSON)

/-- Go `Mint` (lines 169-228). -/
def Mint (st : Stub) (userID : String) (amount : F64) (reason refID : String) :
    Except EPCError Unit × Stub :=
  if amount.le .zero then (.error .mintAmountNotPositive, st)
  else
    match getOrCreateBalance st userID with
    | (.error err, st) => (.error err, st)
    | (.ok balance, st) =>
      let balance := { balance with Balance := balance.Balance.add amount }
      let balance := { balance with UpdatedAt := st.now }
      let st := st.tick
      match saveBalance st balance with
      | (.error err, st) => (.error err, st)
      | (.ok _, st) =>
        match getSupply st with
        | (.error err, st) => (.error err, st)
        | (.ok supply, st) =>
          let supply := { supply with TotalSupply := supply.TotalSupply.add amount }
          let supply := { supply with TotalMinted := supply.TotalMinted.add amount }
          let supply := { supply with UpdatedAt := st.now }
          let st := st.tick
          match supply.marshal with
          | none => (.error .supplyMarshal, st)
          | some supplyJSON =>
            let st := st.PutState "EPC_SUPPLY" supplyJSON
            let txID := st.txID
            let tx : TokenTransaction :=
              { TxID := txID, Type_ := "MINT", From := "", To := userID, Amount := amount,
                Reason := reason, RefID := refID, CreatedAt := st.now }
            let st := st.tick
            match tx.marshal with
            | none => (.error .txMarshal, st)
            | some txJSON =>
              let st := st.PutState ("TX_" ++ txID) txJSON
              let st := st.SetEvent "MintEvent" txJSON
              (.ok (), st)

/-- Go `Burn` (lines 231-293). -/
def Burn (st : Stub) (userID : String) (amount : F64) (reason refID : String) :
    Except EPCError Unit × Stub :=
  if amount.le .zero then (.error .burnAmountNotPositive, st)
  else
    match getOrCreateBalance st userID with
    | (.error err, st) => (.error err, st)
    | (.ok balance, st) =>
      if balance.Balance.lt amount then
        (.error (.insufficientBalance balance.Balance amount), st)
      else
        let balance := { balance with Balance := balance.Balance.sub amount }
        let balance := { balance with UpdatedAt := st.now }
        let st := st.tick
        match saveBalance st balance with
        | (.error err, st) => (.error err, st)
        | (.ok _, st) =>
          match getSupply st with
          | (.error err, st) => (.error err, st)
          | (.ok supply, st) =>
            let supply := { supply with TotalSupply := supply.TotalSupply.sub amount }
            let supply := { supply with TotalBurned := supply.TotalBurned.add amount }
            let supply := { supply with UpdatedAt := st.now }
            let st := st.tick
            match supply.marshal with
            | none => (.error .supplyMarshal, st)
            | some supplyJSON =>
              let st := st.PutState "EPC_SUPPLY" supplyJSON
              let txID := st.txID
              let tx : TokenTransaction :=
                { TxID := txID, Type_ := "BURN", From := userID, To := "", Amount := amount,
                  Reason := reason, RefID := refID, CreatedAt := st.now }
              let st := st.tick
              match tx.marshal with
              | none => (.error .txMarshal, st)
              | some txJSON =>
                let st := st.PutState ("TX_" ++ txID) txJSON
                let st := st.SetEvent "BurnEvent" txJSON
                (.ok (), st)

/-- Go `Transfer` (lines 296-356). -/
def Transfer (st : Stub) (fromUserID toUserID : String) (amount : F64)
    (reason refID : String) : Except EPCError Unit × Stub :=
  if amount.le .zero then (.error .transferAmountNotPositive, st)
  else if fromUserID = toUserID then (.error .selfTransfer, st)
  else
    match getOrCreateBalance st fromUserID with
    | (.error err, st) => (.error err, st)
    | (.ok fromBalance, st) =>
      let availableBalance := fromBalance.Balance.sub fromBalance.LockedBalance
      if availableBalance.lt amount then
        (.error (.insufficientAvailable availableBalance amount), st)
      else
        match getOrCreateBalance st toUserID with
        | (.error err, st) => (.error err, st)
        | (.ok toBalance, st) =>
          let now := st.now
          let st := st.tick
          let fromBalance := { fromBalance with Balance := fromBalance.Balance.sub amount }
          let fromBalance := { fromBalance with UpdatedAt := now }
          let toBalance := { toBalance with Balance := toBalance.Balance.add amount }
          let toBalance := { toBalance with UpdatedAt := now }
          match saveBalance st fromBalance with
          | (.error err, st) => (.error err, st)
          | (.ok _, st) =>
            match saveBalance st toBalance with
            | (.error err, st) => (.error err, st)
            | (.ok _, st) =>
              let txID := st.txID
              let tx : TokenTransaction :=
                { TxID := txID, Type_ := "TRANSFER", From := fromUserID, To := toUserID,
                  Amount := amount, Reason := reason, RefID := refID, CreatedAt := now }
              match tx.marshal with
              | none => (.error .txMarshal, st)
              | some txJSON =>
                let st := st.PutState ("TX_" ++ txID) txJSON
                let st := st.SetEvent "TransferEvent" txJSON
                (.ok (), st)

/-- Go `Lock` (lines 359-399).  The error of `json.Marshal(tx)` is ignored
there (line 394) and `txJSON` is then `nil`, bytes that do not decode. -/
def Lock (st : Stub) (userID : String) (amount : F64) (refID : String) :
    Except EPCError Unit × Stub :=
  if amount.le .zero then (.error .lockAmountNotPositive, st)
  else
    match getOrCreateBalance st userID with
    | (.error err, st) => (.error err, st)
    | (.ok balance, st) =>
      let availableBalance := balance.Balance.sub balance.LockedBalance
      if availableBalance.lt amount then
        (.error (.insufficientAvailable availableBalance amount), st)
      else
        let balance := { balance with LockedBalance := balance.LockedBalance.add amount }
        let balance := { balance with UpdatedAt := st.now }
        let st := st.tick
        match saveBalance st balance with
        | (.error err, st) => (.error err, st)
        | (.ok _, st) =>
          let txID := st.txID
          let tx : TokenTransaction :=
            { TxID := txID, Type_ := "LOCK", From := userID, To := "", Amount := amount,
              Reason := "trade_lock", RefID := refID, CreatedAt := st.now }
          let st := st.tick
          let txJSON := tx.marshal.getD .undecodable
          let st := st.PutState ("TX_" ++ txID) txJSON
          let st := st.SetEvent "LockEvent" txJSON
          (.ok (), st)

/-- Go `Unlock` (lines 402-440).  The error of `json.Marshal(tx)` is ignored
there (line 435) and `txJSON` is then `nil`, bytes that do not decode. -/
def Unlock (st : Stub) (userID : String) (amount : F64) (refID : String) :
    Except EPCError Unit × Stub :=
  if amount.le .zero then (.error .unlockAmountNotPositive, st)
  else
    match getOrCreateBalance st userID with
    | (.error err, st) => (.error err, st)
    | (.ok balance, st) =>
      if balance.LockedBalance.lt amount then
        (.error (.insufficientLocked balance.LockedBalance amount), st)
      else
        let balance := { balance with LockedBalance := balance.LockedBalance.sub amount }
        let balance := { balance with UpdatedAt := st.now }
        let st := st.tick
        match saveBalance st balance with
        | (.error err, st) => (.error err, st)
        | (.ok _, st) =>
          let txID := st.txID
          let tx : TokenTransaction :=
            { TxID := txID, Type_ := "UNLOCK", From := "", To := userID, Amount := amount,
              Reason := "trade_unlock", RefID := refID, CreatedAt := st.now }
          let st := st.tick
          let txJSON := tx.marshal.getD .undecodable
          let st := st.PutState ("TX_" ++ txID) txJSON
          let st := st.SetEvent "UnlockEvent" txJSON
          (.ok (), st)

/-- Go `BalanceOf` (lines 443-445). -/
def BalanceOf (st : Stub) (userID : String) : Except EPCError TokenBalance × Stub :=
  getOrCreateBalance st userID

/-- Go `TotalSupply` (lines 448-450). -/
def TotalSupply (st : Stub) : Except EPCError TokenSupply × Stub :=
  getSupply st

/-- A call of one of the operations the atomicity claim names, with its
arguments. -/
inductive Call where
  | setPrice (priceID source : String) (price : F64) (currency : String) (basketPrice : F64)
      (timestamp : String)
  | mint (userID : String) (amount : F64) (reason refID : String)
  | burn (userID : String) (amount : F64) (reason refID : String)
  | transfer (fromUserID toUserID : String) (amount : F64) (reason refID : String)
  | lock (userID : String) (amount : F64) (refID : String)
  | unlock (userID : String) (amount : F64) (refID : String)

/-- The operation a call invokes. -/
def Call.run : Call → Stub → Except EPCError Unit × Stub
  | .setPrice priceID source price currency basketPrice timestamp, st =>
    SetPrice st priceID source price currency basketPrice timestamp
  | .mint userID amount reason refID, st => Mint st userID amount reason refID
  | .burn userID amount reason refID, st => Burn st userID amount reason refID
  | .transfer fromUserID toUserID amount reason refID, st =>
    Transfer st fromUserID toUserID amount reason refID
  | .lock userID amount refID, st => Lock st userID amount refID
  | .unlock userID amount refID, st => Unlock st userID amount refID

/-- Modelled from the spec: the host makes the writes of an invocation visible
together when it returns no error, and none of them when it returns an error
(section 5, "either all of its writes become visible together or none do").
The result is the world state after the invocation. -/
def commit (s : Store) (r : Except EPCError Unit × Stub) : Store :=
  match r.1 with
  | .ok _ => r.2.ledger
  | .error _ => s

/-- Modelled from the spec: the event the host delivers for an invocation, the
one it set when it returns no error and none when it returns an error. -/
def delivered (r : Except EPCError Unit × Stub) : Option (String × Doc) :=
  match r.1 with
  | .ok _ => r.2.event
  | .error _ => none

/-- The world state one invocation leaves behind. -/
def exec (s : Store) (inv : Env × Call) : Store :=
  commit s (inv.2.run (newStub inv.1 s))

/-- The world state after a sequence of invocations. -/
def execAll (s : Store) (invs : List (Env × Call)) : Store :=
  invs.foldl exec s

/-- The balance `BalanceOf(u)` reports on the store `s`; `none` when the query
fails. -/
def balanceOf (s : Store) (u : String) : Option F64 :=
  match (BalanceOf (newStub readEnv s) u).1 with
  | .ok b => some b.Balance
  | .error _ => none

/-- The locked balance `BalanceOf(u)` reports on the store `s`. -/
def lockedOf (s : Store) (u : String) : Option F64 :=
  match (BalanceOf (newStub readEnv s) u).1 with
  | .ok b => some b.LockedBalance
  | .error _ => none

/-- The totals `TotalSupply()` reports on the store `s`: totalSupply,
totalMinted and totalBurned. -/
def totalsOf (s : Store) : Option (F64 × F64 × F64) :=
  match (TotalSupply (newStub readEnv s)).1 with
  | .ok sup => some (sup.TotalSupply, sup.TotalMinted, sup.TotalBurned)
  | .error _ => none

/-- Whether the invocation returned no error. -/
def succeeded (r : Except EPCError Unit × Stub) : Bool :=
  match r.1 with
  | .ok _ => true
  | .error _ => false

/-- The error the invocation returned, if any. -/
def failure (r : Except EPCError Unit × Stub) : Option EPCError :=
  match r.1 with
  | .ok _ => none
  | .error err => some err

/-- The `float64` the literal `1e16` denotes (it is representable). -/
def e16 : F64 := F64.round (10 ^ 16)

/-- The `float64` the literal `1e308` denotes. -/
def e308 : F64 := F64.round (10 ^ 308)

/-- The `float64` the literal `1` denotes. -/
def one : F64 := F64.round 1

/-- Worked example: the ledger after `Mint("alice", 1e16, "reward", "")`. -/
def afterBigMint : Store :=
  execAll emptyStore [(exampleEnv "tx1", .mint "alice" e16 "reward" "")]

/-- Worked example: alice holds 1e16 and bob holds 1. -/
def bigAndSmall : Store :=
  execAll emptyStore
    [(exampleEnv "tx1", .mint "alice" e16 "reward" ""),
     (exampleEnv "tx2", .mint "bob" one "reward" "")]

/-- Worked example: alice holds 1e16, of which 1 is locked. -/
def bigWithLock : Store :=
  execAll emptyStore
    [(exampleEnv "tx1", .mint "alice" e16 "reward" ""),
     (exampleEnv "tx2", .lock "alice" one "order1")]

/-- Worked example: the ledger after `Mint("alice", 1e308, "reward", "")`. -/
def afterHugeMint : Store :=
  execAll emptyStore [(exampleEnv "tx1", .mint "alice" e308 "reward" "")]

/-- Worked example: a ledger state in which alice and bob hold 1e308 each,
none of it locked. -/
def twoHuge : Store :=
  (emptyStore.put "BAL_alice"
    (.object [("userId", .string "alice"), ("balance", .number (10 ^ 308)),
      ("lockedBalance", .number 0), ("updatedAt", .string "2024-01-01T00:00:00Z")])).put
    "BAL_bob"
    (.object [("userId", .string "bob"), ("balance", .number (10 ^ 308)),
      ("lockedBalance", .number 0), ("updatedAt", .string "2024-01-01T00:00:00Z")])

/-- Whether the number `q` is a `float64`: rounding leaves it as it is. -/
def Exact (q : ℚ) : Bool := decide (F64.round q = .finite q)

/-- Whether a JSON value decodes into a `float64` field without rounding. -/
def exactValue : JSONValue → Bool
  | .number q => Exact q
  | _ => true

/-- Whether every number of a stored document is a `float64`. -/
def exactDoc : Doc → Bool
  | .object fields => fields.all fun kv => exactValue kv.2
  | _ => true

/-- Every number the store holds is a `float64`. -/
def ExactStore (s : Store) : Prop := ∀ k d, s k = some d → exactDoc d = true

/-- The `float64` record with the fields of an exact-decimal balance. -/
def ofBalance (b : EPC.TokenBalance) : TokenBalance :=
  { UserID := b.UserID, Balance := .finite b.Balance,
    LockedBalance := .finite b.LockedBalance, UpdatedAt := b.UpdatedAt }

/-- The `float64` record with the fields of an exact-decimal supply. -/
def ofSupply (s : EPC.TokenSupply) : TokenSupply :=
  { TotalSupply := .finite s.TotalSupply, TotalMinted := .finite s.TotalMinted,
    TotalBurned := .finite s.TotalBurned, CurrentPrice := .finite s.CurrentPrice,
    UpdatedAt := s.UpdatedAt }

/-- What a caller tells apart in the result of an operation: success, the
spec's error classes InsufficientFunds and InsufficientLock, or another
error. -/
inductive Verdict where
  | ok
  | insufficientFunds
  | insufficientLock
  | otherError
  deriving DecidableEq

/-- The verdict of a result of the `float64` embedding. -/
def verdict : Except EPCError Unit → Verdict
  | .ok _ => .ok
  | .error e =>
    if e.isInsufficientFunds then .insufficientFunds
    else if e.isInsufficientLock then .insufficientLock
    else .otherError

/-- The verdict of a result of the exact-decimal embedding. -/
def exactVerdict : Except EPC.EPCError Unit → Verdict
  | .ok _ => .ok
  | .error e =>
    if e.isInsufficientFunds then .insufficientFunds
    else if e.isInsufficientLock then .insufficientLock
    else .otherError

end Float64

end EPC

/-! ## REC token chaincode (`blockchain/chaincode/rec-token/rec_token.go`)

The contract keeps one record per token under `RECT_<tokenId>`, an ownership
index entry under `RECT_OWNER_<ownerId>_<tokenId>` whose value is the raw token
id, and one transfer record under `RECT_TXF_<txId>`.

Modelling conventions

* A stored byte string is one of: the JSON text `json.Marshal` produced for a
  token, the JSON text it produced for a transfer record, or the raw bytes of
  a Go string written as they are (`[]byte(tokenID)`).
* `json.Unmarshal` into a `RECToken` gives the token back on a token text; on
  a transfer-record text it fills `tokenId`, the one member name the two
  structs share, and leaves every other field at its zero value; on raw bytes
  it gives whatever the JSON decoder of the host makes of them (`decodeToken`,
  a parameter of the environment).
* `GetState`, `PutState` and `DelState` never fail: every key the contract
  builds is non-empty, and the host stores the bytes it is given.
-/

namespace REC

/-- Go struct `RECToken` (lines 18-34). -/
structure RECToken where
  TokenID : String
  CertID : String
  TradeID : String
  IssuerID : String
  OwnerID : String
  EnergySource : String
  Quantity : ℚ
  Vintage : String
  Location : String
  Status : String
  IssuedAt : String
  ValidUntil : String
  RetiredAt : String
  RetiredBy : String
  MetadataHash : String
  deriving DecidableEq

/-- Go struct `RECTransferRecord` (lines 37-43). -/
structure RECTransferRecord where
  TransferID : String
  TokenID : String
  FromID : String
  ToID : String
  Timestamp : String
  deriving DecidableEq

/-- The value `var token RECToken` starts from. -/
def RECToken.zero : RECToken :=
  { TokenID := "", CertID := "", TradeID := "", IssuerID := "", OwnerID := "",
    EnergySource := "", Quantity := 0, Vintage := "", Location := "", Status := "",
    IssuedAt := "", ValidUntil := "", RetiredAt := "", RetiredBy := "", MetadataHash := "" }

/-- A stored byte string. -/
inductive Bytes where
  /-- The text `json.Marshal` gives for a token. -/
  | token (t : RECToken)
  /-- The text `json.Marshal` gives for a transfer record. -/
  | transfer (r : RECTransferRecord)
  /-- The bytes of a Go string, stored as they are. -/
  | raw (text : String)
  deriving DecidableEq

/-- One error value per `fmt.Errorf` site the model can reach. -/
inductive RECError where
  /-- In `IssueREC`: the token id is taken (line 58). -/
  | tokenExists (tokenID : String)
  /-- In `TransferREC`: the caller is not the owner (line 105). -/
  | notOwner (owner requester : String)
  /-- In `TransferREC`: the token is not ACTIVE (line 109). -/
  | notTransferable (status : String)
  /-- In `RetireREC`: the caller is not the owner (line 158). -/
  | onlyOwnerRetires
  /-- In `RetireREC`: the token is retired already (line 162). -/
  | alreadyRetired
  /-- In `getToken`: nothing is stored for the token id (line 251). -/
  | tokenNotFound (tokenID : String)
  /-- In `getToken`: the stored bytes do not decode (line 256). -/
  | tokenDecode
  deriving DecidableEq

/-- The world state: the bytes stored under each key. -/
abbrev Store := String → Option Bytes

/-- The ledger on which nothing has been written. -/
def emptyStore : Store := fun _ => none

/-- The store after `PutState` (`some v`) or `DelState` (`none`) on `k`. -/
def Store.set (s : Store) (k : String) (v : Option Bytes) : Store :=
  fun k' => if k' = k then v else s k'

/-- What the host supplies to one invocation: the transaction id, the wall
clock, and the JSON decoder applied to raw bytes. -/
structure Env where
  txID : String
  clock : Nat → String
  decodeToken : String → Option RECToken

/-- The stub of one invocation. -/
structure Stub where
  /-- Committed world state, read by `GetState`. -/
  state : Store
  /-- The `PutState` (`some`) and `DelState` (`none`) calls issued so far. -/
  writes : List (String × Option Bytes)
  /-- The event set by `SetEvent`, if any. -/
  event : Option (String × Bytes)
  txID : String
  clock : Nat → String
  ticks : Nat
  decodeToken : String → Option RECToken

/-- The stub at the start of an invocation on the committed state `s`. -/
def newStub (env : Env) (s : Store) : Stub :=
  { state := s, writes := [], event := none, txID := env.txID, clock := env.clock, ticks := 0,
    decodeToken := env.decodeToken }

/-- Stub method `GetState`. -/
def Stub.GetState (st : Stub) (key : String) : Option Bytes := st.state key

/-- Stub method `PutState`. -/
def Stub.PutState (st : Stub) (key : String) (value : Bytes) : Stub :=
  { st with writes := st.writes ++ [(key, some value)] }

/-- Stub method `DelState`. -/
def Stub.DelState (st : Stub) (key : String) : Stub :=
  { st with writes := st.writes ++ [(key, none)] }

/-- Stub method `SetEvent`. -/
def Stub.SetEvent (st : Stub) (name : String) (payload : Bytes) : Stub :=
  { st with event := some (name, payload) }

/-- The text `time.Now().UTC().Format(time.RFC3339)` evaluates to. -/
def Stub.now (st : Stub) : String := st.clock st.ticks

/-- The stub after one `time.Now()` read. -/
def Stub.tick (st : Stub) : Stub := { st with ticks := st.ticks + 1 }

/-- The world state once every write of the invocation has been applied, in
the order issued. -/
def Stub.ledger (st : Stub) : Store :=
  st.writes.foldl (fun s kv => s.set kv.1 kv.2) st.state

/-- Go `json.Unmarshal(tokenJSON, &token)` on stored bytes. -/
def Stub.unmarshalToken (st : Stub) : Bytes → Option RECToken
  | .token t => some t
  | .transfer r => some { RECToken.zero with TokenID := r.TokenID }
  | .raw text => st.decodeToken text

/-- Go `getToken` (lines 245-260). -/
def getToken (st : Stub) (tokenID : String) : Except RECError RECToken :=
  match st.GetState ("RECT_" ++ tokenID) with
  | none => .error (.tokenNotFound tokenID)
  | some tokenJSON =>
    match st.unmarshalToken tokenJSON with
    | none => .error .tokenDecode
    | some token => .ok token

/-- Go `IssueREC` (lines 51-95). -/
def IssueREC (st : Stub) (tokenID certID tradeID issuerID ownerID energySource : String)
    (quantity : ℚ) (vintage location validUntil metadataHash : String) :
    Except RECError Unit × Stub :=
  match st.GetState ("RECT_" ++ tokenID) with
  | some _ => (.error (.tokenExists tokenID), st)
  | none =>
    let token : RECToken :=
      { TokenID := tokenID, CertID := certID, TradeID := tradeID, IssuerID := issuerID,
        OwnerID := ownerID, EnergySource := energySource, Quantity := quantity,
        Vintage := vintage, Location := location, Status := "ACTIVE", IssuedAt := st.now,
        ValidUntil := validUntil, RetiredAt := "", RetiredBy := "",
        MetadataHash := metadataHash }
    let st := st.tick
    let tokenJSON := Bytes.token token
    let st := st.PutState ("RECT_" ++ tokenID) tokenJSON
    let st := st.PutState ("RECT_OWNER_" ++ ownerID ++ "_" ++ tokenID) (.raw tokenID)
    let st := st.SetEvent "RECIssuedEvent" tokenJSON
    (.ok (), st)

/-- Go `TransferREC` (lines 98-148). -/
def TransferREC (st : Stub) (tokenID fromID toID : String) : Except RECError Unit × Stub :=
  match getToken st tokenID with
  | .error err => (.error err, st)
  | .ok token =>
    if token.OwnerID ≠ fromID then (.error (.notOwner token.OwnerID fromID), st)
    else if token.Status ≠ "ACTIVE" then (.error (.notTransferable token.Status), st)
    else
      let st := st.DelState ("RECT_OWNER_" ++ fromID ++ "_" ++ tokenID)
      let token := { token with OwnerID := toID }
      let token := { token with Status := "ACTIVE" }
      let tokenJSON := Bytes.token token
      let st := st.PutState ("RECT_" ++ tokenID) tokenJSON
      let st := st.PutState ("RECT_OWNER_" ++ toID ++ "_" ++ tokenID) (.raw tokenID)
      let transferID := st.txID
      let transferRecord : RECTransferRecord :=
        { TransferID := transferID, TokenID := tokenID, FromID := fromID, ToID := toID,
          Timestamp := st.now }
      let st := st.tick
      let transferJSON := Bytes.transfer transferRecord
      let st := st.PutState ("RECT_TXF_" ++ transferID) transferJSON
      let st := st.SetEvent "RECTransferEvent" transferJSON
      (.ok (), st)

/-- Go `RetireREC` (lines 151-182). -/
def RetireREC (st : Stub) (tokenID retiredBy : String) : Except RECError Unit × Stub :=
  match getToken st tokenID with
  | .error err => (.error err, st)
  | .ok token =>
    if token.OwnerID ≠ retiredBy then (.error .onlyOwnerRetires, st)
    else if token.Status = "RETIRED" then (.error .alreadyRetired, st)
    else
      let now := st.now
      let st := st.tick
      let token := { token with Status := "RETIRED" }
      let token := { token with RetiredAt := now }
      let token := { token with RetiredBy := retiredBy }
      let tokenJSON := Bytes.token token
      let st := st.PutState ("RECT_" ++ tokenID) tokenJSON
      let st := st.SetEvent "RECRetiredEvent" tokenJSON
      (.ok (), st)

/-- Go `GetREC` (lines 185-187). -/
def GetREC (st : Stub) (tokenID : String) : Except RECError RECToken :=
  getToken st tokenID

/-- A call of one of the state-changing operations, with its arguments. -/
inductive Call where
  | issue (tokenID certID tradeID issuerID ownerID energySource : String) (quantity : ℚ)
      (vintage location validUntil metadataHash : String)
  | transfer (tokenID fromID toID : String)
  | retire (tokenID retiredBy : String)

/-- The operation a call invokes. -/
def Call.run : Call → Stub → Except RECError Unit × Stub
  | .issue tokenID certID tradeID issuerID ownerID energySource quantity vintage location
      validUntil metadataHash, st =>
    IssueREC st tokenID certID tradeID issuerID ownerID energySource quantity vintage location
      validUntil metadataHash
  | .transfer tokenID fromID toID, st => TransferREC st tokenID fromID toID
  | .retire tokenID retiredBy, st => RetireREC st tokenID retiredBy

/-- The world state one invocation leaves behind. -/
def exec (s : Store) (inv : Env × Call) : Store :=
  (inv.2.run (newStub inv.1 s)).2.ledger

/-- The world state after a sequence of invocations. -/
def execAll (s : Store) (invs : List (Env × Call)) : Store :=
  invs.foldl exec s

/-- An environment for worked examples: transaction id `txID`, a clock that
stands still, and the JSON decoder `decode` for raw bytes. -/
def exampleEnv (decode : String → Option RECToken) (txID : String) : Env :=
  { txID := txID, clock := fun _ => "2024-01-01T00:00:00Z", decodeToken := decode }

/-- Worked example: the token `TXF_tx9` is issued to alice and retired by
alice. -/
def retiredRun (decode : String → Option RECToken) : List (Env × Call) :=
  [(exampleEnv decode "tx1",
      .issue "TXF_tx9" "cert1" "trade1" "issuer1" "alice" "solar" 1 "2024" "KR" "2025-12-31" "h1"),
   (exampleEnv decode "tx2", .retire "TXF_tx9" "alice")]

/-- Worked example: later calls on another token, `t2`: it is issued to bob,
and bob transfers it to carol in the transaction with id `tx9`. -/
def laterRun (decode : String → Option RECToken) : List (Env × Call) :=
  [(exampleEnv decode "tx3",
      .issue "t2" "cert2" "trade2" "issuer1" "bob" "wind" 2 "2024" "KR" "2025-12-31" "h2"),
   (exampleEnv decode "tx9", .transfer "t2" "bob" "carol")]

/-- Worked example: the token `OWNER_bob_t2` is issued to alice and retired
by alice. -/
def retiredOwnerRun (decode : String → Option RECToken) : List (Env × Call) :=
  [(exampleEnv decode "tx1",
      .issue "OWNER_bob_t2" "cert1" "trade1" "issuer1" "alice" "solar" 1 "2024" "KR"
        "2025-12-31" "h1"),
   (exampleEnv decode "tx2", .retire "OWNER_bob_t2" "alice")]

/-- Worked example: a later call on another token, `t2`, issued to bob. -/
def laterIssue (decode : String → Option RECToken) : List (Env × Call) :=
  [(exampleEnv decode "tx3",
      .issue "t2" "cert2" "trade2" "issuer1" "bob" "wind" 2 "2024" "KR" "2025-12-31" "h2")]

end REC

/-! ## DID chaincode (`blockchain/chaincode/did/did.go`)

The contract keeps each DID document under the DID itself, used as the key
without a prefix, and a reverse index entry under `USER_<userId>` whose value
is the raw DID.

Modelling conventions

* A stored byte string is either the JSON text `json.Marshal` produced for a
  document or the raw bytes of a Go string written as they are
  (`[]byte(did)`).
* `json.Unmarshal` into a `DIDDocument` gives the document back on a document
  text; on raw bytes it gives whatever the JSON decoder of the host makes of
  them (`decodeDocument`, a parameter of the environment).
* `PutState` rejects the empty key and stores the bytes it is given under any
  other key; `GetState` never fails.
-/

namespace DID

/-- Go struct `Service` (lines 31-35). -/
structure Service where
  ID : String
  /-- Go field `Type`. -/
  Type_ : String
  ServiceEndpoint : String
  deriving DecidableEq

/-- Go struct `DIDDocument` (lines 17-28). -/
structure DIDDocument where
  DID : String
  UserID : String
  PublicKey : String
  AuthMethod : String
  Role : String
  Org : String
  Status : String
  CreatedAt : String
  UpdatedAt : String
  Services : List Service
  deriving DecidableEq

/-- Go struct `VerificationResult` (lines 38-42). -/
structure VerificationResult where
  Valid : Bool
  DID : String
  Message : String
  deriving DecidableEq

/-- A stored byte string. -/
inductive Bytes where
  /-- The text `json.Marshal` gives for a document. -/
  | document (doc : DIDDocument)
  /-- The bytes of a Go string, stored as they are. -/
  | raw (text : String)
  deriving DecidableEq

/-- One error value per error site the model can reach. -/
inductive DIDError where
  /-- In `CreateDID`: the DID is taken (line 51). -/
  | didExists (did : String)
  /-- In `GetDID`: nothing is stored under the DID (line 94). -/
  | didNotFound (did : String)
  /-- In `GetDID`: the stored bytes do not decode (line 99). -/
  | didDecode
  /-- The error of `PutState` on the empty key. -/
  | emptyKey
  deriving DecidableEq

/-- The world state: the bytes stored under each key. -/
abbrev Store := String → Option Bytes

/-- The ledger on which nothing has been written. -/
def emptyStore : Store := fun _ => none

/-- The store with `v` written under `k`. -/
def Store.put (s : Store) (k : String) (v : Bytes) : Store :=
  fun k' => if k' = k then some v else s k'

/-- What the host supplies to one invocation: the wall clock and the JSON
decoder applied to raw bytes. -/
structure Env where
  clock : Nat → String
  decodeDocument : String → Option DIDDocument

/-- The stub of one invocation. -/
structure Stub where
  /-- Committed world state, read by `GetState`. -/
  state : Store
  /-- The `PutState` calls issued so far, oldest first. -/
  writes : List (String × Bytes)
  clock : Nat → String
  ticks : Nat
  decodeDocument : String → Option DIDDocument

/-- The stub at the start of an invocation on the committed state `s`. -/
def newStub (env : Env) (s : Store) : Stub :=
  { state := s, writes := [], clock := env.clock, ticks := 0,
    decodeDocument := env.decodeDocument }

/-- Stub method `GetState`. -/
def Stub.GetState (st : Stub) (key : String) : Option Bytes := st.state key

/-- Stub method `PutState`: an error on the empty key, else the stub with the
write issued. -/
def Stub.PutState (st : Stub) (key : String) (value : Bytes) : Except DIDError Stub :=
  if key = "" then .error .emptyKey
  else .ok { st with writes := st.writes ++ [(key, value)] }

/-- The text `time.Now().UTC().Format(time.RFC3339)` evaluates to. -/
def Stub.now (st : Stub) : String := st.clock st.ticks

/-- The stub after one `time.Now()` read. -/
def Stub.tick (st : Stub) : Stub := { st with ticks := st.ticks + 1 }

/-- The world state once every `PutState` of the invocation has been applied,
in the order issued. -/
def Stub.ledger (st : Stub) : Store :=
  st.writes.foldl (fun s kv => s.put kv.1 kv.2) st.state

/-- Go `json.Unmarshal(docJSON, &doc)` on stored bytes. -/
def Stub.unmarshalDocument (st : Stub) : Bytes → Option DIDDocument
  | .document doc => some doc
  | .raw text => st.decodeDocument text

/-- Go `CreateDID` (lines 45-85). -/
def CreateDID (st : Stub) (did userID publicKey role org : String) :
    Except DIDError Unit × Stub :=
  match st.GetState did with
  | some _ => (.error (.didExists did), st)
  | none =>
    let now := st.now
    let st := st.tick
    let doc : DIDDocument :=
      { DID := did, UserID := userID, PublicKey := publicKey,
        AuthMethod := "Ed25519VerificationKey2020", Role := role, Org := org,
        Status := "ACTIVE", CreatedAt := now, UpdatedAt := now, Services := [] }
    let docJSON := Bytes.document doc
    match st.PutState did docJSON with
    | .error err => (.error err, st)
    | .ok st =>
      match st.PutState ("USER_" ++ userID) (.raw did) with
      | .error err => (.error err, st)
      | .ok st => (.ok (), st)

/-- Go `GetDID` (lines 88-103). -/
def GetDID (st : Stub) (did : String) : Except DIDError DIDDocument :=
  match st.GetState did with
  | none => .error (.didNotFound did)
  | some docJSON =>
    match st.unmarshalDocument docJSON with
    | none => .error .didDecode
    | some doc => .ok doc

/-- Go `VerifyDID` (lines 119-134); its error result is always `nil`. -/
def VerifyDID (st : Stub) (did publicKey : String) : VerificationResult :=
  match GetDID st did with
  | .error _ => { Valid := false, DID := did, Message := "DID를 찾을 수 없습니다" }
  | .ok doc =>
    if doc.Status ≠ "ACTIVE" then
      { Valid := false, DID := did, Message := "DID가 비활성 상태입니다" }
    else if doc.PublicKey ≠ publicKey then
      { Valid := false, DID := did, Message := "공개키가 일치하지 않습니다" }
    else { Valid := true, DID := did, Message := "DID 검증 성공" }

/-- Go `RevokeDID` (lines 137-152). -/
def RevokeDID (st : Stub) (did : String) : Except DIDError Unit × Stub :=
  match GetDID st did with
  | .error err => (.error err, st)
  | .ok doc =>
    let doc := { doc with Status := "REVOKED" }
    let doc := { doc with UpdatedAt := st.now }
    let st := st.tick
    let docJSON := Bytes.document doc
    match st.PutState did docJSON with
    | .error err => (.error err, st)
    | .ok st => (.ok (), st)

/-- Go `AddService` (lines 155-176). -/
def AddService (st : Stub) (did serviceID serviceType endpoint : String) :
    Except DIDError Unit × Stub :=
  match GetDID st did with
  | .error err => (.error err, st)
  | .ok doc =>
    let service : Service :=
      { ID := serviceID, Type_ := serviceType, ServiceEndpoint := endpoint }
    let doc := { doc with Services := doc.Services ++ [service] }
    let doc := { doc with UpdatedAt := st.now }
    let st := st.tick
    let docJSON := Bytes.document doc
    match st.PutState did docJSON with
    | .error err => (.error err, st)
    | .ok st => (.ok (), st)

/-- A call of one of the state-changing operations, with its arguments. -/
inductive Call where
  | create (did userID publicKey role org : String)
  | addService (did serviceID serviceType endpoint : String)
  | revoke (did : String)

/-- The operation a call invokes. -/
def Call.run : Call → Stub → Except DIDError Unit × Stub
  | .create did userID publicKey role org, st => CreateDID st did userID publicKey role org
  | .addService did serviceID serviceType endpoint, st =>
    AddService st did serviceID serviceType endpoint
  | .revoke did, st => RevokeDID st did

/-- The world state one invocation leaves behind. -/
def exec (s : Store) (inv : Env × Call) : Store :=
  (inv.2.run (newStub inv.1 s)).2.ledger

/-- The world state after a sequence of invocations. -/
def execAll (s : Store) (invs : List (Env × Call)) : Store :=
  invs.foldl exec s

/-- An environment for worked examples: a clock that stands still and the
JSON decoder `decode` for raw bytes. -/
def exampleEnv (decode : String → Option DIDDocument) : Env :=
  { clock := fun _ => "2024-01-01T00:00:00Z", decodeDocument := decode }

/-- Worked example: a DID that is a JSON text, the serialized form of an
ACTIVE document with public key `k`. -/
def craftedDID : String :=
  "\x7b\"status\":\"ACTIVE\",\"publicKey\":\"k\"\x7d"

/-- Worked example: the document `json.Unmarshal` decodes `craftedDID` to. -/
def craftedDocument : DIDDocument :=
  { DID := "", UserID := "", PublicKey := "k", AuthMethod := "", Role := "", Org := "",
    Status := "ACTIVE", CreatedAt := "", UpdatedAt := "", Services := [] }

/-- Worked example: a decoder that reads `craftedDID` as JSON and takes
nothing else for a document. -/
def craftedDecoder (text : String) : Option DIDDocument :=
  if text = craftedDID then some craftedDocument else none

/-- Worked example: the DID `USER_x` is created for user `u0` and revoked. -/
def revokedRun (decode : String → Option DIDDocument) : List (Env × Call) :=
  [(exampleEnv decode, .create "USER_x" "u0" "k0" "consumer" "Org1"),
   (exampleEnv decode, .revoke "USER_x")]

/-- Worked example: a later `CreateDID` of the DID `did` for the user `x`. -/
def laterCreate (decode : String → Option DIDDocument) (did : String) : List (Env × Call) :=
  [(exampleEnv decode, .create did "x" "k1" "consumer" "Org1")]

end DID

namespace EPC

/-! ## Keys -/

theorem balKey_inj {u v : String} (h : "BAL_" ++ u = "BAL_" ++ v) : u = v := by
  have := congrArg String.data h
  simp [String.data_append] at this
  exact String.ext this

theorem balKey_ne_supplyKey (u : String) : "BAL_" ++ u ≠ "EPC_SUPPLY" := by
  intro h
  have := congrArg String.data h
  simp [String.data_append] at this

theorem balKey_ne_txKey (u t : String) : "BAL_" ++ u ≠ "TX_" ++ t := by
  intro h
  have := congrArg String.data h
  simp [String.data_append] at this

theorem balKey_ne_priceKey (u p : String) : "BAL_" ++ u ≠ "PRICE_" ++ p := by
  intro h
  have := congrArg String.data h
  simp [String.data_append] at this

theorem balKey_ne_latestKey (u : String) : "BAL_" ++ u ≠ "EPC_LATEST_PRICE" := by
  intro h
  have := congrArg String.data h
  simp [String.data_append] at this

theorem supplyKey_ne_txKey (t : String) : "EPC_SUPPLY" ≠ "TX_" ++ t := by
  intro h
  have := congrArg String.data h
  simp [String.data_append] at this

theorem supplyKey_ne_priceKey (p : String) : "EPC_SUPPLY" ≠ "PRICE_" ++ p := by
  intro h
  have := congrArg String.data h
  simp [String.data_append] at this

theorem supplyKey_ne_latestKey : "EPC_SUPPLY" ≠ "EPC_LATEST_PRICE" := by decide

/-! ## Serialization -/

@[simp]
theorem unmarshal_marshal_balance (b : TokenBalance) :
    TokenBalance.unmarshal b.marshal = some b := by
  simp [TokenBalance.unmarshal, TokenBalance.marshal, TokenBalance.setField, setString,
    setNumber]

@[simp]
theorem unmarshal_marshal_supply (s : TokenSupply) :
    TokenSupply.unmarshal s.marshal = some s := by
  simp [TokenSupply.unmarshal, TokenSupply.marshal, TokenSupply.setField, setString,
    setNumber]

/-! ## Store and stub projections -/

@[simp]
theorem Store.put_same (s : Store) (k : String) (v : Doc) : s.put k v k = some v := by
  simp [Store.put]

theorem Store.put_of_ne (s : Store) {k k' : String} (v : Doc) (h : k' ≠ k) :
    s.put k v k' = s k' := by
  simp [Store.put, h]

@[simp]
theorem ledger_newStub (env : Env) (s : Store) : (newStub env s).ledger = s := rfl

@[simp]
theorem ledger_PutState (st : Stub) (k : String) (v : Doc) :
    (st.PutState k v).ledger = st.ledger.put k v := by
  simp [Stub.ledger, Stub.PutState, List.foldl_append]

@[simp]
theorem ledger_SetEvent (st : Stub) (n : String) (v : Doc) :
    (st.SetEvent n v).ledger = st.ledger := rfl

@[simp]
theorem ledger_tick (st : Stub) : st.tick.ledger = st.ledger := rfl

@[simp]
theorem ledger_saveBalance (st : Stub) (b : TokenBalance) :
    (saveBalance st b).ledger = st.ledger.put ("BAL_" ++ b.UserID) b.marshal := by
  simp [saveBalance]

@[simp]
theorem state_newStub (env : Env) (s : Store) : (newStub env s).state = s := rfl

@[simp]
theorem state_tick (st : Stub) : st.tick.state = st.state := rfl

@[simp]
theorem state_PutState (st : Stub) (k : String) (v : Doc) :
    (st.PutState k v).state = st.state := rfl

@[simp]
theorem state_saveBalance (st : Stub) (b : TokenBalance) :
    (saveBalance st b).state = st.state := rfl

@[simp]
theorem txID_newStub (env : Env) (s : Store) : (newStub env s).txID = env.txID := rfl

@[simp]
theorem txID_tick (st : Stub) : st.tick.txID = st.txID := rfl

@[simp]
theorem txID_PutState (st : Stub) (k : String) (v : Doc) :
    (st.PutState k v).txID = st.txID := rfl

@[simp]
theorem txID_saveBalance (st : Stub) (b : TokenBalance) :
    (saveBalance st b).txID = st.txID := rfl

@[simp]
theorem writes_newStub (env : Env) (s : Store) : (newStub env s).writes = [] := rfl

@[simp]
theorem writes_tick (st : Stub) : st.tick.writes = st.writes := rfl

/-! ## Reading a store -/

theorem balanceRecord_eq (s : Store) (u : String) :
    balanceRecord s u =
      match s ("BAL_" ++ u) with
      | none => some ⟨u, 0, 0, ""⟩
      | some d => TokenBalance.unmarshal d := by
  unfold balanceRecord BalanceOf getOrCreateBalance
  simp only [Stub.GetState, newStub]
  cases h : s ("BAL_" ++ u) with
  | none => rfl
  | some d =>
    simp only []
    cases TokenBalance.unmarshal d <;> rfl

theorem supplyOf_eq (s : Store) :
    supplyOf s =
      match s "EPC_SUPPLY" with
      | none => some ⟨0, 0, 0, 0, ""⟩
      | some d => TokenSupply.unmarshal d := by
  unfold supplyOf TotalSupply getSupply
  simp only [Stub.GetState, newStub]
  cases h : s "EPC_SUPPLY" with
  | none => rfl
  | some d =>
    simp only []
    cases TokenSupply.unmarshal d <;> rfl

theorem balanceRecord_put (s : Store) (k : String) (v : Doc) (u : String) :
    balanceRecord (s.put k v) u =
      if "BAL_" ++ u = k then TokenBalance.unmarshal v else balanceRecord s u := by
  simp only [balanceRecord_eq, Store.put]
  by_cases h : "BAL_" ++ u = k <;> simp [h]

theorem supplyOf_put (s : Store) (k : String) (v : Doc) :
    supplyOf (s.put k v) = if "EPC_SUPPLY" = k then TokenSupply.unmarshal v else supplyOf s := by
  simp only [supplyOf_eq, Store.put]
  by_cases h : "EPC_SUPPLY" = k <;> simp [h]

theorem balanceRecord_put_bal (s : Store) (b : TokenBalance) (u : String) :
    balanceRecord (s.put ("BAL_" ++ b.UserID) b.marshal) u =
      if u = b.UserID then some b else balanceRecord s u := by
  rw [balanceRecord_put]
  by_cases h : u = b.UserID
  · simp [h]
  · have h' : "BAL_" ++ u ≠ "BAL_" ++ b.UserID := fun e => h (balKey_inj e)
    simp [h, h']

theorem balanceRecord_put_other (s : Store) (k : String) (v : Doc) (u : String)
    (h : ∀ w, "BAL_" ++ w ≠ k) : balanceRecord (s.put k v) u = balanceRecord s u := by
  rw [balanceRecord_put, if_neg (h u)]

theorem supplyOf_put_bal (s : Store) (w : String) (v : Doc) :
    supplyOf (s.put ("BAL_" ++ w) v) = supplyOf s := by
  rw [supplyOf_put, if_neg (fun e => balKey_ne_supplyKey w e.symm)]

theorem supplyOf_put_supply (s : Store) (sup : TokenSupply) :
    supplyOf (s.put "EPC_SUPPLY" sup.marshal) = some sup := by
  simp [supplyOf_put]

theorem supplyOf_put_other (s : Store) (k : String) (v : Doc) (h : "EPC_SUPPLY" ≠ k) :
    supplyOf (s.put k v) = supplyOf s := by
  rw [supplyOf_put, if_neg h]

/-! ## Reads in a ledger state -/

theorem getOrCreateBalance_none {st : Stub} {u : String} (h : st.state ("BAL_" ++ u) = none) :
    getOrCreateBalance st u =
      (.ok { UserID := u, Balance := 0, LockedBalance := 0, UpdatedAt := st.now }, st.tick) := by
  simp [getOrCreateBalance, Stub.GetState, h]

theorem getOrCreateBalance_some {st : Stub} {u : String} {d : Doc} {b : TokenBalance}
    (h : st.state ("BAL_" ++ u) = some d) (hb : TokenBalance.unmarshal d = some b) :
    getOrCreateBalance st u = (.ok b, st) := by
  simp [getOrCreateBalance, Stub.GetState, h, hb]

theorem getSupply_none {st : Stub} (h : st.state "EPC_SUPPLY" = none) :
    getSupply st =
      (.ok { TotalSupply := 0, TotalMinted := 0, TotalBurned := 0, CurrentPrice := 0,
             UpdatedAt := st.now }, st.tick) := by
  simp [getSupply, Stub.GetState, h]

theorem getSupply_some {st : Stub} {d : Doc} {sup : TokenSupply}
    (h : st.state "EPC_SUPPLY" = some d) (hb : TokenSupply.unmarshal d = some sup) :
    getSupply st = (.ok sup, st) := by
  simp [getSupply, Stub.GetState, h, hb]

/-- In a ledger state `getOrCreateBalance` succeeds on every stub over that
state: it returns the account as `BalanceOf` reports it, either freshly
stamped (one clock read) or as stored. -/
theorem getOrCreateBalance_cases (s : Store) (hs : LedgerState s) (u : String) :
    ∃ b0, balanceRecord s u = some b0 ∧ b0.UserID = u ∧
      ((∀ st : Stub, st.state = s → getOrCreateBalance st u =
          (.ok ⟨u, b0.Balance, b0.LockedBalance, st.now⟩, st.tick)) ∨
       (∀ st : Stub, st.state = s → getOrCreateBalance st u = (.ok b0, st))) := by
  cases hb : s ("BAL_" ++ u) with
  | none =>
    refine ⟨⟨u, 0, 0, ""⟩, by simp [balanceRecord_eq, hb], rfl, Or.inl ?_⟩
    intro st hst
    subst hst
    exact getOrCreateBalance_none hb
  | some d =>
    obtain ⟨b, hd, hu⟩ := hs.1 u d hb
    refine ⟨b, by simp [balanceRecord_eq, hb, hd], hu, Or.inr ?_⟩
    intro st hst
    subst hst
    exact getOrCreateBalance_some hb hd

/-- In a ledger state `getSupply` succeeds on every stub over that state. -/
theorem getSupply_cases (s : Store) (hs : LedgerState s) :
    ∃ sup0, supplyOf s = some sup0 ∧
      ((∀ st : Stub, st.state = s → getSupply st =
          (.ok ⟨sup0.TotalSupply, sup0.TotalMinted, sup0.TotalBurned, sup0.CurrentPrice, st.now⟩,
            st.tick)) ∨
       (∀ st : Stub, st.state = s → getSupply st = (.ok sup0, st))) := by
  cases hb : s "EPC_SUPPLY" with
  | none =>
    refine ⟨⟨0, 0, 0, 0, ""⟩, by simp [supplyOf_eq, hb], Or.inl ?_⟩
    intro st hst
    subst hst
    exact getSupply_none hb
  | some d =>
    obtain ⟨sup, hd⟩ := hs.2 d hb
    refine ⟨sup, by simp [supplyOf_eq, hb, hd], Or.inr ?_⟩
    intro st hst
    subst hst
    exact getSupply_some hb hd

/-! ## Effect of each operation in a ledger state -/

theorem Mint_effect (env : Env) (s : Store) (hs : LedgerState s) (u : String) (amount : ℚ)
    (hpos : 0 < amount) (reason refID : String) :
    ∃ b sup, balanceRecord s u = some b ∧ supplyOf s = some sup ∧ ∃ t1 t2 tx,
      (Mint (newStub env s) u amount reason refID).1 = .ok () ∧
      (Mint (newStub env s) u amount reason refID).2.ledger =
        ((s.put ("BAL_" ++ u) (TokenBalance.marshal
            ⟨u, b.Balance + amount, b.LockedBalance, t1⟩)).put
          "EPC_SUPPLY" (TokenSupply.marshal
            ⟨sup.TotalSupply + amount, sup.TotalMinted + amount, sup.TotalBurned,
              sup.CurrentPrice, t2⟩)).put ("TX_" ++ env.txID) tx := by
  obtain ⟨b, hb, hu, hget | hget⟩ := getOrCreateBalance_cases s hs u <;>
  obtain ⟨sup, hsup, hgs | hgs⟩ := getSupply_cases s hs <;>
  · subst hu
    refine ⟨b, sup, hb, hsup, ?_⟩
    simp only [Mint, not_le.mpr hpos, if_false, hget, hgs, state_newStub, state_tick,
      state_saveBalance]
    exact ⟨_, _, _, trivial, rfl⟩

theorem Burn_effect (env : Env) (s : Store) (hs : LedgerState s) (u : String) (amount : ℚ)
    (hpos : 0 < amount) (reason refID : String) :
    ∃ b sup, balanceRecord s u = some b ∧ supplyOf s = some sup ∧
      (b.Balance < amount →
        (Burn (newStub env s) u amount reason refID).1 =
            .error (.insufficientBalance b.Balance amount) ∧
          (Burn (newStub env s) u amount reason refID).2.writes = [] ∧
          (Burn (newStub env s) u amount reason refID).2.ledger = s) ∧
      (¬ b.Balance < amount → ∃ t1 t2 tx,
        (Burn (newStub env s) u amount reason refID).1 = .ok () ∧
        (Burn (newStub env s) u amount reason refID).2.ledger =
          ((s.put ("BAL_" ++ u) (TokenBalance.marshal
              ⟨u, b.Balance - amount, b.LockedBalance, t1⟩)).put
            "EPC_SUPPLY" (TokenSupply.marshal
              ⟨sup.TotalSupply - amount, sup.TotalMinted, sup.TotalBurned + amount,
                sup.CurrentPrice, t2⟩)).put ("TX_" ++ env.txID) tx) := by
  obtain ⟨b, hb, hu, hget | hget⟩ := getOrCreateBalance_cases s hs u <;>
  obtain ⟨sup, hsup, hgs | hgs⟩ := getSupply_cases s hs <;>
  · subst hu
    refine ⟨b, sup, hb, hsup, ?_, ?_⟩
    · intro hlt
      simp only [Burn, not_le.mpr hpos, if_false, hget, state_newStub, if_pos hlt]
      exact ⟨trivial, rfl, rfl⟩
    · intro hge
      simp only [Burn, not_le.mpr hpos, if_false, hget, hgs, state_newStub, state_tick,
        state_saveBalance, if_neg hge]
      exact ⟨_, _, _, trivial, rfl⟩


theorem Transfer_effect (env : Env) (s : Store) (hs : LedgerState s) (a b : String)
    (amount : ℚ) (hpos : 0 < amount) (hab : a ≠ b) (reason refID : String) :
    ∃ ba bb, balanceRecord s a = some ba ∧ balanceRecord s b = some bb ∧
      (ba.Balance - ba.LockedBalance < amount →
        (Transfer (newStub env s) a b amount reason refID).1 =
            .error (.insufficientAvailable (ba.Balance - ba.LockedBalance) amount) ∧
          (Transfer (newStub env s) a b amount reason refID).2.writes = [] ∧
          (Transfer (newStub env s) a b amount reason refID).2.ledger = s) ∧
      (¬ ba.Balance - ba.LockedBalance < amount → ∃ t tx,
        (Transfer (newStub env s) a b amount reason refID).1 = .ok () ∧
        (Transfer (newStub env s) a b amount reason refID).2.ledger =
          ((s.put ("BAL_" ++ a) (TokenBalance.marshal
              ⟨a, ba.Balance - amount, ba.LockedBalance, t⟩)).put
            ("BAL_" ++ b) (TokenBalance.marshal
              ⟨b, bb.Balance + amount, bb.LockedBalance, t⟩)).put ("TX_" ++ env.txID) tx) := by
  obtain ⟨ba, hba, hua, hga | hga⟩ := getOrCreateBalance_cases s hs a <;>
  obtain ⟨bb, hbb, hub, hgb | hgb⟩ := getOrCreateBalance_cases s hs b <;>
  · subst hua
    subst hub
    refine ⟨ba, bb, hba, hbb, ?_, ?_⟩
    · intro hlt
      simp only [Transfer, not_le.mpr hpos, if_false, if_neg hab, hga, state_newStub,
        if_pos hlt]
      exact ⟨trivial, rfl, rfl⟩
    · intro hge
      simp only [Transfer, not_le.mpr hpos, if_false, if_neg hab, hga, hgb, state_newStub,
        state_tick, if_neg hge]
      exact ⟨_, _, trivial, rfl⟩

theorem Lock_effect (env : Env) (s : Store) (hs : LedgerState s) (u : String) (amount : ℚ)
    (hpos : 0 < amount) (refID : String) :
    ∃ b, balanceRecord s u = some b ∧
      (b.Balance - b.LockedBalance < amount →
        (Lock (newStub env s) u amount refID).1 =
            .error (.insufficientAvailable (b.Balance - b.LockedBalance) amount) ∧
          (Lock (newStub env s) u amount refID).2.writes = [] ∧
          (Lock (newStub env s) u amount refID).2.ledger = s) ∧
      (¬ b.Balance - b.LockedBalance < amount → ∃ t tx,
        (Lock (newStub env s) u amount refID).1 = .ok () ∧
        (Lock (newStub env s) u amount refID).2.ledger =
          (s.put ("BAL_" ++ u) (TokenBalance.marshal
              ⟨u, b.Balance, b.LockedBalance + amount, t⟩)).put ("TX_" ++ env.txID) tx) := by
  obtain ⟨b, hb, hu, hget | hget⟩ := getOrCreateBalance_cases s hs u <;>
  · subst hu
    refine ⟨b, hb, ?_, ?_⟩
    · intro hlt
      simp only [Lock, not_le.mpr hpos, if_false, hget, state_newStub, if_pos hlt]
      exact ⟨trivial, rfl, rfl⟩
    · intro hge
      simp only [Lock, not_le.mpr hpos, if_false, hget, state_newStub, if_neg hge]
      exact ⟨_, _, trivial, rfl⟩

theorem Unlock_effect (env : Env) (s : Store) (hs : LedgerState s) (u : String) (amount : ℚ)
    (hpos : 0 < amount) (refID : String) :
    ∃ b, balanceRecord s u = some b ∧
      (b.LockedBalance < amount →
        (Unlock (newStub env s) u amount refID).1 =
            .error (.insufficientLocked b.LockedBalance amount) ∧
          (Unlock (newStub env s) u amount refID).2.writes = [] ∧
          (Unlock (newStub env s) u amount refID).2.ledger = s) ∧
      (¬ b.LockedBalance < amount → ∃ t tx,
        (Unlock (newStub env s) u amount refID).1 = .ok () ∧
        (Unlock (newStub env s) u amount refID).2.ledger =
          (s.put ("BAL_" ++ u) (TokenBalance.marshal
              ⟨u, b.Balance, b.LockedBalance - amount, t⟩)).put ("TX_" ++ env.txID) tx) := by
  obtain ⟨b, hb, hu, hget | hget⟩ := getOrCreateBalance_cases s hs u <;>
  · subst hu
    refine ⟨b, hb, ?_, ?_⟩
    · intro hlt
      simp only [Unlock, not_le.mpr hpos, if_false, hget, state_newStub, if_pos hlt]
      exact ⟨trivial, rfl, rfl⟩
    · intro hge
      simp only [Unlock, not_le.mpr hpos, if_false, hget, state_newStub, if_neg hge]
      exact ⟨_, _, trivial, rfl⟩

theorem SetPrice_effect (env : Env) (s : Store) (hs : LedgerState s) (priceID source : String)
    (price : ℚ) (currency : String) (basketPrice : ℚ) (timestamp : String)
    (hp : 0 < price) (hbp : 0 < basketPrice) :
    ∃ sup, supplyOf s = some sup ∧ ∃ doc t,
      (SetPrice (newStub env s) priceID source price currency basketPrice timestamp).1 =
          .ok () ∧
      (SetPrice (newStub env s) priceID source price currency basketPrice timestamp).2.ledger =
        ((s.put ("PRICE_" ++ priceID) doc).put "EPC_LATEST_PRICE" doc).put "EPC_SUPPLY"
          (TokenSupply.marshal
            ⟨sup.TotalSupply, sup.TotalMinted, sup.TotalBurned, basketPrice, t⟩) := by
  obtain ⟨sup, hsup, hgs | hgs⟩ := getSupply_cases s hs <;>
  · refine ⟨sup, hsup, ?_⟩
    simp only [SetPrice, not_le.mpr hp, not_le.mpr hbp, if_false, hgs, state_newStub,
      state_tick, state_PutState]
    exact ⟨_, _, trivial, rfl⟩

theorem InitLedger_effect (env : Env) (s : Store) :
    (InitLedger (newStub env s)).1 = .ok () ∧
    (InitLedger (newStub env s)).2.ledger =
      s.put "EPC_SUPPLY" (TokenSupply.marshal ⟨0, 0, 0, 0, env.clock 0⟩) :=
  ⟨rfl, rfl⟩

/-! ## Rejected arguments -/

theorem Mint_nonpos (st : Stub) (u : String) {amount : ℚ} (h : amount ≤ 0)
    (reason refID : String) :
    Mint st u amount reason refID = (.error .mintAmountNotPositive, st) := by
  simp [Mint, h]

theorem Burn_nonpos (st : Stub) (u : String) {amount : ℚ} (h : amount ≤ 0)
    (reason refID : String) :
    Burn st u amount reason refID = (.error .burnAmountNotPositive, st) := by
  simp [Burn, h]

theorem Transfer_nonpos (st : Stub) (a b : String) {amount : ℚ} (h : amount ≤ 0)
    (reason refID : String) :
    Transfer st a b amount reason refID = (.error .transferAmountNotPositive, st) := by
  simp [Transfer, h]

theorem Transfer_self (st : Stub) (a : String) {amount : ℚ} (h : 0 < amount)
    (reason refID : String) :
    Transfer st a a amount reason refID = (.error .selfTransfer, st) := by
  simp [Transfer, not_le.mpr h]

theorem Lock_nonpos (st : Stub) (u : String) {amount : ℚ} (h : amount ≤ 0) (refID : String) :
    Lock st u amount refID = (.error .lockAmountNotPositive, st) := by
  simp [Lock, h]

theorem Unlock_nonpos (st : Stub) (u : String) {amount : ℚ} (h : amount ≤ 0)
    (refID : String) :
    Unlock st u amount refID = (.error .unlockAmountNotPositive, st) := by
  simp [Unlock, h]

theorem SetPrice_nonpos (st : Stub) (priceID source : String) (price : ℚ) (currency : String)
    (basketPrice : ℚ) (timestamp : String) (h : price ≤ 0 ∨ basketPrice ≤ 0) :
    (SetPrice st priceID source price currency basketPrice timestamp).2 = st := by
  unfold SetPrice
  by_cases hp : price ≤ 0
  · simp [hp]
  · have hb : basketPrice ≤ 0 := h.resolve_left hp
    simp [hp, hb]

/-- C2 (amended): with amounts taken as exact decimals, in every ledger
state `Mint(u, amount, reason, refId)` with `amount > 0` succeeds; afterwards the balance of `u` is its prior value plus
`amount` (just `amount` for an account not stored before), the locked balance
of `u` is unchanged, `totalSupply` and `totalMinted` have each grown by
`amount`, and `totalBurned` is unchanged. -/
theorem Mint_succeeds_and_credits (env : Env) (s : Store) (hs : LedgerState s) (u : String)
    (amount : ℚ) (hpos : 0 < amount) (reason refID : String) :
    (Mint (newStub env s) u amount reason refID).1 = .ok () ∧
    ∃ b sup b' sup', balanceRecord s u = some b ∧ supplyOf s = some sup ∧
      balanceRecord (Mint (newStub env s) u amount reason refID).2.ledger u = some b' ∧
      supplyOf (Mint (newStub env s) u amount reason refID).2.ledger = some sup' ∧
      b'.Balance = b.Balance + amount ∧
      (s ("BAL_" ++ u) = none → b'.Balance = amount) ∧
      b'.LockedBalance = b.LockedBalance ∧
      sup'.TotalSupply = sup.TotalSupply + amount ∧
      sup'.TotalMinted = sup.TotalMinted + amount ∧
      sup'.TotalBurned = sup.TotalBurned := by
  obtain ⟨b, sup, hb, hsup, t1, t2, tx, hok, hled⟩ :=
    Mint_effect env s hs u amount hpos reason refID
  refine ⟨hok, b, sup, ⟨u, b.Balance + amount, b.LockedBalance, t1⟩,
    ⟨sup.TotalSupply + amount, sup.TotalMinted + amount, sup.TotalBurned, sup.CurrentPrice, t2⟩,
    hb, hsup, ?_, ?_, rfl, ?_, rfl, rfl, rfl, rfl⟩
  · rw [hled, balanceRecord_put_other _ _ _ _ (fun w => balKey_ne_txKey w _),
      balanceRecord_put_other _ _ _ _ balKey_ne_supplyKey]
    exact (balanceRecord_put_bal s ⟨u, _, _, _⟩ u).trans (if_pos rfl)
  · rw [hled, supplyOf_put_other _ _ _ (supplyKey_ne_txKey _)]
    exact supplyOf_put_supply _ _
  · intro hnone
    have : b = ⟨u, 0, 0, ""⟩ := by
      rw [balanceRecord_eq, hnone] at hb
      exact (Option.some.inj hb).symm
    simp [this]


/-- C6 (amended): with amounts taken as exact decimals, in every ledger
state, for distinct accounts `a`, `b` and `amount > 0`, a successful `Transfer(a, b, amount, reason, refId)` lowers the
balance of `a` by exactly `amount` and raises the balance of `b` by exactly
`amount`, so the sum of the two balances is the same before and after; both
locked balances are unchanged. -/
theorem Transfer_conserves (env : Env) (s : Store) (hs : LedgerState s) (a b : String)
    (amount : ℚ) (hpos : 0 < amount) (hab : a ≠ b) (reason refID : String)
    (hok : (Transfer (newStub env s) a b amount reason refID).1 = .ok ()) :
    ∃ ba bb ba' bb', balanceRecord s a = some ba ∧ balanceRecord s b = some bb ∧
      balanceRecord (Transfer (newStub env s) a b amount reason refID).2.ledger a = some ba' ∧
      balanceRecord (Transfer (newStub env s) a b amount reason refID).2.ledger b = some bb' ∧
      ba'.Balance = ba.Balance - amount ∧
      bb'.Balance = bb.Balance + amount ∧
      ba'.Balance + bb'.Balance = ba.Balance + bb.Balance ∧
      ba'.LockedBalance = ba.LockedBalance ∧
      bb'.LockedBalance = bb.LockedBalance := by
  obtain ⟨ba, bb, hba, hbb, hfail, hsucc⟩ :=
    Transfer_effect env s hs a b amount hpos hab reason refID
  by_cases hlt : ba.Balance - ba.LockedBalance < amount
  · rw [(hfail hlt).1] at hok
    cases hok
  · obtain ⟨t, tx, -, hled⟩ := hsucc hlt
    refine ⟨ba, bb, ⟨a, ba.Balance - amount, ba.LockedBalance, t⟩,
      ⟨b, bb.Balance + amount, bb.LockedBalance, t⟩, hba, hbb, ?_, ?_, rfl, rfl, ?_, rfl, rfl⟩
    · rw [hled, balanceRecord_put_other _ _ _ _ (fun w => balKey_ne_txKey w _)]
      rw [balanceRecord_put_bal (s.put ("BAL_" ++ a) _) ⟨b, _, _, _⟩ a, if_neg hab]
      exact (balanceRecord_put_bal s ⟨a, _, _, _⟩ a).trans (if_pos rfl)
    · rw [hled, balanceRecord_put_other _ _ _ _ (fun w => balKey_ne_txKey w _)]
      exact (balanceRecord_put_bal _ ⟨b, _, _, _⟩ b).trans (if_pos rfl)
    · show ba.Balance - amount + (bb.Balance + amount) = ba.Balance + bb.Balance
      ring

/-- C7 (amended): with amounts taken as exact decimals, in every ledger state
`Transfer(a, b, amount, reason, refId)` fails exactly when `amount <= 0`, or `a = b`, or the available balance of `a`
(balance minus locked balance) is below `amount`; and a failed transfer has
issued no write, so the whole state, the records of `a` and `b` included, is
as before. -/
theorem Transfer_fails_iff (env : Env) (s : Store) (hs : LedgerState s) (a b : String)
    (amount : ℚ) (reason refID : String) :
    ∃ ba, balanceRecord s a = some ba ∧
      ((∃ e, (Transfer (newStub env s) a b amount reason refID).1 = .error e) ↔
        (amount ≤ 0 ∨ a = b ∨ ba.Balance - ba.LockedBalance < amount)) ∧
      (∀ e, (Transfer (newStub env s) a b amount reason refID).1 = .error e →
        (Transfer (newStub env s) a b amount reason refID).2.writes = [] ∧
        (Transfer (newStub env s) a b amount reason refID).2.ledger = s) := by
  obtain ⟨ba, hba, -, -⟩ := getOrCreateBalance_cases s hs a
  refine ⟨ba, hba, ?_⟩
  by_cases hpos : amount ≤ 0
  · rw [Transfer_nonpos _ _ _ hpos]
    exact ⟨⟨fun _ => Or.inl hpos, fun _ => ⟨_, rfl⟩⟩, fun _ _ => ⟨rfl, rfl⟩⟩
  · have hpos' : 0 < amount := not_le.mp hpos
    by_cases hab : a = b
    · subst hab
      rw [Transfer_self _ _ hpos']
      exact ⟨⟨fun _ => Or.inr (Or.inl rfl), fun _ => ⟨_, rfl⟩⟩, fun _ _ => ⟨rfl, rfl⟩⟩
    · obtain ⟨ba2, bb, hba2, -, hfail, hsucc⟩ :=
        Transfer_effect env s hs a b amount hpos' hab reason refID
      obtain rfl : ba2 = ba := Option.some.inj (hba2.symm.trans hba)
      by_cases hlt : ba2.Balance - ba2.LockedBalance < amount
      · obtain ⟨herr, hw, hl⟩ := hfail hlt
        exact ⟨⟨fun _ => Or.inr (Or.inr hlt), fun _ => ⟨_, herr⟩⟩, fun _ _ => ⟨hw, hl⟩⟩
      · obtain ⟨t, tx, hok, -⟩ := hsucc hlt
        refine ⟨⟨?_, ?_⟩, ?_⟩
        · rintro ⟨e, he⟩
          rw [hok] at he
          cases he
        · rintro (h | h | h)
          · exact absurd h hpos
          · exact absurd h hab
          · exact absurd h hlt
        · intro e he
          rw [hok] at he
          cases he


/-- C8 (amended): with amounts taken as exact decimals, in every ledger state
and for `amount > 0`: if the available balance of `u` (balance minus locked balance) is below `amount`, `Lock(u, amount,
refId)` fails with an insufficient-funds error, has issued no write and leaves
the state as it was; otherwise it succeeds, the locked balance of `u` has
grown by exactly `amount` and the balance of `u` is unchanged. -/
theorem Lock_spec (env : Env) (s : Store) (hs : LedgerState s) (u : String) (amount : ℚ)
    (hpos : 0 < amount) (refID : String) :
    ∃ b, balanceRecord s u = some b ∧
      (b.Balance - b.LockedBalance < amount →
        (∃ e, (Lock (newStub env s) u amount refID).1 = .error e ∧
          e.isInsufficientFunds = true) ∧
        (Lock (newStub env s) u amount refID).2.writes = [] ∧
        (Lock (newStub env s) u amount refID).2.ledger = s) ∧
      (¬ b.Balance - b.LockedBalance < amount →
        (Lock (newStub env s) u amount refID).1 = .ok () ∧
        ∃ b', balanceRecord (Lock (newStub env s) u amount refID).2.ledger u = some b' ∧
          b'.LockedBalance = b.LockedBalance + amount ∧
          b'.Balance = b.Balance) := by
  obtain ⟨b, hb, hfail, hsucc⟩ := Lock_effect env s hs u amount hpos refID
  refine ⟨b, hb, ?_, ?_⟩
  · intro hlt
    obtain ⟨herr, hw, hl⟩ := hfail hlt
    exact ⟨⟨_, herr, rfl⟩, hw, hl⟩
  · intro hge
    obtain ⟨t, tx, hok, hled⟩ := hsucc hge
    refine ⟨hok, ⟨u, b.Balance, b.LockedBalance + amount, t⟩, ?_, rfl, rfl⟩
    rw [hled, balanceRecord_put_other _ _ _ _ (fun w => balKey_ne_txKey w _)]
    exact (balanceRecord_put_bal s ⟨u, _, _, _⟩ u).trans (if_pos rfl)

theorem LedgerState_empty : LedgerState emptyStore :=
  ⟨fun _ _ h => by simp [emptyStore] at h, fun _ h => by simp [emptyStore] at h⟩

theorem LedgerState_put_bal {s : Store} (hs : LedgerState s) (u : String) (x y : ℚ)
    (t : String) : LedgerState (s.put ("BAL_" ++ u) (TokenBalance.marshal ⟨u, x, y, t⟩)) := by
  constructor
  · intro w d hd
    by_cases hw : "BAL_" ++ w = "BAL_" ++ u
    · rw [hw, Store.put_same] at hd
      obtain rfl := Option.some.inj hd
      exact ⟨_, unmarshal_marshal_balance _, (balKey_inj hw).symm⟩
    · rw [Store.put_of_ne _ _ hw] at hd
      exact hs.1 w d hd
  · intro d hd
    rw [Store.put_of_ne _ _ (fun e => balKey_ne_supplyKey u e.symm)] at hd
    exact hs.2 d hd

theorem LedgerState_put_supply {s : Store} (hs : LedgerState s) (sup : TokenSupply) :
    LedgerState (s.put "EPC_SUPPLY" sup.marshal) := by
  constructor
  · intro w d hd
    rw [Store.put_of_ne _ _ (balKey_ne_supplyKey w)] at hd
    exact hs.1 w d hd
  · intro d hd
    rw [Store.put_same] at hd
    obtain rfl := Option.some.inj hd
    exact ⟨_, unmarshal_marshal_supply _⟩

theorem LedgerState_put_other {s : Store} (hs : LedgerState s) (k : String) (v : Doc)
    (hk : ∀ w, "BAL_" ++ w ≠ k) (hk' : "EPC_SUPPLY" ≠ k) : LedgerState (s.put k v) := by
  constructor
  · intro w d hd
    rw [Store.put_of_ne _ _ (hk w)] at hd
    exact hs.1 w d hd
  · intro d hd
    rw [Store.put_of_ne _ _ hk'] at hd
    exact hs.2 d hd

theorem NonNeg_empty : NonNeg emptyStore := by
  intro u b hb
  rw [balanceRecord_eq] at hb
  obtain rfl := Option.some.inj hb
  exact ⟨le_refl _, le_refl _⟩

theorem NonNeg_put_bal {s : Store} (hs : NonNeg s) (u : String) {x y : ℚ} (hx : 0 ≤ x)
    (hy : 0 ≤ y) (t : String) :
    NonNeg (s.put ("BAL_" ++ u) (TokenBalance.marshal ⟨u, x, y, t⟩)) := by
  intro w b hb
  rw [balanceRecord_put_bal s ⟨u, x, y, t⟩ w] at hb
  by_cases hw : w = u
  · rw [if_pos hw] at hb
    obtain rfl := Option.some.inj hb
    exact ⟨hx, hy⟩
  · rw [if_neg hw] at hb
    exact hs w b hb

theorem NonNeg_put_other {s : Store} (hs : NonNeg s) (k : String) (v : Doc)
    (hk : ∀ w, "BAL_" ++ w ≠ k) : NonNeg (s.put k v) := by
  intro w b hb
  rw [balanceRecord_put_other _ _ _ _ hk] at hb
  exact hs w b hb


theorem Inv_empty : Inv emptyStore :=
  ⟨LedgerState_empty, NonNeg_empty, ⟨0, 0, 0, 0, ""⟩, by simp [supplyOf_eq, emptyStore], by norm_num⟩

theorem Inv_put_bal {s : Store} (h : Inv s) (u : String) {x y : ℚ} (hx : 0 ≤ x) (hy : 0 ≤ y)
    (t : String) : Inv (s.put ("BAL_" ++ u) (TokenBalance.marshal ⟨u, x, y, t⟩)) := by
  obtain ⟨h1, h2, sup, hsup, hbal⟩ := h
  exact ⟨LedgerState_put_bal h1 u x y t, NonNeg_put_bal h2 u hx hy t, sup,
    (supplyOf_put_bal s u _).trans hsup, hbal⟩

theorem Inv_put_supply {s : Store} (h : Inv s) (sup : TokenSupply)
    (hbal : sup.TotalSupply = sup.TotalMinted - sup.TotalBurned) :
    Inv (s.put "EPC_SUPPLY" sup.marshal) :=
  ⟨LedgerState_put_supply h.1 sup, NonNeg_put_other h.2.1 _ _ balKey_ne_supplyKey, sup,
    supplyOf_put_supply s sup, hbal⟩

theorem Inv_put_other {s : Store} (h : Inv s) (k : String) (v : Doc)
    (hk : ∀ w, "BAL_" ++ w ≠ k) (hk' : "EPC_SUPPLY" ≠ k) : Inv (s.put k v) := by
  obtain ⟨h1, h2, sup, hsup, hbal⟩ := h
  exact ⟨LedgerState_put_other h1 k v hk hk', NonNeg_put_other h2 k v hk, sup,
    (supplyOf_put_other s k v hk').trans hsup, hbal⟩

theorem Mint_preserves_Inv (env : Env) {s : Store} (h : Inv s) (u : String) (amount : ℚ)
    (reason refID : String) : Inv (Mint (newStub env s) u amount reason refID).2.ledger := by
  by_cases hpos : amount ≤ 0
  · rw [Mint_nonpos _ _ hpos]
    exact h
  · have hpos' : 0 < amount := not_le.mp hpos
    obtain ⟨b, sup, hb, hsup, t1, t2, tx, -, hled⟩ :=
      Mint_effect env s h.1 u amount hpos' reason refID
    obtain ⟨sup0, hsup0, hbal⟩ := h.2.2
    obtain rfl : sup0 = sup := Option.some.inj (hsup0.symm.trans hsup)
    obtain ⟨hb0, hl0⟩ := h.2.1 u b hb
    rw [hled]
    refine Inv_put_other (Inv_put_supply (Inv_put_bal h u (by linarith) hl0 t1) _ ?_) _ _
      (fun w => balKey_ne_txKey w _) (supplyKey_ne_txKey _)
    show sup0.TotalSupply + amount = sup0.TotalMinted + amount - sup0.TotalBurned
    linarith

theorem Burn_preserves_Inv (env : Env) {s : Store} (h : Inv s) (u : String) (amount : ℚ)
    (reason refID : String) : Inv (Burn (newStub env s) u amount reason refID).2.ledger := by
  by_cases hpos : amount ≤ 0
  · rw [Burn_nonpos _ _ hpos]
    exact h
  · have hpos' : 0 < amount := not_le.mp hpos
    obtain ⟨b, sup, hb, hsup, hfail, hsucc⟩ :=
      Burn_effect env s h.1 u amount hpos' reason refID
    by_cases hlt : b.Balance < amount
    · rw [(hfail hlt).2.2]
      exact h
    · obtain ⟨t1, t2, tx, -, hled⟩ := hsucc hlt
      obtain ⟨sup0, hsup0, hbal⟩ := h.2.2
      obtain rfl : sup0 = sup := Option.some.inj (hsup0.symm.trans hsup)
      obtain ⟨hb0, hl0⟩ := h.2.1 u b hb
      rw [hled]
      refine Inv_put_other (Inv_put_supply (Inv_put_bal h u (by linarith) hl0 t1) _ ?_) _ _
        (fun w => balKey_ne_txKey w _) (supplyKey_ne_txKey _)
      show sup0.TotalSupply - amount = sup0.TotalMinted - (sup0.TotalBurned + amount)
      linarith

theorem Transfer_preserves_Inv (env : Env) {s : Store} (h : Inv s) (a b : String) (amount : ℚ)
    (reason refID : String) :
    Inv (Transfer (newStub env s) a b amount reason refID).2.ledger := by
  by_cases hpos : amount ≤ 0
  · rw [Transfer_nonpos _ _ _ hpos]
    exact h
  · have hpos' : 0 < amount := not_le.mp hpos
    by_cases hab : a = b
    · subst hab
      rw [Transfer_self _ _ hpos']
      exact h
    · obtain ⟨ba, bb, hba, hbb, hfail, hsucc⟩ :=
        Transfer_effect env s h.1 a b amount hpos' hab reason refID
      by_cases hlt : ba.Balance - ba.LockedBalance < amount
      · rw [(hfail hlt).2.2]
        exact h
      · obtain ⟨t, tx, -, hled⟩ := hsucc hlt
        obtain ⟨ha0, hal0⟩ := h.2.1 a ba hba
        obtain ⟨hb0, hbl0⟩ := h.2.1 b bb hbb
        rw [hled]
        exact Inv_put_other
          (Inv_put_bal (Inv_put_bal h a (by linarith) hal0 t) b (by linarith) hbl0 t) _ _
          (fun w => balKey_ne_txKey w _) (supplyKey_ne_txKey _)

theorem Lock_preserves_Inv (env : Env) {s : Store} (h : Inv s) (u : String) (amount : ℚ)
    (refID : String) : Inv (Lock (newStub env s) u amount refID).2.ledger := by
  by_cases hpos : amount ≤ 0
  · rw [Lock_nonpos _ _ hpos]
    exact h
  · have hpos' : 0 < amount := not_le.mp hpos
    obtain ⟨b, hb, hfail, hsucc⟩ := Lock_effect env s h.1 u amount hpos' refID
    by_cases hlt : b.Balance - b.LockedBalance < amount
    · rw [(hfail hlt).2.2]
      exact h
    · obtain ⟨t, tx, -, hled⟩ := hsucc hlt
      obtain ⟨hb0, hl0⟩ := h.2.1 u b hb
      rw [hled]
      exact Inv_put_other (Inv_put_bal h u hb0 (by linarith) t) _ _
        (fun w => balKey_ne_txKey w _) (supplyKey_ne_txKey _)

theorem Unlock_preserves_Inv (env : Env) {s : Store} (h : Inv s) (u : String) (amount : ℚ)
    (refID : String) : Inv (Unlock (newStub env s) u amount refID).2.ledger := by
  by_cases hpos : amount ≤ 0
  · rw [Unlock_nonpos _ _ hpos]
    exact h
  · have hpos' : 0 < amount := not_le.mp hpos
    obtain ⟨b, hb, hfail, hsucc⟩ := Unlock_effect env s h.1 u amount hpos' refID
    by_cases hlt : b.LockedBalance < amount
    · rw [(hfail hlt).2.2]
      exact h
    · obtain ⟨t, tx, -, hled⟩ := hsucc hlt
      obtain ⟨hb0, hl0⟩ := h.2.1 u b hb
      rw [hled]
      exact Inv_put_other (Inv_put_bal h u hb0 (by linarith) t) _ _
        (fun w => balKey_ne_txKey w _) (supplyKey_ne_txKey _)

theorem SetPrice_preserves_Inv (env : Env) {s : Store} (h : Inv s) (priceID source : String)
    (price : ℚ) (currency : String) (basketPrice : ℚ) (timestamp : String) :
    Inv (SetPrice (newStub env s) priceID source price currency basketPrice timestamp).2.ledger := by
  by_cases hp : price ≤ 0 ∨ basketPrice ≤ 0
  · rw [SetPrice_nonpos _ _ _ _ _ _ _ hp]
    exact h
  · have hp1 : 0 < price := not_le.mp fun e => hp (Or.inl e)
    have hp2 : 0 < basketPrice := not_le.mp fun e => hp (Or.inr e)
    obtain ⟨sup, hsup, doc, t, -, hled⟩ :=
      SetPrice_effect env s h.1 priceID source price currency basketPrice timestamp hp1 hp2
    obtain ⟨sup0, hsup0, hbal⟩ := h.2.2
    obtain rfl : sup0 = sup := Option.some.inj (hsup0.symm.trans hsup)
    rw [hled]
    exact Inv_put_supply
      (Inv_put_other
        (Inv_put_other h _ doc (fun w => balKey_ne_priceKey w _) (supplyKey_ne_priceKey _))
        _ doc balKey_ne_latestKey supplyKey_ne_latestKey) _ hbal

theorem InitLedger_preserves_Inv (env : Env) {s : Store} (h : Inv s) :
    Inv (InitLedger (newStub env s)).2.ledger := by
  rw [(InitLedger_effect env s).2]
  exact Inv_put_supply h _ (by norm_num)

theorem exec_preserves_Inv {s : Store} (h : Inv s) (inv : Env × Call) : Inv (exec s inv) := by
  obtain ⟨env, c⟩ := inv
  cases c with
  | initLedger => exact InitLedger_preserves_Inv env h
  | setPrice priceID source price currency basketPrice timestamp =>
    exact SetPrice_preserves_Inv env h priceID source price currency basketPrice timestamp
  | mint u amount reason refID => exact Mint_preserves_Inv env h u amount reason refID
  | burn u amount reason refID => exact Burn_preserves_Inv env h u amount reason refID
  | transfer a b amount reason refID => exact Transfer_preserves_Inv env h a b amount reason refID
  | lock u amount refID => exact Lock_preserves_Inv env h u amount refID
  | unlock u amount refID => exact Unlock_preserves_Inv env h u amount refID

theorem execAll_preserves_Inv (invs : List (Env × Call)) {s : Store} (h : Inv s) :
    Inv (execAll s invs) := by
  induction invs generalizing s with
  | nil => exact h
  | cons inv rest ih => exact ih (exec_preserves_Inv h inv)


/-- In a ledger state a call that returns an error has issued no write: the
state it leaves is the state it found. -/
theorem failed_call_leaves_state (env : Env) {s : Store} (hs : LedgerState s) (c : Call)
    (e : EPCError) (herr : (c.run (newStub env s)).1 = .error e) : exec s (env, c) = s := by
  cases c with
  | initLedger => cases herr
  | setPrice priceID source price currency basketPrice timestamp =>
    show (SetPrice (newStub env s) priceID source price currency basketPrice timestamp).2.ledger
      = s
    by_cases hp : price ≤ 0 ∨ basketPrice ≤ 0
    · rw [SetPrice_nonpos _ _ _ _ _ _ _ hp]
      rfl
    · have hp1 : 0 < price := not_le.mp fun h => hp (Or.inl h)
      have hp2 : 0 < basketPrice := not_le.mp fun h => hp (Or.inr h)
      obtain ⟨_, _, _, _, hok, -⟩ :=
        SetPrice_effect env s hs priceID source price currency basketPrice timestamp hp1 hp2
      exact absurd (hok.symm.trans herr) (by simp)
  | mint u amount reason refID =>
    show (Mint (newStub env s) u amount reason refID).2.ledger = s
    by_cases hpos : amount ≤ 0
    · rw [Mint_nonpos _ _ hpos]
      rfl
    · obtain ⟨_, _, _, _, _, _, _, hok, -⟩ :=
        Mint_effect env s hs u amount (not_le.mp hpos) reason refID
      exact absurd (hok.symm.trans herr) (by simp)
  | burn u amount reason refID =>
    show (Burn (newStub env s) u amount reason refID).2.ledger = s
    by_cases hpos : amount ≤ 0
    · rw [Burn_nonpos _ _ hpos]
      rfl
    · obtain ⟨b, _, _, _, hfail, hsucc⟩ :=
        Burn_effect env s hs u amount (not_le.mp hpos) reason refID
      by_cases hlt : b.Balance < amount
      · exact (hfail hlt).2.2
      · obtain ⟨_, _, _, hok, -⟩ := hsucc hlt
        exact absurd (hok.symm.trans herr) (by simp)
  | transfer a b amount reason refID =>
    show (Transfer (newStub env s) a b amount reason refID).2.ledger = s
    by_cases hpos : amount ≤ 0
    · rw [Transfer_nonpos _ _ _ hpos]
      rfl
    · by_cases hab : a = b
      · subst hab
        rw [Transfer_self _ _ (not_le.mp hpos)]
        rfl
      · obtain ⟨ba, _, _, _, hfail, hsucc⟩ :=
          Transfer_effect env s hs a b amount (not_le.mp hpos) hab reason refID
        by_cases hlt : ba.Balance - ba.LockedBalance < amount
        · exact (hfail hlt).2.2
        · obtain ⟨_, _, hok, -⟩ := hsucc hlt
          exact absurd (hok.symm.trans herr) (by simp)
  | lock u amount refID =>
    show (Lock (newStub env s) u amount refID).2.ledger = s
    by_cases hpos : amount ≤ 0
    · rw [Lock_nonpos _ _ hpos]
      rfl
    · obtain ⟨b, _, hfail, hsucc⟩ := Lock_effect env s hs u amount (not_le.mp hpos) refID
      by_cases hlt : b.Balance - b.LockedBalance < amount
      · exact (hfail hlt).2.2
      · obtain ⟨_, _, hok, -⟩ := hsucc hlt
        exact absurd (hok.symm.trans herr) (by simp)
  | unlock u amount refID =>
    show (Unlock (newStub env s) u amount refID).2.ledger = s
    by_cases hpos : amount ≤ 0
    · rw [Unlock_nonpos _ _ hpos]
      rfl
    · obtain ⟨b, _, hfail, hsucc⟩ := Unlock_effect env s hs u amount (not_le.mp hpos) refID
      by_cases hlt : b.LockedBalance < amount
      · exact (hfail hlt).2.2
      · obtain ⟨_, _, hok, -⟩ := hsucc hlt
        exact absurd (hok.symm.trans herr) (by simp)

/-! ## Claims on reachable states -/

/-- C1: in every state reached from the empty ledger by a finite sequence of
calls (Mint and Burn calls in particular, successful or failed, with any
accounts and amounts), the Supply record is readable and satisfies
`totalSupply = totalMinted - totalBurned`. -/
theorem supply_balanced_reachable (invs : List (Env × Call)) :
    ∃ sup, supplyOf (execAll emptyStore invs) = some sup ∧
      sup.TotalSupply = sup.TotalMinted - sup.TotalBurned :=
  (execAll_preserves_Inv invs Inv_empty).2.2

/-- C10: in every state reached from the empty ledger, if `Lock(u, x, r)`
succeeds then the `Unlock(u, x, r)` that follows it succeeds as well, and
afterwards the locked balance and the balance of `u` are what they were before
the `Lock`. -/
theorem Lock_then_Unlock_restores (invs : List (Env × Call)) (env1 env2 : Env) (u : String)
    (x : ℚ) (r : String)
    (hok : (Lock (newStub env1 (execAll emptyStore invs)) u x r).1 = .ok ()) :
    (Unlock (newStub env2 (Lock (newStub env1 (execAll emptyStore invs)) u x r).2.ledger)
        u x r).1 = .ok () ∧
    ∃ b b2, balanceRecord (execAll emptyStore invs) u = some b ∧
      balanceRecord
        (Unlock (newStub env2 (Lock (newStub env1 (execAll emptyStore invs)) u x r).2.ledger)
          u x r).2.ledger u = some b2 ∧
      b2.LockedBalance = b.LockedBalance ∧ b2.Balance = b.Balance := by
  have hInv : Inv (execAll emptyStore invs) := execAll_preserves_Inv invs Inv_empty
  generalize execAll emptyStore invs = s at hok hInv ⊢
  have hx : 0 < x := by
    by_contra hle
    rw [Lock_nonpos _ _ (not_lt.mp hle)] at hok
    cases hok
  obtain ⟨b, hb, hfail, hsucc⟩ := Lock_effect env1 s hInv.1 u x hx r
  have hge : ¬ b.Balance - b.LockedBalance < x := by
    intro hlt
    rw [(hfail hlt).1] at hok
    cases hok
  obtain ⟨t, tx, -, hled⟩ := hsucc hge
  have hInv1 : Inv (Lock (newStub env1 s) u x r).2.ledger := Lock_preserves_Inv env1 hInv u x r
  obtain ⟨b1, hb1, -, hsucc1⟩ :=
    Unlock_effect env2 (Lock (newStub env1 s) u x r).2.ledger hInv1.1 u x hx r
  have hb1' : b1 = ⟨u, b.Balance, b.LockedBalance + x, t⟩ := by
    rw [hled, balanceRecord_put_other _ _ _ _ (fun w => balKey_ne_txKey w _)] at hb1
    exact (Option.some.inj
      (((balanceRecord_put_bal s ⟨u, _, _, _⟩ u).trans (if_pos rfl)).symm.trans hb1)).symm
  subst hb1'
  have hl0 : 0 ≤ b.LockedBalance := (hInv.2.1 u b hb).2
  have hge1 : ¬ b.LockedBalance + x < x := by
    intro h
    linarith
  obtain ⟨t2, tx2, hok2, hled2⟩ := hsucc1 hge1
  refine ⟨hok2, b, ⟨u, b.Balance, b.LockedBalance + x - x, t2⟩, hb, ?_, ?_, rfl⟩
  · rw [hled2, balanceRecord_put_other _ _ _ _ (fun w => balKey_ne_txKey w _)]
    exact (balanceRecord_put_bal _ ⟨u, _, _, _⟩ u).trans (if_pos rfl)
  · show b.LockedBalance + x - x = b.LockedBalance
    ring

/-! ## Burn and locked funds -/

/-- C4 (the code departs from the claim): on the ledger where alice holds 100
of which 70 are locked, the available balance is 30, yet `Burn("alice", 50,
...)` succeeds and leaves a balance of 50 below the 70 still locked. -/
theorem Burn_ignores_lock :
    balanceRecord afterLock "alice" = some ⟨"alice", 100, 70, "2024-01-01T00:00:00Z"⟩ ∧
    (100 : ℚ) - 70 < 50 ∧
    (Burn (newStub (exampleEnv "tx3") afterLock) "alice" 50 "redeem" "").1 = .ok () ∧
    balanceRecord (Burn (newStub (exampleEnv "tx3") afterLock) "alice" 50 "redeem" "").2.ledger
      "alice" = some ⟨"alice", 50, 70, "2024-01-01T00:00:00Z"⟩ := by
  refine ⟨?_, ?_, ?_, ?_⟩
  · decide!
  · norm_num
  · with_unfolding_all rfl
  · decide!

/-- C5 (the code departs from the claim): the state reached from the empty
ledger by `Mint("alice", 100)`, `Lock("alice", 70)` and `Burn("alice", 50)`,
all three successful, stores for alice a locked balance of 70 above the
balance of 50. -/
theorem locked_exceeds_balance_reachable :
    ∃ b, balanceRecord afterBurn "alice" = some b ∧ b.Balance = 50 ∧ b.LockedBalance = 70 ∧
      ¬ b.LockedBalance ≤ b.Balance := by
  refine ⟨⟨"alice", 50, 70, "2024-01-01T00:00:00Z"⟩, ?_, rfl, rfl, ?_⟩
  · decide!
  · norm_num


theorem LedgerState_afterMint : LedgerState afterMint :=
  (execAll_preserves_Inv _ Inv_empty).1

theorem LedgerState_afterLock : LedgerState afterLock :=
  (execAll_preserves_Inv _ Inv_empty).1


/-! ## Worked instances -/

/-- Instance of C2: minting 100 to alice on the empty ledger. -/
theorem Mint_succeeds_and_credits_witness :
    LedgerState emptyStore ∧ (0 : ℚ) < 100 ∧
      (Mint (newStub (exampleEnv "tx1") emptyStore) "alice" 100 "reward" "").1 = .ok () :=
  ⟨LedgerState_empty, by norm_num,
    (Mint_succeeds_and_credits (exampleEnv "tx1") emptyStore LedgerState_empty "alice" 100
      (by norm_num) "reward" "").1⟩

/-- Instance of C6: alice, holding 100 unlocked, transfers 50 to bob. -/
theorem Transfer_conserves_witness :
    LedgerState afterMint ∧ (0 : ℚ) < 50 ∧ "alice" ≠ "bob" ∧
      (Transfer (newStub (exampleEnv "tx2") afterMint) "alice" "bob" 50 "pay" "").1 = .ok () ∧
      ∃ ba bb ba' bb', balanceRecord afterMint "alice" = some ba ∧
        balanceRecord afterMint "bob" = some bb ∧
        balanceRecord
          (Transfer (newStub (exampleEnv "tx2") afterMint) "alice" "bob" 50 "pay" "").2.ledger
          "alice" = some ba' ∧
        balanceRecord
          (Transfer (newStub (exampleEnv "tx2") afterMint) "alice" "bob" 50 "pay" "").2.ledger
          "bob" = some bb' ∧
        ba'.Balance + bb'.Balance = ba.Balance + bb.Balance :=
  ⟨LedgerState_afterMint, by norm_num, by decide, by with_unfolding_all rfl,
    let ⟨ba, bb, ba', bb', h1, h2, h3, h4, _, _, h5, _, _⟩ :=
      Transfer_conserves (exampleEnv "tx2") afterMint LedgerState_afterMint "alice" "bob" 50
        (by norm_num) (by decide) "pay" "" (by with_unfolding_all rfl)
    ⟨ba, bb, ba', bb', h1, h2, h3, h4, h5⟩⟩

/-- Instance of C7: with 70 of the 100 held by alice locked, a transfer of 50 fails. -/
theorem Transfer_fails_iff_witness :
    LedgerState afterLock ∧
      ∃ ba, balanceRecord afterLock "alice" = some ba ∧
        ((∃ e, (Transfer (newStub (exampleEnv "tx3") afterLock) "alice" "bob" 50 "pay" "").1 =
            .error e) ↔
          ((50 : ℚ) ≤ 0 ∨ "alice" = "bob" ∨ ba.Balance - ba.LockedBalance < 50)) :=
  ⟨LedgerState_afterLock,
    let ⟨ba, hba, h, _⟩ :=
      Transfer_fails_iff (exampleEnv "tx3") afterLock LedgerState_afterLock "alice" "bob" 50
        "pay" ""
    ⟨ba, hba, h⟩⟩

/-- Instance of C8: locking 70 of the 100 alice holds. -/
theorem Lock_spec_witness :
    LedgerState afterMint ∧ (0 : ℚ) < 70 ∧
      ∃ b, balanceRecord afterMint "alice" = some b ∧
        (¬ b.Balance - b.LockedBalance < 70 →
          (Lock (newStub (exampleEnv "tx2") afterMint) "alice" 70 "order1").1 = .ok ()) :=
  ⟨LedgerState_afterMint, by norm_num,
    let ⟨b, hb, _, h⟩ :=
      Lock_spec (exampleEnv "tx2") afterMint LedgerState_afterMint "alice" 70 (by norm_num)
        "order1"
    ⟨b, hb, fun hge => (h hge).1⟩⟩

/-- Instance of C10: after minting 100 to alice, `Lock("alice", 70, "order1")`
succeeds and so does the `Unlock` that follows. -/
theorem Lock_then_Unlock_restores_witness :
    (Lock (newStub (exampleEnv "tx2")
        (execAll emptyStore [(exampleEnv "tx1", .mint "alice" 100 "reward" "")]))
      "alice" 70 "order1").1 = .ok () ∧
    (Unlock (newStub (exampleEnv "tx3")
        (Lock (newStub (exampleEnv "tx2")
          (execAll emptyStore [(exampleEnv "tx1", .mint "alice" 100 "reward" "")]))
          "alice" 70 "order1").2.ledger) "alice" 70 "order1").1 = .ok () :=
  ⟨by with_unfolding_all rfl,
    (Lock_then_Unlock_restores [(exampleEnv "tx1", .mint "alice" 100 "reward" "")]
      (exampleEnv "tx2") (exampleEnv "tx3") "alice" 70 "order1"
      (by with_unfolding_all rfl)).1⟩


/-! ## Write sets -/

@[simp]
theorem writes_PutState (st : Stub) (k : String) (v : Doc) :
    (st.PutState k v).writes = st.writes ++ [(k, v)] := rfl

@[simp]
theorem writes_SetEvent (st : Stub) (n : String) (v : Doc) :
    (st.SetEvent n v).writes = st.writes := rfl

@[simp]
theorem writes_saveBalance (st : Stub) (b : TokenBalance) :
    (saveBalance st b).writes = st.writes ++ [("BAL_" ++ b.UserID, b.marshal)] := rfl

@[simp]
theorem event_newStub (env : Env) (s : Store) : (newStub env s).event = none := rfl

@[simp]
theorem event_tick (st : Stub) : st.tick.event = st.event := rfl

@[simp]
theorem event_PutState (st : Stub) (k : String) (v : Doc) :
    (st.PutState k v).event = st.event := rfl

@[simp]
theorem event_saveBalance (st : Stub) (b : TokenBalance) :
    (saveBalance st b).event = st.event := rfl

@[simp]
theorem event_SetEvent (st : Stub) (n : String) (v : Doc) :
    (st.SetEvent n v).event = some (n, v) := rfl

@[simp]
theorem state_SetEvent (st : Stub) (n : String) (v : Doc) :
    (st.SetEvent n v).state = st.state := rfl

theorem isBookKey_bal (u : String) : IsBookKey ("BAL_" ++ u) := Or.inl ⟨u, rfl⟩

theorem isBookKey_supply : IsBookKey "EPC_SUPPLY" := Or.inr rfl

/-- On any store, `getOrCreateBalance` either fails to decode, or returns a
fresh zero record after one clock read, or returns the stored record. -/
theorem getOrCreateBalance_any (s : Store) (u : String) :
    (∀ st : Stub, st.state = s → getOrCreateBalance st u = (.error .balanceDecode, st)) ∨
    (∀ st : Stub, st.state = s →
      getOrCreateBalance st u = (.ok ⟨u, 0, 0, st.now⟩, st.tick)) ∨
    (∃ b, ∀ st : Stub, st.state = s → getOrCreateBalance st u = (.ok b, st)) := by
  cases hb : s ("BAL_" ++ u) with
  | none =>
    refine Or.inr (Or.inl ?_)
    intro st hst
    subst hst
    exact getOrCreateBalance_none hb
  | some d =>
    cases hd : TokenBalance.unmarshal d with
    | none =>
      refine Or.inl ?_
      intro st hst
      subst hst
      simp [getOrCreateBalance, Stub.GetState, hb, hd]
    | some b =>
      refine Or.inr (Or.inr ⟨b, ?_⟩)
      intro st hst
      subst hst
      exact getOrCreateBalance_some hb hd

/-- On any store, `getSupply` either fails to decode, or returns a fresh zero
record after one clock read, or returns the stored record. -/
theorem getSupply_any (s : Store) :
    (∀ st : Stub, st.state = s → getSupply st = (.error .supplyDecode, st)) ∨
    (∀ st : Stub, st.state = s → getSupply st = (.ok ⟨0, 0, 0, 0, st.now⟩, st.tick)) ∨
    (∃ sup, ∀ st : Stub, st.state = s → getSupply st = (.ok sup, st)) := by
  cases hb : s "EPC_SUPPLY" with
  | none =>
    refine Or.inr (Or.inl ?_)
    intro st hst
    subst hst
    exact getSupply_none hb
  | some d =>
    cases hd : TokenSupply.unmarshal d with
    | none =>
      refine Or.inl ?_
      intro st hst
      subst hst
      simp [getSupply, Stub.GetState, hb, hd]
    | some sup =>
      refine Or.inr (Or.inr ⟨sup, ?_⟩)
      intro st hst
      subst hst
      exact getSupply_some hb hd

theorem Mint_outcome (env : Env) (s : Store) (u : String) (amount : ℚ)
    (reason refID : String) :
    TokenOutcome s (Mint (newStub env s) u amount reason refID) env.txID "MintEvent"
      (fun t => ⟨env.txID, "MINT", "", u, amount, reason, refID, t⟩) := by
  unfold TokenOutcome
  by_cases hpos : amount ≤ 0
  · rw [Mint_nonpos _ _ hpos]
    exact ⟨rfl, Or.inl ⟨⟨_, rfl, fun _ => rfl⟩, rfl, by simp⟩⟩
  · rcases getOrCreateBalance_any s u with hg | hg | ⟨b, hg⟩ <;>
    rcases getSupply_any s with hs | hs | ⟨sup, hs⟩ <;>
    · obtain ⟨r, hr⟩ : ∃ r, Mint (newStub env s) u amount reason refID = r := ⟨_, rfl⟩
      rw [hr]
      simp only [Mint, hpos, if_false, hg, hs, state_newStub, state_tick, state_saveBalance]
        at hr
      subst hr
      first
        | exact ⟨rfl, Or.inl ⟨⟨_, rfl, by simp⟩, rfl, by simp [isBookKey_bal]⟩⟩
        | exact ⟨rfl, Or.inr ⟨rfl, [_, _], _, rfl,
            by simp [isBookKey_bal, isBookKey_supply], rfl⟩⟩

theorem Burn_outcome (env : Env) (s : Store) (u : String) (amount : ℚ)
    (reason refID : String) :
    TokenOutcome s (Burn (newStub env s) u amount reason refID) env.txID "BurnEvent"
      (fun t => ⟨env.txID, "BURN", u, "", amount, reason, refID, t⟩) := by
  unfold TokenOutcome
  by_cases hpos : amount ≤ 0
  · rw [Burn_nonpos _ _ hpos]
    exact ⟨rfl, Or.inl ⟨⟨_, rfl, fun _ => rfl⟩, rfl, by simp⟩⟩
  · rcases getOrCreateBalance_any s u with hg | hg | ⟨b, hg⟩ <;>
    rcases getSupply_any s with hs | hs | ⟨sup, hs⟩ <;>
    · obtain ⟨r, hr⟩ : ∃ r, Burn (newStub env s) u amount reason refID = r := ⟨_, rfl⟩
      rw [hr]
      simp only [Burn, hpos, if_false, hg, hs, state_newStub, state_tick, state_saveBalance]
        at hr
      first
        | (subst hr
           exact ⟨rfl, Or.inl ⟨⟨_, rfl, by simp⟩, rfl, by simp [isBookKey_bal]⟩⟩)
        | (split_ifs at hr <;> subst hr <;>
           first
            | exact ⟨rfl, Or.inl ⟨⟨_, rfl, by simp⟩, rfl, by simp [isBookKey_bal]⟩⟩
            | exact ⟨rfl, Or.inr ⟨rfl, [_, _], _, rfl,
                by simp [isBookKey_bal, isBookKey_supply], rfl⟩⟩)

theorem Lock_outcome (env : Env) (s : Store) (u : String) (amount : ℚ)
    (refID : String) :
    TokenOutcome s (Lock (newStub env s) u amount refID) env.txID "LockEvent"
      (fun t => ⟨env.txID, "LOCK", u, "", amount, "trade_lock", refID, t⟩) := by
  unfold TokenOutcome
  by_cases hpos : amount ≤ 0
  · rw [Lock_nonpos _ _ hpos]
    exact ⟨rfl, Or.inl ⟨⟨_, rfl, fun _ => rfl⟩, rfl, by simp⟩⟩
  · rcases getOrCreateBalance_any s u with hg | hg | ⟨b, hg⟩ <;>
    · obtain ⟨r, hr⟩ : ∃ r, Lock (newStub env s) u amount refID = r := ⟨_, rfl⟩
      rw [hr]
      simp only [Lock, hpos, if_false, hg, state_newStub, state_tick, state_saveBalance]
        at hr
      first
        | (subst hr
           exact ⟨rfl, Or.inl ⟨⟨_, rfl, by simp⟩, rfl, by simp [isBookKey_bal]⟩⟩)
        | (split_ifs at hr <;> subst hr <;>
           first
            | exact ⟨rfl, Or.inl ⟨⟨_, rfl, by simp⟩, rfl, by simp [isBookKey_bal]⟩⟩
            | exact ⟨rfl, Or.inr ⟨rfl, [_], _, rfl,
                by simp [isBookKey_bal, isBookKey_supply], rfl⟩⟩)

theorem Unlock_outcome (env : Env) (s : Store) (u : String) (amount : ℚ)
    (refID : String) :
    TokenOutcome s (Unlock (newStub env s) u amount refID) env.txID "UnlockEvent"
      (fun t => ⟨env.txID, "UNLOCK", "", u, amount, "trade_unlock", refID, t⟩) := by
  unfold TokenOutcome
  by_cases hpos : amount ≤ 0
  · rw [Unlock_nonpos _ _ hpos]
    exact ⟨rfl, Or.inl ⟨⟨_, rfl, fun _ => rfl⟩, rfl, by simp⟩⟩
  · rcases getOrCreateBalance_any s u with hg | hg | ⟨b, hg⟩ <;>
    · obtain ⟨r, hr⟩ : ∃ r, Unlock (newStub env s) u amount refID = r := ⟨_, rfl⟩
      rw [hr]
      simp only [Unlock, hpos, if_false, hg, state_newStub, state_tick, state_saveBalance]
        at hr
      first
        | (subst hr
           exact ⟨rfl, Or.inl ⟨⟨_, rfl, by simp⟩, rfl, by simp [isBookKey_bal]⟩⟩)
        | (split_ifs at hr <;> subst hr <;>
           first
            | exact ⟨rfl, Or.inl ⟨⟨_, rfl, by simp⟩, rfl, by simp [isBookKey_bal]⟩⟩
            | exact ⟨rfl, Or.inr ⟨rfl, [_], _, rfl,
                by simp [isBookKey_bal, isBookKey_supply], rfl⟩⟩)

theorem Transfer_outcome (env : Env) (s : Store) (a b : String) (amount : ℚ)
    (reason refID : String) :
    TokenOutcome s (Transfer (newStub env s) a b amount reason refID) env.txID "TransferEvent"
      (fun t => ⟨env.txID, "TRANSFER", a, b, amount, reason, refID, t⟩) := by
  unfold TokenOutcome
  by_cases hpos : amount ≤ 0
  · rw [Transfer_nonpos _ _ _ hpos]
    exact ⟨rfl, Or.inl ⟨⟨_, rfl, fun _ => rfl⟩, rfl, by simp⟩⟩
  · by_cases hab : a = b
    · subst hab
      rw [Transfer_self _ _ (not_le.mp hpos)]
      exact ⟨rfl, Or.inl ⟨⟨_, rfl, fun _ => rfl⟩, rfl, by simp⟩⟩
    · rcases getOrCreateBalance_any s a with hg | hg | ⟨ba, hg⟩ <;>
      rcases getOrCreateBalance_any s b with hs | hs | ⟨bb, hs⟩ <;>
      · obtain ⟨r, hr⟩ : ∃ r, Transfer (newStub env s) a b amount reason refID = r :=
          ⟨_, rfl⟩
        rw [hr]
        simp only [Transfer, hpos, hab, if_false, hg, hs, state_newStub, state_tick,
          state_saveBalance] at hr
        first
          | (subst hr
             exact ⟨rfl, Or.inl ⟨⟨_, rfl, by simp⟩, rfl, by simp [isBookKey_bal]⟩⟩)
          | (split_ifs at hr <;> subst hr <;>
             first
              | exact ⟨rfl, Or.inl ⟨⟨_, rfl, by simp⟩, rfl, by simp [isBookKey_bal]⟩⟩
              | exact ⟨rfl, Or.inr ⟨rfl, [_, _], _, rfl,
                  by simp [isBookKey_bal, isBookKey_supply], rfl⟩⟩)


/-! ## More keys -/

theorem txKey_inj {t t' : String} (h : "TX_" ++ t = "TX_" ++ t') : t = t' := by
  have := congrArg String.data h
  simp [String.data_append] at this
  exact String.ext this

theorem priceKey_inj {p p' : String} (h : "PRICE_" ++ p = "PRICE_" ++ p') : p = p' := by
  have := congrArg String.data h
  simp [String.data_append] at this
  exact String.ext this

theorem priceKey_ne_txKey (p t : String) : "PRICE_" ++ p ≠ "TX_" ++ t := by
  intro h
  have := congrArg String.data h
  simp [String.data_append] at this

theorem priceKey_ne_latestKey (p : String) : "PRICE_" ++ p ≠ "EPC_LATEST_PRICE" := by
  intro h
  have := congrArg String.data h
  simp [String.data_append] at this

theorem latestKey_ne_txKey (t : String) : "EPC_LATEST_PRICE" ≠ "TX_" ++ t := by
  intro h
  have := congrArg String.data h
  simp [String.data_append] at this

theorem not_isTxKey_of_isBookKey {k : String} (h : IsBookKey k) : ¬ IsTxKey k := by
  rintro ⟨t, ht⟩
  rcases h with ⟨u, hu⟩ | hs
  · exact balKey_ne_txKey u t (hu.symm.trans ht)
  · exact supplyKey_ne_txKey t (hs.symm.trans ht)

theorem not_isBookKey_price (p : String) : ¬ IsBookKey ("PRICE_" ++ p) := by
  rintro (⟨u, hu⟩ | hs)
  · exact balKey_ne_priceKey u p hu.symm
  · exact supplyKey_ne_priceKey p hs.symm

theorem not_isBookKey_latest : ¬ IsBookKey "EPC_LATEST_PRICE" := by
  rintro (⟨u, hu⟩ | hs)
  · exact balKey_ne_latestKey u hu.symm
  · exact supplyKey_ne_latestKey hs.symm

/-! ## Errors of Transfer, Lock and Unlock precede every write (exact decimals) -/

theorem Transfer_error_writes (env : Env) (s : Store) (a b : String) (amount : ℚ)
    (reason refID : String) (e : EPCError)
    (herr : (Transfer (newStub env s) a b amount reason refID).1 = .error e) :
    (Transfer (newStub env s) a b amount reason refID).2.writes = [] := by
  revert herr
  by_cases hpos : amount ≤ 0
  · rw [Transfer_nonpos _ _ _ hpos]
    exact fun _ => rfl
  · by_cases hab : a = b
    · subst hab
      rw [Transfer_self _ _ (not_le.mp hpos)]
      exact fun _ => rfl
    · rcases getOrCreateBalance_any s a with hg | hg | ⟨ba, hg⟩ <;>
      rcases getOrCreateBalance_any s b with hs | hs | ⟨bb, hs⟩ <;>
      · obtain ⟨r, hr⟩ : ∃ r, Transfer (newStub env s) a b amount reason refID = r :=
          ⟨_, rfl⟩
        rw [hr]
        simp only [Transfer, hpos, hab, if_false, hg, hs, state_newStub, state_tick,
          state_saveBalance] at hr
        first
          | (subst hr
             exact fun _ => rfl)
          | (split_ifs at hr <;> subst hr <;>
             first
              | exact fun _ => rfl
              | (intro h
                 simp at h))

theorem Lock_error_writes (env : Env) (s : Store) (u : String) (amount : ℚ)
    (refID : String) (e : EPCError)
    (herr : (Lock (newStub env s) u amount refID).1 = .error e) :
    (Lock (newStub env s) u amount refID).2.writes = [] := by
  revert herr
  by_cases hpos : amount ≤ 0
  · rw [Lock_nonpos _ _ hpos]
    exact fun _ => rfl
  · rcases getOrCreateBalance_any s u with hg | hg | ⟨b, hg⟩ <;>
    · obtain ⟨r, hr⟩ : ∃ r, Lock (newStub env s) u amount refID = r := ⟨_, rfl⟩
      rw [hr]
      simp only [Lock, hpos, if_false, hg, state_newStub] at hr
      first
        | (subst hr
           exact fun _ => rfl)
        | (split_ifs at hr <;> subst hr <;>
           first
            | exact fun _ => rfl
            | (intro h
               simp at h))

theorem Unlock_error_writes (env : Env) (s : Store) (u : String) (amount : ℚ)
    (refID : String) (e : EPCError)
    (herr : (Unlock (newStub env s) u amount refID).1 = .error e) :
    (Unlock (newStub env s) u amount refID).2.writes = [] := by
  revert herr
  by_cases hpos : amount ≤ 0
  · rw [Unlock_nonpos _ _ hpos]
    exact fun _ => rfl
  · rcases getOrCreateBalance_any s u with hg | hg | ⟨b, hg⟩ <;>
    · obtain ⟨r, hr⟩ : ∃ r, Unlock (newStub env s) u amount refID = r := ⟨_, rfl⟩
      rw [hr]
      simp only [Unlock, hpos, if_false, hg, state_newStub] at hr
      first
        | (subst hr
           exact fun _ => rfl)
        | (split_ifs at hr <;> subst hr <;>
           first
            | exact fun _ => rfl
            | (intro h
               simp at h))

/-! ## SetPrice and InitLedger on any store -/

/-- What `SetPrice` has done on any store: it sets no event; when it fails it
has written no key, unless the failure is the supply record not decoding, in
which case the two price keys were written; when it succeeds both prices were
positive and it has written the record under its price key and under the
latest-price key, then the supply. -/
theorem SetPrice_outcome (env : Env) (s : Store) (priceID source : String) (price : ℚ)
    (currency : String) (basketPrice : ℚ) (timestamp : String) :
    (SetPrice (newStub env s) priceID source price currency basketPrice timestamp).2.state = s ∧
    (SetPrice (newStub env s) priceID source price currency basketPrice timestamp).2.event
      = none ∧
    (((∃ e, (SetPrice (newStub env s) priceID source price currency basketPrice timestamp).1
            = .error e ∧
          (e ≠ .supplyDecode →
            (SetPrice (newStub env s) priceID source price currency basketPrice
              timestamp).2.writes = [])) ∧
        ∀ kv ∈ (SetPrice (newStub env s) priceID source price currency basketPrice
            timestamp).2.writes, kv.1 = "PRICE_" ++ priceID ∨ kv.1 = "EPC_LATEST_PRICE") ∨
      ((SetPrice (newStub env s) priceID source price currency basketPrice timestamp).1
          = .ok () ∧ 0 < price ∧ 0 < basketPrice ∧
        ∃ sup : TokenSupply,
          (SetPrice (newStub env s) priceID source price currency basketPrice
              timestamp).2.writes =
            [("PRICE_" ++ priceID, PriceRecord.marshal
                ⟨priceID, source, price, currency, basketPrice, timestamp, env.clock 0⟩),
             ("EPC_LATEST_PRICE", PriceRecord.marshal
                ⟨priceID, source, price, currency, basketPrice, timestamp, env.clock 0⟩),
             ("EPC_SUPPLY", sup.marshal)])) := by
  by_cases hp : price ≤ 0
  · have h : SetPrice (newStub env s) priceID source price currency basketPrice timestamp =
        (.error .priceNotPositive, newStub env s) := by simp [SetPrice, hp]
    rw [h]
    exact ⟨rfl, rfl, Or.inl ⟨⟨_, rfl, fun _ => rfl⟩, by simp⟩⟩
  · by_cases hb : basketPrice ≤ 0
    · have h : SetPrice (newStub env s) priceID source price currency basketPrice timestamp =
          (.error .basketPriceNotPositive, newStub env s) := by simp [SetPrice, hp, hb]
      rw [h]
      exact ⟨rfl, rfl, Or.inl ⟨⟨_, rfl, fun _ => rfl⟩, by simp⟩⟩
    · rcases getSupply_any s with hs | hs | ⟨sup, hs⟩ <;>
      · obtain ⟨r, hr⟩ :
            ∃ r, SetPrice (newStub env s) priceID source price currency basketPrice timestamp
              = r := ⟨_, rfl⟩
        rw [hr]
        simp only [SetPrice, hp, hb, if_false, hs, state_newStub, state_tick, state_PutState]
          at hr
        subst hr
        first
          | exact ⟨rfl, rfl, Or.inl ⟨⟨_, rfl, by simp⟩, by simp⟩⟩
          | exact ⟨rfl, rfl, Or.inr ⟨rfl, not_le.mp hp, not_le.mp hb, _, rfl⟩⟩


/-! ## Frame of a write set -/

theorem foldl_put_of_not_written (ws : List (String × Doc)) (s : Store) (k : String)
    (h : ∀ kv ∈ ws, kv.1 ≠ k) : (ws.foldl (fun s kv => s.put kv.1 kv.2) s) k = s k := by
  induction ws generalizing s with
  | nil => rfl
  | cons w rest ih =>
    rw [List.foldl_cons, ih _ (fun kv hkv => h kv (List.mem_cons_of_mem _ hkv))]
    exact Store.put_of_ne s w.2 (fun e => h w (List.mem_cons_self _ _) e.symm)

theorem ledger_of_not_written (st : Stub) (k : String) (h : ∀ kv ∈ st.writes, kv.1 ≠ k) :
    st.ledger k = st.state k :=
  foldl_put_of_not_written st.writes st.state k h

theorem ledger_of_writes_nil (st : Stub) (h : st.writes = []) : st.ledger = st.state := by
  unfold Stub.ledger
  rw [h]
  rfl

theorem TokenOutcome_writes_within {s : Store} {r : Except EPCError Unit × Stub}
    {txID name : String} {entry : String → TokenTransaction}
    (h : TokenOutcome s r txID name entry) :
    ∀ kv ∈ r.2.writes, IsBookKey kv.1 ∨ kv.1 = "TX_" ++ txID := by
  intro kv hkv
  rcases h.2 with ⟨-, -, hw⟩ | ⟨-, pre, t, hw, hpre, -⟩
  · exact Or.inl (hw kv hkv)
  · rw [hw, List.mem_append, List.mem_singleton] at hkv
    rcases hkv with hkv | rfl
    · exact Or.inl (hpre kv hkv)
    · exact Or.inr rfl

/-- Every call leaves the committed state of its stub alone and writes only
keys it may write. -/
theorem call_writes_within (env : Env) (s : Store) (c : Call) :
    (c.run (newStub env s)).2.state = s ∧
    ∀ kv ∈ (c.run (newStub env s)).2.writes, c.mayWrite env kv.1 := by
  cases c with
  | initLedger =>
    refine ⟨rfl, ?_⟩
    intro kv hkv
    have : kv = ("EPC_SUPPLY", TokenSupply.marshal ⟨0, 0, 0, 0, env.clock 0⟩) := by
      simpa [Call.run, InitLedger] using hkv
    rw [this]
    rfl
  | setPrice priceID source price currency basketPrice timestamp =>
    obtain ⟨hst, -, h⟩ :=
      SetPrice_outcome env s priceID source price currency basketPrice timestamp
    refine ⟨hst, ?_⟩
    intro kv hkv
    rcases h with ⟨-, hw⟩ | ⟨-, -, -, sup, hw⟩
    · rcases hw kv hkv with h1 | h1
      · exact Or.inl h1
      · exact Or.inr (Or.inl h1)
    · have hkv' : kv ∈ (SetPrice (newStub env s) priceID source price currency basketPrice
          timestamp).2.writes := hkv
      rw [hw] at hkv'
      simp only [List.mem_cons, List.mem_singleton, List.not_mem_nil, or_false] at hkv'
      rcases hkv' with rfl | rfl | rfl
      · exact Or.inl rfl
      · exact Or.inr (Or.inl rfl)
      · exact Or.inr (Or.inr rfl)
  | mint u amount reason refID =>
    exact ⟨(Mint_outcome env s u amount reason refID).1,
      TokenOutcome_writes_within (Mint_outcome env s u amount reason refID)⟩
  | burn u amount reason refID =>
    exact ⟨(Burn_outcome env s u amount reason refID).1,
      TokenOutcome_writes_within (Burn_outcome env s u amount reason refID)⟩
  | transfer a b amount reason refID =>
    exact ⟨(Transfer_outcome env s a b amount reason refID).1,
      TokenOutcome_writes_within (Transfer_outcome env s a b amount reason refID)⟩
  | lock u amount refID =>
    exact ⟨(Lock_outcome env s u amount refID).1,
      TokenOutcome_writes_within (Lock_outcome env s u amount refID)⟩
  | unlock u amount refID =>
    exact ⟨(Unlock_outcome env s u amount refID).1,
      TokenOutcome_writes_within (Unlock_outcome env s u amount refID)⟩

/-- A key a call may not write holds the same bytes after the call. -/
theorem exec_frame (env : Env) (s : Store) (c : Call) (k : String)
    (h : ¬ c.mayWrite env k) : exec s (env, c) k = s k := by
  obtain ⟨hst, hw⟩ := call_writes_within env s c
  have := ledger_of_not_written (c.run (newStub env s)).2 k
    (fun kv hkv e => h (e ▸ hw kv hkv))
  rw [hst] at this
  exact this

/-! ## Queries write nothing -/

theorem getOrCreateBalance_stub (st : Stub) (u : String) :
    (getOrCreateBalance st u).2.writes = st.writes ∧
    (getOrCreateBalance st u).2.event = st.event ∧
    (getOrCreateBalance st u).2.state = st.state := by
  rcases getOrCreateBalance_any st.state u with h | h | ⟨b, h⟩ <;>
  · rw [h st rfl]
    exact ⟨rfl, rfl, rfl⟩

theorem getSupply_stub (st : Stub) :
    (getSupply st).2.writes = st.writes ∧ (getSupply st).2.event = st.event ∧
    (getSupply st).2.state = st.state := by
  rcases getSupply_any st.state with h | h | ⟨b, h⟩ <;>
  · rw [h st rfl]
    exact ⟨rfl, rfl, rfl⟩

theorem GetPrice_stub (st : Stub) : (GetPrice st).2 = st := by
  unfold GetPrice
  split
  · rfl
  · split <;> rfl

theorem GetPriceHistory_stub (st : Stub) (priceID : String) :
    (GetPriceHistory st priceID).2 = st := rfl


/-! ## Claims on rejected and failed calls -/

/-- C11: on every store, each of Mint, Burn, Transfer, Lock and Unlock called
with `amount <= 0`, and SetPrice called with `price <= 0` or
`basketPrice <= 0`, returns a validation error, issues no write, sets no event
and leaves the store as it was. -/
theorem nonpositive_rejected (env : Env) (s : Store) :
    (∀ u amount reason refID, amount ≤ 0 →
      Rejected s (Mint (newStub env s) u amount reason refID)) ∧
    (∀ u amount reason refID, amount ≤ 0 →
      Rejected s (Burn (newStub env s) u amount reason refID)) ∧
    (∀ a b amount reason refID, amount ≤ 0 →
      Rejected s (Transfer (newStub env s) a b amount reason refID)) ∧
    (∀ u amount refID, amount ≤ 0 → Rejected s (Lock (newStub env s) u amount refID)) ∧
    (∀ u amount refID, amount ≤ 0 → Rejected s (Unlock (newStub env s) u amount refID)) ∧
    (∀ priceID source price currency basketPrice timestamp, price ≤ 0 ∨ basketPrice ≤ 0 →
      Rejected s
        (SetPrice (newStub env s) priceID source price currency basketPrice timestamp)) := by
  refine ⟨?_, ?_, ?_, ?_, ?_, ?_⟩
  · intro u amount reason refID h
    rw [Mint_nonpos _ _ h]
    exact ⟨⟨_, rfl, rfl⟩, rfl, rfl, rfl⟩
  · intro u amount reason refID h
    rw [Burn_nonpos _ _ h]
    exact ⟨⟨_, rfl, rfl⟩, rfl, rfl, rfl⟩
  · intro a b amount reason refID h
    rw [Transfer_nonpos _ _ _ h]
    exact ⟨⟨_, rfl, rfl⟩, rfl, rfl, rfl⟩
  · intro u amount refID h
    rw [Lock_nonpos _ _ h]
    exact ⟨⟨_, rfl, rfl⟩, rfl, rfl, rfl⟩
  · intro u amount refID h
    rw [Unlock_nonpos _ _ h]
    exact ⟨⟨_, rfl, rfl⟩, rfl, rfl, rfl⟩
  · intro priceID source price currency basketPrice timestamp h
    by_cases hp : price ≤ 0
    · have e : SetPrice (newStub env s) priceID source price currency basketPrice timestamp =
          (.error .priceNotPositive, newStub env s) := by simp [SetPrice, hp]
      rw [e]
      exact ⟨⟨_, rfl, rfl⟩, rfl, rfl, rfl⟩
    · have hb : basketPrice ≤ 0 := h.resolve_left hp
      have e : SetPrice (newStub env s) priceID source price currency basketPrice timestamp =
          (.error .basketPriceNotPositive, newStub env s) := by simp [SetPrice, hp, hb]
      rw [e]
      exact ⟨⟨_, rfl, rfl⟩, rfl, rfl, rfl⟩

/-! ## Claims on the transaction log -/

theorem TokenOutcome_logged {s : Store} {r : Except EPCError Unit × Stub}
    {txID name : String} {entry : String → TokenTransaction}
    (hid : ∀ t, (entry t).TxID = txID) (h : TokenOutcome s r txID name entry) :
    (r.1 = .ok () → ∃ createdAt, LoggedOnce r.2 name (entry createdAt)) ∧
    (∀ e, r.1 = .error e → LoggedNothing r.2) := by
  rcases h.2 with ⟨⟨e', he', -⟩, hev, hw⟩ | ⟨hok, pre, t, hw, hpre, hev⟩
  · refine ⟨fun hok => ?_, fun _ _ => ⟨fun kv hkv => not_isTxKey_of_isBookKey (hw kv hkv), hev⟩⟩
    rw [he'] at hok
    cases hok
  · refine ⟨fun _ => ⟨t, ⟨pre, ?_, fun kv hkv => not_isTxKey_of_isBookKey (hpre kv hkv)⟩, hev⟩,
      fun e he => ?_⟩
    · rw [hid t]
      exact hw
    · rw [hok] at he
      cases he

/-- C13: on every store, a successful Mint, Burn, Transfer, Lock or Unlock run
with transaction id `t` writes exactly one transaction entry, under `TX_t`,
whose `txId` is `t`, whose type is MINT, BURN, TRANSFER, LOCK or UNLOCK and
whose accounts, amount, reason and refId are the arguments of the call
(`trade_lock` and `trade_unlock` being the reasons of Lock and Unlock), and
sets one event, named MintEvent, BurnEvent, TransferEvent, LockEvent or
UnlockEvent, whose payload is the same serialized entry; a failed call writes
no transaction entry and sets no event. -/
theorem token_calls_log_once (env : Env) (s : Store) :
    (∀ u amount reason refID,
      ((Mint (newStub env s) u amount reason refID).1 = .ok () →
        ∃ createdAt, LoggedOnce (Mint (newStub env s) u amount reason refID).2 "MintEvent"
          ⟨env.txID, "MINT", "", u, amount, reason, refID, createdAt⟩) ∧
      (∀ e, (Mint (newStub env s) u amount reason refID).1 = .error e →
        LoggedNothing (Mint (newStub env s) u amount reason refID).2)) ∧
    (∀ u amount reason refID,
      ((Burn (newStub env s) u amount reason refID).1 = .ok () →
        ∃ createdAt, LoggedOnce (Burn (newStub env s) u amount reason refID).2 "BurnEvent"
          ⟨env.txID, "BURN", u, "", amount, reason, refID, createdAt⟩) ∧
      (∀ e, (Burn (newStub env s) u amount reason refID).1 = .error e →
        LoggedNothing (Burn (newStub env s) u amount reason refID).2)) ∧
    (∀ a b amount reason refID,
      ((Transfer (newStub env s) a b amount reason refID).1 = .ok () →
        ∃ createdAt,
          LoggedOnce (Transfer (newStub env s) a b amount reason refID).2 "TransferEvent"
            ⟨env.txID, "TRANSFER", a, b, amount, reason, refID, createdAt⟩) ∧
      (∀ e, (Transfer (newStub env s) a b amount reason refID).1 = .error e →
        LoggedNothing (Transfer (newStub env s) a b amount reason refID).2)) ∧
    (∀ u amount refID,
      ((Lock (newStub env s) u amount refID).1 = .ok () →
        ∃ createdAt, LoggedOnce (Lock (newStub env s) u amount refID).2 "LockEvent"
          ⟨env.txID, "LOCK", u, "", amount, "trade_lock", refID, createdAt⟩) ∧
      (∀ e, (Lock (newStub env s) u amount refID).1 = .error e →
        LoggedNothing (Lock (newStub env s) u amount refID).2)) ∧
    (∀ u amount refID,
      ((Unlock (newStub env s) u amount refID).1 = .ok () →
        ∃ createdAt, LoggedOnce (Unlock (newStub env s) u amount refID).2 "UnlockEvent"
          ⟨env.txID, "UNLOCK", "", u, amount, "trade_unlock", refID, createdAt⟩) ∧
      (∀ e, (Unlock (newStub env s) u amount refID).1 = .error e →
        LoggedNothing (Unlock (newStub env s) u amount refID).2)) :=
  ⟨fun u amount reason refID =>
      TokenOutcome_logged (fun _ => rfl) (Mint_outcome env s u amount reason refID),
    fun u amount reason refID =>
      TokenOutcome_logged (fun _ => rfl) (Burn_outcome env s u amount reason refID),
    fun a b amount reason refID =>
      TokenOutcome_logged (fun _ => rfl) (Transfer_outcome env s a b amount reason refID),
    fun u amount refID =>
      TokenOutcome_logged (fun _ => rfl) (Lock_outcome env s u amount refID),
    fun u amount refID =>
      TokenOutcome_logged (fun _ => rfl) (Unlock_outcome env s u amount refID)⟩

theorem not_mayWrite_other_tx (env : Env) (c : Call) {t' : String} (ht : t' ≠ env.txID) :
    ¬ c.mayWrite env ("TX_" ++ t') := by
  have hbook : ¬ IsBookKey ("TX_" ++ t') := fun h => not_isTxKey_of_isBookKey h ⟨t', rfl⟩
  have hself : "TX_" ++ t' ≠ "TX_" ++ env.txID := fun e => ht (txKey_inj e)
  cases c with
  | initLedger => exact fun h => supplyKey_ne_txKey t' h.symm
  | setPrice priceID source price currency basketPrice timestamp =>
    rintro (h | h | h)
    · exact priceKey_ne_txKey priceID t' h.symm
    · exact latestKey_ne_txKey t' h.symm
    · exact supplyKey_ne_txKey t' h.symm
  | mint u amount reason refID => exact fun h => h.elim hbook hself
  | burn u amount reason refID => exact fun h => h.elim hbook hself
  | transfer a b amount reason refID => exact fun h => h.elim hbook hself
  | lock u amount refID => exact fun h => h.elim hbook hself
  | unlock u amount refID => exact fun h => h.elim hbook hself

/-- C14: on every store, a call of any operation run with transaction id `t`
leaves the entry under `TX_t'` as it was for every `t'` other than `t`; so
when `t` is fresh (nothing is stored under `TX_t`) every transaction entry
already stored is still there, unchanged, after the call; and the queries
BalanceOf, TotalSupply, GetPrice and GetPriceHistory write nothing at all. -/
theorem transaction_log_write_once (env : Env) (s : Store) :
    (∀ (c : Call) (t' : String), t' ≠ env.txID →
      exec s (env, c) ("TX_" ++ t') = s ("TX_" ++ t')) ∧
    (s ("TX_" ++ env.txID) = none → ∀ (c : Call) (k : String) (d : Doc), IsTxKey k →
      s k = some d → exec s (env, c) k = some d) ∧
    (∀ u, (BalanceOf (newStub env s) u).2.ledger = s) ∧
    (TotalSupply (newStub env s)).2.ledger = s ∧
    (GetPrice (newStub env s)).2.ledger = s ∧
    (∀ h priceID, (GetPriceHistory (historyStub env h) priceID).2.ledger = h.current) := by
  have h1 : ∀ (c : Call) (t' : String), t' ≠ env.txID →
      exec s (env, c) ("TX_" ++ t') = s ("TX_" ++ t') :=
    fun c t' ht => exec_frame env s c _ (not_mayWrite_other_tx env c ht)
  refine ⟨h1, ?_, ?_, ?_, ?_, ?_⟩
  · rintro hfresh c k d ⟨t', rfl⟩ hd
    have ht : t' ≠ env.txID := by
      rintro rfl
      rw [hfresh] at hd
      cases hd
    rw [h1 c t' ht]
    exact hd
  · intro u
    have h := getOrCreateBalance_stub (newStub env s) u
    exact (ledger_of_writes_nil _ h.1).trans h.2.2
  · have h := getSupply_stub (newStub env s)
    exact (ledger_of_writes_nil _ h.1).trans h.2.2
  · rw [GetPrice_stub]
    rfl
  · intro h priceID
    rfl


/-! ## Price calls in a run -/

@[simp]
theorem unmarshal_marshal_price (r : PriceRecord) :
    PriceRecord.unmarshal r.marshal = some r := by
  simp [PriceRecord.unmarshal, PriceRecord.marshal, PriceRecord.setField, setString,
    setNumber]

theorem GetPrice_of_latest (st : Stub) (r : PriceRecord)
    (h : st.state "EPC_LATEST_PRICE" = some r.marshal) : GetPrice st = (.ok r, st) := by
  simp [GetPrice, Stub.GetState, h]

theorem GetPrice_of_none (st : Stub) (h : st.state "EPC_LATEST_PRICE" = none) :
    GetPrice st = (.error .noPriceData, st) := by
  simp [GetPrice, Stub.GetState, h]

/-- In a ledger state a `SetPrice` call that succeeds has written its record
under its price key and the latest-price key, then the supply; any other call,
and a `SetPrice` call that fails, writes neither the latest-price key nor a
price key. -/
theorem price_step (env : Env) (s : Store) (hs : LedgerState s) (c : Call) :
    (∀ r, successfulPrice s (env, c) = some r →
      ∃ sup : TokenSupply, (c.run (newStub env s)).2.writes =
        [("PRICE_" ++ r.PriceID, r.marshal), ("EPC_LATEST_PRICE", r.marshal),
         ("EPC_SUPPLY", sup.marshal)]) ∧
    (successfulPrice s (env, c) = none →
      ∀ kv ∈ (c.run (newStub env s)).2.writes,
        kv.1 ≠ "EPC_LATEST_PRICE" ∧ ∀ p, kv.1 ≠ "PRICE_" ++ p) := by
  have other : ∀ c' : Call, (∀ k, c'.mayWrite env k → IsBookKey k ∨ k = "TX_" ++ env.txID) →
      ∀ kv ∈ (c'.run (newStub env s)).2.writes,
        kv.1 ≠ "EPC_LATEST_PRICE" ∧ ∀ p, kv.1 ≠ "PRICE_" ++ p := by
    intro c' hc' kv hkv
    rcases hc' _ ((call_writes_within env s c').2 kv hkv) with hb | ht
    · exact ⟨fun e => not_isBookKey_latest (e ▸ hb), fun p e => not_isBookKey_price p (e ▸ hb)⟩
    · exact ⟨fun e => latestKey_ne_txKey _ (e.symm.trans ht),
        fun p e => priceKey_ne_txKey p _ (e.symm.trans ht)⟩
  cases c with
  | initLedger =>
    refine ⟨fun r hr => by simp [successfulPrice, Call.run, InitLedger, Call.priceRecord] at hr,
      fun _ kv hkv => ?_⟩
    have hk := (call_writes_within env s .initLedger).2 kv hkv
    have hk' : kv.1 = "EPC_SUPPLY" := hk
    rw [hk']
    exact ⟨supplyKey_ne_latestKey, supplyKey_ne_priceKey⟩
  | setPrice priceID source price currency basketPrice timestamp =>
    obtain ⟨-, -, h⟩ :=
      SetPrice_outcome env s priceID source price currency basketPrice timestamp
    rcases h with ⟨⟨e, he, -⟩, -⟩ | ⟨hok, -, -, sup, hw⟩
    · have hnone : successfulPrice s
          (env, .setPrice priceID source price currency basketPrice timestamp) = none := by
        simp only [successfulPrice, Call.run, he]
      refine ⟨fun r hr => ?_, fun _ kv hkv => ?_⟩
      · rw [hnone] at hr
        cases hr
      · have hle : price ≤ 0 ∨ basketPrice ≤ 0 := by
          by_contra hcon
          have hp : 0 < price := not_le.mp fun h => hcon (Or.inl h)
          have hb : 0 < basketPrice := not_le.mp fun h => hcon (Or.inr h)
          obtain ⟨_, _, _, _, hok, -⟩ :=
            SetPrice_effect env s hs priceID source price currency basketPrice timestamp hp hb
          rw [he] at hok
          cases hok
        have hkv' : kv ∈ (SetPrice (newStub env s) priceID source price currency basketPrice
            timestamp).2.writes := hkv
        rw [SetPrice_nonpos _ _ _ _ _ _ _ hle] at hkv'
        cases hkv'
    · refine ⟨fun r hr => ⟨sup, ?_⟩, fun hnone => ?_⟩
      · have hr' : r = ⟨priceID, source, price, currency, basketPrice, timestamp,
            env.clock 0⟩ := by
          simp only [successfulPrice, Call.run, hok, Call.priceRecord] at hr
          exact (Option.some.inj hr).symm
        subst hr'
        exact hw
      · simp only [successfulPrice, Call.run, hok, Call.priceRecord] at hnone
        cases hnone
  | mint u amount reason refID =>
    refine ⟨fun r hr => ?_, fun _ => other _ (fun k hk => hk)⟩
    simp only [successfulPrice, Call.priceRecord] at hr
    split at hr <;> cases hr
  | burn u amount reason refID =>
    refine ⟨fun r hr => ?_, fun _ => other _ (fun k hk => hk)⟩
    simp only [successfulPrice, Call.priceRecord] at hr
    split at hr <;> cases hr
  | transfer a b amount reason refID =>
    refine ⟨fun r hr => ?_, fun _ => other _ (fun k hk => hk)⟩
    simp only [successfulPrice, Call.priceRecord] at hr
    split at hr <;> cases hr
  | lock u amount refID =>
    refine ⟨fun r hr => ?_, fun _ => other _ (fun k hk => hk)⟩
    simp only [successfulPrice, Call.priceRecord] at hr
    split at hr <;> cases hr
  | unlock u amount refID =>
    refine ⟨fun r hr => ?_, fun _ => other _ (fun k hk => hk)⟩
    simp only [successfulPrice, Call.priceRecord] at hr
    split at hr <;> cases hr

/-- In a ledger state, the latest-price slot after a call holds the record of
the call when it is a successful `SetPrice`, and what it held before
otherwise. -/
theorem latest_after_call (env : Env) (s : Store) (hs : LedgerState s) (c : Call)
    (last : Option PriceRecord) (hlast : s "EPC_LATEST_PRICE" = last.map PriceRecord.marshal) :
    exec s (env, c) "EPC_LATEST_PRICE" =
      (match successfulPrice s (env, c) with
       | some record => some record
       | none => last).map PriceRecord.marshal := by
  obtain ⟨hsome, hnone⟩ := price_step env s hs c
  cases hsp : successfulPrice s (env, c) with
  | none =>
    have := ledger_of_not_written (c.run (newStub env s)).2 "EPC_LATEST_PRICE"
      (fun kv hkv => (hnone hsp kv hkv).1)
    rw [(call_writes_within env s c).1] at this
    exact this.trans hlast
  | some r =>
    obtain ⟨sup, hw⟩ := hsome r hsp
    show (c.run (newStub env s)).2.ledger "EPC_LATEST_PRICE" = _
    unfold Stub.ledger
    rw [hw]
    simp [Store.put, supplyKey_ne_latestKey.symm]

theorem latest_after_run (invs : List (Env × Call)) (s : Store) (hs : Inv s)
    (last : Option PriceRecord) (hlast : s "EPC_LATEST_PRICE" = last.map PriceRecord.marshal) :
    execAll s invs "EPC_LATEST_PRICE" =
      (lastSuccessfulSetPrice s last invs).map PriceRecord.marshal := by
  induction invs generalizing s last with
  | nil => exact hlast
  | cons inv rest ih =>
    obtain ⟨env, c⟩ := inv
    exact ih (exec s (env, c)) (exec_preserves_Inv hs (env, c)) _
      (latest_after_call env s hs.1 c last hlast)


/-! ## Claims on prices and queries -/

/-- C15: after any finite run of calls from the empty ledger in which some
`SetPrice` call succeeded, `GetPrice()` succeeds and returns the record of the
most recent successful `SetPrice` call, whose price id, source, price,
currency, basket price and timestamp are the arguments of that call; and in
any state so reached a `SetPrice` call that returns an error leaves the store,
hence the answer of `GetPrice()`, as it was. -/
theorem GetPrice_returns_last_SetPrice (invs : List (Env × Call)) :
    (∀ r env, lastSuccessfulSetPrice emptyStore none invs = some r →
      (GetPrice (newStub env (execAll emptyStore invs))).1 = .ok r) ∧
    (∀ env priceID source price currency basketPrice timestamp e,
      (SetPrice (newStub env (execAll emptyStore invs)) priceID source price currency
          basketPrice timestamp).1 = .error e →
        exec (execAll emptyStore invs)
            (env, .setPrice priceID source price currency basketPrice timestamp) =
          execAll emptyStore invs ∧
        ∀ env', (GetPrice (newStub env' (exec (execAll emptyStore invs)
              (env, .setPrice priceID source price currency basketPrice timestamp)))).1 =
            (GetPrice (newStub env' (execAll emptyStore invs))).1) := by
  have hInv : Inv (execAll emptyStore invs) := execAll_preserves_Inv invs Inv_empty
  constructor
  · intro r env hr
    have h := latest_after_run invs emptyStore Inv_empty none rfl
    rw [hr] at h
    rw [GetPrice_of_latest _ r h]
  · intro env priceID source price currency basketPrice timestamp e he
    have h := failed_call_leaves_state env hInv.1
      (.setPrice priceID source price currency basketPrice timestamp) e he
    exact ⟨h, fun env' => by rw [h]⟩

/-- C19: on every store, `BalanceOf(u)` for an account with no stored record
succeeds and returns the record of `u` with balance 0 and locked balance 0;
`TotalSupply()` with no stored supply succeeds and returns zero totals and
price; `GetPrice()` fails with a not-found error when the latest-price slot is
empty, as it is after every run from the empty ledger in which no `SetPrice`
call succeeded; and the three queries issue no write. -/
theorem queries_on_absent_data (env : Env) (s : Store) :
    (∀ u, s ("BAL_" ++ u) = none →
      (BalanceOf (newStub env s) u).1 = .ok ⟨u, 0, 0, env.clock 0⟩) ∧
    (s "EPC_SUPPLY" = none →
      (TotalSupply (newStub env s)).1 = .ok ⟨0, 0, 0, 0, env.clock 0⟩) ∧
    (s "EPC_LATEST_PRICE" = none →
      ∃ e, (GetPrice (newStub env s)).1 = .error e ∧ e.isNotFound = true) ∧
    (∀ invs, lastSuccessfulSetPrice emptyStore none invs = none →
      ∃ e, (GetPrice (newStub env (execAll emptyStore invs))).1 = .error e ∧
        e.isNotFound = true) ∧
    (∀ u, (BalanceOf (newStub env s) u).2.writes = []) ∧
    (TotalSupply (newStub env s)).2.writes = [] ∧
    (GetPrice (newStub env s)).2.writes = [] := by
  refine ⟨?_, ?_, ?_, ?_, ?_, ?_, ?_⟩
  · intro u hu
    have h : getOrCreateBalance (newStub env s) u = _ := getOrCreateBalance_none hu
    show (getOrCreateBalance (newStub env s) u).1 = _
    rw [h]
    rfl
  · intro hsup
    have h : getSupply (newStub env s) = _ := getSupply_none hsup
    show (getSupply (newStub env s)).1 = _
    rw [h]
    rfl
  · intro hl
    rw [GetPrice_of_none (newStub env s) hl]
    exact ⟨_, rfl, rfl⟩
  · intro invs hnone
    have h := latest_after_run invs emptyStore Inv_empty none rfl
    rw [hnone] at h
    rw [GetPrice_of_none (newStub env (execAll emptyStore invs)) h]
    exact ⟨_, rfl, rfl⟩
  · intro u
    exact (getOrCreateBalance_stub (newStub env s) u).1
  · exact (getSupply_stub (newStub env s)).1
  · rw [GetPrice_stub]
    rfl

/-- C18 (as the code has it): `GetPriceHistory(id)` never fails; for a price id
under which no version was ever written it succeeds with the empty sequence. -/
theorem GetPriceHistory_never_fails (st : Stub) (priceID : String) :
    (∃ records, (GetPriceHistory st priceID).1 = .ok records) ∧
    (st.history ("PRICE_" ++ priceID) = [] → (GetPriceHistory st priceID).1 = .ok []) := by
  refine ⟨⟨_, rfl⟩, fun h => ?_⟩
  simp [GetPriceHistory, Stub.GetHistoryForKey, h, collectPriceRecords]

/-- C18 fails as stated: on the versioned store on which nothing was ever
committed, `GetPriceHistory("p1")` returns a successful empty result. -/
theorem GetPriceHistory_empty_success :
    (GetPriceHistory (historyStub (exampleEnv "tx1") emptyHistory) "p1").1 = .ok [] := by
  with_unfolding_all rfl

/-- C20 (as the code has it): `InitLedger` makes no existence check; on every
store it succeeds and writes a supply record with zero totals and zero price,
and every other key keeps its bytes. -/
theorem InitLedger_overwrites_supply (env : Env) (s : Store) :
    (InitLedger (newStub env s)).1 = .ok () ∧
    supplyOf (InitLedger (newStub env s)).2.ledger = some ⟨0, 0, 0, 0, env.clock 0⟩ ∧
    ∀ k, k ≠ "EPC_SUPPLY" → (InitLedger (newStub env s)).2.ledger k = s k := by
  obtain ⟨hok, hled⟩ := InitLedger_effect env s
  refine ⟨hok, ?_, ?_⟩
  · rw [hled]
    exact supplyOf_put_supply _ _
  · intro k hk
    rw [hled]
    exact Store.put_of_ne _ _ hk

/-- C20 fails as stated: on the ledger where 100 were minted, `InitLedger`
succeeds and the supply record goes from totals of 100 to totals of 0. -/
theorem InitLedger_resets_existing_supply :
    supplyOf afterMint = some ⟨100, 100, 0, 0, "2024-01-01T00:00:00Z"⟩ ∧
    (InitLedger (newStub (exampleEnv "tx2") afterMint)).1 = .ok () ∧
    supplyOf (InitLedger (newStub (exampleEnv "tx2") afterMint)).2.ledger =
      some ⟨0, 0, 0, 0, "2024-01-01T00:00:00Z"⟩ := by
  refine ⟨?_, ?_, ?_⟩
  · decide!
  · rfl
  · decide!


/-! ## The versioned store and the price history -/

theorem collectPriceRecords_eq (versions : List Doc) (records : List PriceRecord) :
    collectPriceRecords versions records =
      records ++ versions.filterMap PriceRecord.unmarshal := by
  induction versions generalizing records with
  | nil => simp [collectPriceRecords]
  | cons d rest ih =>
    unfold collectPriceRecords
    cases hd : PriceRecord.unmarshal d with
    | none => simp [ih, List.filterMap_cons, hd]
    | some r => simp [ih, List.filterMap_cons, hd]

theorem lastWrite_cons (w : String × Doc) (rest : List (String × Doc)) (k : String) :
    lastWrite (w :: rest) k =
      match lastWrite rest k with
      | some d => some d
      | none => if w.1 = k then some w.2 else none := rfl

theorem foldl_put_eq_lastWrite (ws : List (String × Doc)) (s : Store) (k : String) :
    (ws.foldl (fun s kv => s.put kv.1 kv.2) s) k =
      match lastWrite ws k with
      | none => s k
      | some d => some d := by
  induction ws generalizing s with
  | nil => rfl
  | cons w rest ih =>
    rw [List.foldl_cons, ih, lastWrite_cons]
    cases hl : lastWrite rest k with
    | some d => rfl
    | none =>
      by_cases hk : w.1 = k
      · simp [Store.put, hk]
      · have hk' : k ≠ w.1 := fun e => hk e.symm
        simp [Store.put, hk, hk']

theorem lastWrite_of_not_written (ws : List (String × Doc)) (k : String)
    (h : ∀ kv ∈ ws, kv.1 ≠ k) : lastWrite ws k = none := by
  induction ws with
  | nil => rfl
  | cons w rest ih =>
    rw [lastWrite_cons, ih (fun kv hkv => h kv (List.mem_cons_of_mem _ hkv))]
    simp [h w (List.mem_cons_self _ _)]

theorem current_commit (h : History) (ws : List (String × Doc)) :
    (h.commit ws).current = ws.foldl (fun s kv => s.put kv.1 kv.2) h.current := by
  funext k
  rw [foldl_put_eq_lastWrite]
  unfold History.current History.commit
  cases lastWrite ws k with
  | none => rfl
  | some d => simp

/-- The world state of the versioned store after a call is the store `exec`
computes from the world state before it. -/
theorem vexec_current (h : History) (inv : Env × Call) :
    (vexec h inv).current = exec h.current inv := by
  unfold vexec exec Stub.ledger
  rw [current_commit, (call_writes_within inv.1 h.current inv.2).1]

theorem vexecAll_current (invs : List (Env × Call)) (h : History) :
    (vexecAll h invs).current = execAll h.current invs := by
  induction invs generalizing h with
  | nil => rfl
  | cons inv rest ih =>
    show (vexecAll (vexec h inv) rest).current = execAll (exec h.current inv) rest
    rw [ih, vexec_current]

/-- In a ledger state, a call adds to the versions of `PRICE_id` exactly its
own record when it is a successful `SetPrice` with that id, and nothing
otherwise. -/
theorem price_versions_after_call (env : Env) (h : History) (hs : LedgerState h.current)
    (c : Call) (priceID : String) :
    vexec h (env, c) ("PRICE_" ++ priceID) =
      h ("PRICE_" ++ priceID) ++
        (match successfulPrice h.current (env, c) with
         | some record => if record.PriceID = priceID then [record.marshal] else []
         | none => []) := by
  obtain ⟨hsome, hnone⟩ := price_step env h.current hs c
  unfold vexec History.commit
  cases hsp : successfulPrice h.current (env, c) with
  | none =>
    rw [lastWrite_of_not_written _ _ (fun kv hkv => (hnone hsp kv hkv).2 priceID)]
    simp
  | some r =>
    obtain ⟨sup, hw⟩ := hsome r hsp
    simp only []
    rw [hw]
    by_cases hid : r.PriceID = priceID
    · subst hid
      simp [lastWrite, (supplyKey_ne_priceKey r.PriceID), (priceKey_ne_latestKey r.PriceID).symm]
    · have hne : "PRICE_" ++ r.PriceID ≠ "PRICE_" ++ priceID := fun e => hid (priceKey_inj e)
      simp [lastWrite, (supplyKey_ne_priceKey priceID), (priceKey_ne_latestKey priceID).symm,
        hne, hid]

theorem priceVersions_cons (priceID : String) (s : Store) (inv : Env × Call)
    (rest : List (Env × Call)) :
    priceVersions priceID s (inv :: rest) =
      (match successfulPrice s inv with
       | some record => if record.PriceID = priceID then [record] else []
       | none => []) ++ priceVersions priceID (exec s inv) rest := rfl

theorem price_versions_after_run (invs : List (Env × Call)) (h : History)
    (hs : Inv h.current) (priceID : String) :
    (vexecAll h invs ("PRICE_" ++ priceID)).filterMap PriceRecord.unmarshal =
      (h ("PRICE_" ++ priceID)).filterMap PriceRecord.unmarshal ++
        priceVersions priceID h.current invs := by
  induction invs generalizing h with
  | nil => simp [vexecAll, priceVersions]
  | cons inv rest ih =>
    obtain ⟨env, c⟩ := inv
    have hs' : Inv (vexec h (env, c)).current := by
      rw [vexec_current]
      exact exec_preserves_Inv hs (env, c)
    show (vexecAll (vexec h (env, c)) rest ("PRICE_" ++ priceID)).filterMap _ = _
    rw [ih (vexec h (env, c)) hs', price_versions_after_call env h hs.1 c priceID,
      vexec_current, priceVersions_cons]
    cases hsp : successfulPrice h.current (env, c) with
    | none => simp
    | some r =>
      by_cases hid : r.PriceID = priceID
      · simp [hid, List.filterMap_append]
      · simp [hid]

/-- C17: `GetPriceHistory(id)` never fails and returns, in the order of the
history iterator, exactly the versions under `PRICE_id` that decode, a version
that does not decode being left out; and on the versioned store, after any run
of calls from the empty ledger, it returns the records of the successful
`SetPrice` calls with that id, in call order, and none written under another
id. -/
theorem GetPriceHistory_returns_versions :
    (∀ (st : Stub) (priceID : String), (GetPriceHistory st priceID).1 =
      .ok ((st.history ("PRICE_" ++ priceID)).filterMap PriceRecord.unmarshal)) ∧
    (∀ (st : Stub) (priceID : String) (pre post : List Doc) (d : Doc),
      st.history ("PRICE_" ++ priceID) = pre ++ d :: post → PriceRecord.unmarshal d = none →
        (GetPriceHistory st priceID).1 =
          .ok (pre.filterMap PriceRecord.unmarshal ++ post.filterMap PriceRecord.unmarshal)) ∧
    (∀ (invs : List (Env × Call)) (priceID : String) (env : Env),
      (GetPriceHistory (historyStub env (vexecAll emptyHistory invs)) priceID).1 =
        .ok (priceVersions priceID emptyStore invs)) := by
  have h1 : ∀ (st : Stub) (priceID : String), (GetPriceHistory st priceID).1 =
      .ok ((st.history ("PRICE_" ++ priceID)).filterMap PriceRecord.unmarshal) := by
    intro st priceID
    simp [GetPriceHistory, Stub.GetHistoryForKey, collectPriceRecords_eq]
  refine ⟨h1, ?_, ?_⟩
  · intro st priceID pre post d hh hd
    rw [h1, hh]
    simp [List.filterMap_append, List.filterMap_cons, hd]
  · intro invs priceID env
    rw [h1]
    have h := price_versions_after_run invs emptyHistory Inv_empty priceID
    have hh : (historyStub env (vexecAll emptyHistory invs)).history =
        vexecAll emptyHistory invs := rfl
    rw [hh, h]
    simp [emptyHistory]
    rfl


/-! ## Further worked instances -/

/-- Instance of C11: minting 0 to alice on the empty ledger is rejected. -/
theorem nonpositive_rejected_witness :
    (0 : ℚ) ≤ 0 ∧
      Rejected emptyStore (Mint (newStub (exampleEnv "tx1") emptyStore) "alice" 0 "reward" "") :=
  ⟨le_refl 0,
    (nonpositive_rejected (exampleEnv "tx1") emptyStore).1 "alice" 0 "reward" "" (le_refl 0)⟩

/-- Instance of C13: minting 100 to alice on the empty ledger logs one MINT
entry and sets MintEvent. -/
theorem token_calls_log_once_witness :
    (Mint (newStub (exampleEnv "tx1") emptyStore) "alice" 100 "reward" "").1 = .ok () ∧
      ∃ createdAt,
        LoggedOnce (Mint (newStub (exampleEnv "tx1") emptyStore) "alice" 100 "reward" "").2
          "MintEvent" ⟨"tx1", "MINT", "", "alice", 100, "reward", "", createdAt⟩ :=
  ⟨by with_unfolding_all rfl,
    ((token_calls_log_once (exampleEnv "tx1") emptyStore).1 "alice" 100 "reward" "").1
      (by with_unfolding_all rfl)⟩

/-- Instance of C14: a later mint under transaction id `tx9` leaves the entry
logged under `TX_tx1` in place. -/
theorem transaction_log_write_once_witness :
    "tx1" ≠ "tx9" ∧ (afterMint ("TX_" ++ "tx1")).isSome = true ∧
      exec afterMint (exampleEnv "tx9", .mint "bob" 5 "reward" "") ("TX_" ++ "tx1") =
        afterMint ("TX_" ++ "tx1") :=
  ⟨by decide, by decide!,
    (transaction_log_write_once (exampleEnv "tx9") afterMint).1 (.mint "bob" 5 "reward" "")
      "tx1" (by decide)⟩

/-- Instance of C15: after two price updates `GetPrice()` returns the second. -/
theorem GetPrice_returns_last_SetPrice_witness :
    lastSuccessfulSetPrice emptyStore none twoPrices =
        some ⟨"p1", "KPX", 20, "KRW", 22, "2024-01-02T00:00:00Z", "2024-01-01T00:00:00Z"⟩ ∧
      (GetPrice (newStub (exampleEnv "tx3") (execAll emptyStore twoPrices))).1 =
        .ok ⟨"p1", "KPX", 20, "KRW", 22, "2024-01-02T00:00:00Z", "2024-01-01T00:00:00Z"⟩ :=
  ⟨by decide!,
    (GetPrice_returns_last_SetPrice twoPrices).1 _ (exampleEnv "tx3") (by decide!)⟩

/-- Instance of C17: after the two price updates under `p1` the history holds
both records in call order; and a version that does not decode is left out. -/
theorem GetPriceHistory_returns_versions_witness :
    (priceVersions "p1" emptyStore twoPrices =
        [⟨"p1", "KPX", 10, "KRW", 12, "2024-01-01T00:00:00Z", "2024-01-01T00:00:00Z"⟩,
         ⟨"p1", "KPX", 20, "KRW", 22, "2024-01-02T00:00:00Z", "2024-01-01T00:00:00Z"⟩] ∧
      (GetPriceHistory (historyStub (exampleEnv "tx3") (vexecAll emptyHistory twoPrices))
          "p1").1 = .ok (priceVersions "p1" emptyStore twoPrices)) ∧
    (GetPriceHistory
        { newStub (exampleEnv "tx3") emptyStore with history := fun _ => [Doc.undecodable] }
        "p1").1 = .ok ([].filterMap PriceRecord.unmarshal ++ [].filterMap PriceRecord.unmarshal) :=
  ⟨⟨by decide!,
      GetPriceHistory_returns_versions.2.2 twoPrices "p1" (exampleEnv "tx3")⟩,
    GetPriceHistory_returns_versions.2.1
      { newStub (exampleEnv "tx3") emptyStore with history := fun _ => [Doc.undecodable] }
      "p1" [] [] Doc.undecodable rfl rfl⟩

/-- Instance of C18: the history of a price id never written is empty. -/
theorem GetPriceHistory_never_fails_witness :
    (historyStub (exampleEnv "tx1") emptyHistory).history ("PRICE_" ++ "p1") = [] ∧
      (GetPriceHistory (historyStub (exampleEnv "tx1") emptyHistory) "p1").1 = .ok [] :=
  ⟨rfl, (GetPriceHistory_never_fails (historyStub (exampleEnv "tx1") emptyHistory) "p1").2 rfl⟩

/-- Instance of C19: the balance of alice on the empty ledger. -/
theorem queries_on_absent_data_witness :
    emptyStore ("BAL_" ++ "alice") = none ∧
      (BalanceOf (newStub (exampleEnv "tx1") emptyStore) "alice").1 =
        .ok ⟨"alice", 0, 0, "2024-01-01T00:00:00Z"⟩ :=
  ⟨rfl, (queries_on_absent_data (exampleEnv "tx1") emptyStore).1 "alice" rfl⟩

/-- Instance of C20: `InitLedger` on the ledger where alice holds 100 leaves
the balance key of alice as it was. -/
theorem InitLedger_overwrites_supply_witness :
    "BAL_alice" ≠ "EPC_SUPPLY" ∧
      (InitLedger (newStub (exampleEnv "tx2") afterMint)).2.ledger "BAL_alice" =
        afterMint "BAL_alice" :=
  ⟨by decide,
    (InitLedger_overwrites_supply (exampleEnv "tx2") afterMint).2.2 "BAL_alice" (by decide)⟩


/-! ## Key categories and serialization -/

theorem unmarshal_marshal_transaction (tx : TokenTransaction) :
    TokenTransaction.unmarshal tx.marshal = some tx := by
  simp [TokenTransaction.unmarshal, TokenTransaction.marshal, TokenTransaction.setField,
    setString, setNumber]

/-- The key builders are the keys the operations use: `saveBalance` writes
under `balanceKey`. -/
theorem saveBalance_key (st : Stub) (b : TokenBalance) :
    (saveBalance st b).writes = st.writes ++ [(balanceKey b.UserID, b.marshal)] := rfl

/-- The key builders are the keys the operations use: `InitLedger` writes
under `supplyKey`. -/
theorem InitLedger_key (st : Stub) :
    (InitLedger st).2.writes.map Prod.fst = st.writes.map Prod.fst ++ [supplyKey] := by
  simp [InitLedger, Stub.PutState, Stub.tick, supplyKey]

/-- The key builders are the keys the operations use: a successful `Lock`
writes under `balanceKey` and `txKey`, in a ledger state. -/
theorem Lock_keys (env : Env) (s : Store) (hs : LedgerState s) (u : String) (amount : ℚ)
    (refID : String) (hok : (Lock (newStub env s) u amount refID).1 = .ok ()) :
    (Lock (newStub env s) u amount refID).2.writes.map Prod.fst =
      [balanceKey u, txKey env.txID] := by
  have hpos : 0 < amount := by
    by_contra hle
    rw [Lock_nonpos _ _ (not_lt.mp hle)] at hok
    cases hok
  obtain ⟨b, hb, hu, hget | hget⟩ := getOrCreateBalance_cases s hs u <;>
  · subst hu
    by_cases hlt : b.Balance - b.LockedBalance < amount
    · simp [Lock, not_le.mpr hpos, hget, hlt] at hok
    · simp [Lock, not_le.mpr hpos, hget, hlt, saveBalance, Stub.PutState, Stub.SetEvent,
        Stub.tick, newStub, balanceKey, txKey]

/-- The key builders are the keys the operations use: a successful `SetPrice`
writes under `priceKey`, `latestPriceKey` and `supplyKey`. -/
theorem SetPrice_keys (env : Env) (s : Store) (priceID source : String) (price : ℚ)
    (currency : String) (basketPrice : ℚ) (timestamp : String)
    (hok : (SetPrice (newStub env s) priceID source price currency basketPrice timestamp).1
      = .ok ()) :
    (SetPrice (newStub env s) priceID source price currency basketPrice
        timestamp).2.writes.map Prod.fst = [priceKey priceID, latestPriceKey, supplyKey] := by
  obtain ⟨-, -, h⟩ := SetPrice_outcome env s priceID source price currency basketPrice timestamp
  rcases h with ⟨⟨e, he, -⟩, -⟩ | ⟨-, -, -, sup, hw⟩
  · rw [he] at hok
    cases hok
  · rw [hw]
    rfl

/-- C27: the key categories of the token ledger never collide.  For all
account ids, price ids and transaction ids (any strings, the empty one and
ones with underscores included) the balance, price, log, supply and
latest-price keys are pairwise distinct, and two balance keys (price keys, log
keys) are equal only for equal ids. -/
theorem key_categories_disjoint (a a' p p' t t' : String) :
    balanceKey a ≠ priceKey p ∧ balanceKey a ≠ txKey t ∧ balanceKey a ≠ supplyKey ∧
    balanceKey a ≠ latestPriceKey ∧ priceKey p ≠ txKey t ∧ priceKey p ≠ supplyKey ∧
    priceKey p ≠ latestPriceKey ∧ txKey t ≠ supplyKey ∧ txKey t ≠ latestPriceKey ∧
    supplyKey ≠ latestPriceKey ∧
    (balanceKey a = balanceKey a' ↔ a = a') ∧ (priceKey p = priceKey p' ↔ p = p') ∧
    (txKey t = txKey t' ↔ t = t') :=
  ⟨balKey_ne_priceKey a p, balKey_ne_txKey a t, balKey_ne_supplyKey a, balKey_ne_latestKey a,
    priceKey_ne_txKey p t, fun e => supplyKey_ne_priceKey p e.symm, priceKey_ne_latestKey p,
    fun e => supplyKey_ne_txKey t e.symm, fun e => latestKey_ne_txKey t e.symm,
    supplyKey_ne_latestKey,
    ⟨balKey_inj, fun e => e ▸ rfl⟩, ⟨priceKey_inj, fun e => e ▸ rfl⟩,
    ⟨txKey_inj, fun e => e ▸ rfl⟩⟩

/-- C24: serialization round-trips.  Decoding the document that encoding a
TokenBalance, TokenSupply, PriceRecord or TokenTransaction produces yields the
original record, equal in every field; and on a ledger where `saveBalance` has
written a balance, `getOrCreateBalance` returns that balance unchanged (and
reads no clock). -/
theorem serialization_round_trips :
    (∀ b : TokenBalance, TokenBalance.unmarshal b.marshal = some b) ∧
    (∀ sup : TokenSupply, TokenSupply.unmarshal sup.marshal = some sup) ∧
    (∀ r : PriceRecord, PriceRecord.unmarshal r.marshal = some r) ∧
    (∀ tx : TokenTransaction, TokenTransaction.unmarshal tx.marshal = some tx) ∧
    (∀ (env : Env) (st : Stub) (b : TokenBalance),
      getOrCreateBalance (newStub env (saveBalance st b).ledger) b.UserID =
        (.ok b, newStub env (saveBalance st b).ledger)) := by
  refine ⟨unmarshal_marshal_balance, unmarshal_marshal_supply, unmarshal_marshal_price,
    unmarshal_marshal_transaction, ?_⟩
  intro env st b
  apply getOrCreateBalance_some (d := b.marshal)
  · rw [state_newStub, ledger_saveBalance, Store.put_same]
  · exact unmarshal_marshal_balance b

/-! ## Frame of each operation in a ledger state -/

theorem put3_of_ne (s : Store) {k k1 k2 k3 : String} (v1 v2 v3 : Doc) (h1 : k ≠ k1)
    (h2 : k ≠ k2) (h3 : k ≠ k3) : (((s.put k1 v1).put k2 v2).put k3 v3) k = s k := by
  rw [Store.put_of_ne _ _ h3, Store.put_of_ne _ _ h2, Store.put_of_ne _ _ h1]

theorem Mint_frame (env : Env) {s : Store} (hs : LedgerState s) (u : String) (amount : ℚ)
    (reason refID : String) {k : String} (h1 : k ≠ "BAL_" ++ u) (h2 : k ≠ "EPC_SUPPLY")
    (h3 : k ≠ "TX_" ++ env.txID) :
    (Mint (newStub env s) u amount reason refID).2.ledger k = s k := by
  by_cases hpos : amount ≤ 0
  · rw [Mint_nonpos _ _ hpos]
    rfl
  · obtain ⟨b, sup, -, -, t1, t2, tx, -, hled⟩ :=
      Mint_effect env s hs u amount (not_le.mp hpos) reason refID
    rw [hled]
    exact put3_of_ne s _ _ _ h1 h2 h3

theorem Burn_frame (env : Env) {s : Store} (hs : LedgerState s) (u : String) (amount : ℚ)
    (reason refID : String) {k : String} (h1 : k ≠ "BAL_" ++ u) (h2 : k ≠ "EPC_SUPPLY")
    (h3 : k ≠ "TX_" ++ env.txID) :
    (Burn (newStub env s) u amount reason refID).2.ledger k = s k := by
  by_cases hpos : amount ≤ 0
  · rw [Burn_nonpos _ _ hpos]
    rfl
  · obtain ⟨b, sup, -, -, hfail, hsucc⟩ :=
      Burn_effect env s hs u amount (not_le.mp hpos) reason refID
    by_cases hlt : b.Balance < amount
    · rw [(hfail hlt).2.2]
    · obtain ⟨t1, t2, tx, -, hled⟩ := hsucc hlt
      rw [hled]
      exact put3_of_ne s _ _ _ h1 h2 h3

theorem Transfer_frame (env : Env) {s : Store} (hs : LedgerState s) (a b : String)
    (amount : ℚ) (reason refID : String) {k : String} (h1 : k ≠ "BAL_" ++ a)
    (h2 : k ≠ "BAL_" ++ b) (h3 : k ≠ "TX_" ++ env.txID) :
    (Transfer (newStub env s) a b amount reason refID).2.ledger k = s k := by
  by_cases hpos : amount ≤ 0
  · rw [Transfer_nonpos _ _ _ hpos]
    rfl
  · by_cases hab : a = b
    · subst hab
      rw [Transfer_self _ _ (not_le.mp hpos)]
      rfl
    · obtain ⟨ba, bb, -, -, hfail, hsucc⟩ :=
        Transfer_effect env s hs a b amount (not_le.mp hpos) hab reason refID
      by_cases hlt : ba.Balance - ba.LockedBalance < amount
      · rw [(hfail hlt).2.2]
      · obtain ⟨t, tx, -, hled⟩ := hsucc hlt
        rw [hled]
        exact put3_of_ne s _ _ _ h1 h2 h3

theorem Lock_frame (env : Env) {s : Store} (hs : LedgerState s) (u : String) (amount : ℚ)
    (refID : String) {k : String} (h1 : k ≠ "BAL_" ++ u) (h3 : k ≠ "TX_" ++ env.txID) :
    (Lock (newStub env s) u amount refID).2.ledger k = s k := by
  by_cases hpos : amount ≤ 0
  · rw [Lock_nonpos _ _ hpos]
    rfl
  · obtain ⟨b, -, hfail, hsucc⟩ := Lock_effect env s hs u amount (not_le.mp hpos) refID
    by_cases hlt : b.Balance - b.LockedBalance < amount
    · rw [(hfail hlt).2.2]
    · obtain ⟨t, tx, -, hled⟩ := hsucc hlt
      rw [hled, Store.put_of_ne _ _ h3, Store.put_of_ne _ _ h1]

theorem Unlock_frame (env : Env) {s : Store} (hs : LedgerState s) (u : String) (amount : ℚ)
    (refID : String) {k : String} (h1 : k ≠ "BAL_" ++ u) (h3 : k ≠ "TX_" ++ env.txID) :
    (Unlock (newStub env s) u amount refID).2.ledger k = s k := by
  by_cases hpos : amount ≤ 0
  · rw [Unlock_nonpos _ _ hpos]
    rfl
  · obtain ⟨b, -, hfail, hsucc⟩ := Unlock_effect env s hs u amount (not_le.mp hpos) refID
    by_cases hlt : b.LockedBalance < amount
    · rw [(hfail hlt).2.2]
    · obtain ⟨t, tx, -, hled⟩ := hsucc hlt
      rw [hled, Store.put_of_ne _ _ h3, Store.put_of_ne _ _ h1]

/-- In a ledger state `SetPrice` keeps the three totals of the supply record,
and sets `currentPrice` to `basketPrice` when both prices are positive. -/
theorem SetPrice_supply (env : Env) {s : Store} (hs : LedgerState s) (priceID source : String)
    (price : ℚ) (currency : String) (basketPrice : ℚ) (timestamp : String) :
    ∃ sup sup', supplyOf s = some sup ∧
      supplyOf (SetPrice (newStub env s) priceID source price currency basketPrice
        timestamp).2.ledger = some sup' ∧
      sup'.TotalSupply = sup.TotalSupply ∧ sup'.TotalMinted = sup.TotalMinted ∧
      sup'.TotalBurned = sup.TotalBurned ∧
      (0 < price ∧ 0 < basketPrice →
        (SetPrice (newStub env s) priceID source price currency basketPrice timestamp).1 =
          .ok () ∧ sup'.CurrentPrice = basketPrice) := by
  by_cases hp : price ≤ 0 ∨ basketPrice ≤ 0
  · obtain ⟨sup, hsup, -⟩ := getSupply_cases s hs
    refine ⟨sup, sup, hsup, ?_, rfl, rfl, rfl, ?_⟩
    · rw [SetPrice_nonpos _ _ _ _ _ _ _ hp]
      exact hsup
    · rintro ⟨h1, h2⟩
      rcases hp with h | h
      · exact absurd h1 (not_lt.mpr h)
      · exact absurd h2 (not_lt.mpr h)
  · have hp1 : 0 < price := not_le.mp fun e => hp (Or.inl e)
    have hp2 : 0 < basketPrice := not_le.mp fun e => hp (Or.inr e)
    obtain ⟨sup, hsup, doc, t, hok, hled⟩ :=
      SetPrice_effect env s hs priceID source price currency basketPrice timestamp hp1 hp2
    refine ⟨sup, ⟨sup.TotalSupply, sup.TotalMinted, sup.TotalBurned, basketPrice, t⟩, hsup, ?_,
      rfl, rfl, rfl, fun _ => ⟨hok, rfl⟩⟩
    rw [hled]
    exact supplyOf_put_supply _ _

/-- C22: in every ledger state each mutating operation changes only the
records it names.  Mint, Burn, Lock and Unlock on account `u` leave the bytes
stored for every other account as they were; Transfer from `a` to `b` leaves
those of every account other than `a` and `b`; Transfer, Lock and Unlock leave
the Supply record as it was; SetPrice leaves every balance record and the
Supply fields totalSupply, totalMinted and totalBurned as they were, and with
both prices positive it succeeds and sets currentPrice to `basketPrice`; Mint,
Burn, Transfer, Lock and Unlock leave every price record and the latest price
as they were.  The calls may succeed or fail. -/
theorem operations_change_named_records (env : Env) (s : Store) (hs : LedgerState s) :
    (∀ (u v : String) (amount : ℚ) (reason refID : String), v ≠ u →
      exec s (env, .mint u amount reason refID) ("BAL_" ++ v) = s ("BAL_" ++ v) ∧
      exec s (env, .burn u amount reason refID) ("BAL_" ++ v) = s ("BAL_" ++ v) ∧
      exec s (env, .lock u amount refID) ("BAL_" ++ v) = s ("BAL_" ++ v) ∧
      exec s (env, .unlock u amount refID) ("BAL_" ++ v) = s ("BAL_" ++ v)) ∧
    (∀ (a b v : String) (amount : ℚ) (reason refID : String), v ≠ a → v ≠ b →
      exec s (env, .transfer a b amount reason refID) ("BAL_" ++ v) = s ("BAL_" ++ v)) ∧
    (∀ (a b : String) (amount : ℚ) (reason refID : String),
      exec s (env, .transfer a b amount reason refID) "EPC_SUPPLY" = s "EPC_SUPPLY" ∧
      exec s (env, .lock a amount refID) "EPC_SUPPLY" = s "EPC_SUPPLY" ∧
      exec s (env, .unlock a amount refID) "EPC_SUPPLY" = s "EPC_SUPPLY") ∧
    (∀ (priceID source : String) (price : ℚ) (currency : String) (basketPrice : ℚ)
        (timestamp : String),
      (∀ v, exec s (env, .setPrice priceID source price currency basketPrice timestamp)
        ("BAL_" ++ v) = s ("BAL_" ++ v)) ∧
      ∃ sup sup', supplyOf s = some sup ∧
        supplyOf (exec s (env, .setPrice priceID source price currency basketPrice timestamp))
          = some sup' ∧
        sup'.TotalSupply = sup.TotalSupply ∧ sup'.TotalMinted = sup.TotalMinted ∧
        sup'.TotalBurned = sup.TotalBurned ∧
        (0 < price ∧ 0 < basketPrice →
          (SetPrice (newStub env s) priceID source price currency basketPrice timestamp).1 =
            .ok () ∧ sup'.CurrentPrice = basketPrice)) ∧
    (∀ (a b p : String) (amount : ℚ) (reason refID : String) (c : Call),
      c ∈ [Call.mint a amount reason refID, .burn a amount reason refID,
        .transfer a b amount reason refID, .lock a amount refID, .unlock a amount refID] →
      exec s (env, c) ("PRICE_" ++ p) = s ("PRICE_" ++ p) ∧
      exec s (env, c) "EPC_LATEST_PRICE" = s "EPC_LATEST_PRICE") := by
  refine ⟨?_, ?_, ?_, ?_, ?_⟩
  · intro u v amount reason refID hv
    have h1 : "BAL_" ++ v ≠ "BAL_" ++ u := fun e => hv (balKey_inj e)
    exact ⟨Mint_frame env hs u amount reason refID h1 (balKey_ne_supplyKey v)
        (balKey_ne_txKey v _),
      Burn_frame env hs u amount reason refID h1 (balKey_ne_supplyKey v) (balKey_ne_txKey v _),
      Lock_frame env hs u amount refID h1 (balKey_ne_txKey v _),
      Unlock_frame env hs u amount refID h1 (balKey_ne_txKey v _)⟩
  · intro a b v amount reason refID ha hb
    exact Transfer_frame env hs a b amount reason refID (fun e => ha (balKey_inj e))
      (fun e => hb (balKey_inj e)) (balKey_ne_txKey v _)
  · intro a b amount reason refID
    exact ⟨Transfer_frame env hs a b amount reason refID
        (fun e => balKey_ne_supplyKey a e.symm) (fun e => balKey_ne_supplyKey b e.symm)
        (supplyKey_ne_txKey _),
      Lock_frame env hs a amount refID (fun e => balKey_ne_supplyKey a e.symm)
        (supplyKey_ne_txKey _),
      Unlock_frame env hs a amount refID (fun e => balKey_ne_supplyKey a e.symm)
        (supplyKey_ne_txKey _)⟩
  · intro priceID source price currency basketPrice timestamp
    refine ⟨fun v => exec_frame env s _ _ ?_,
      SetPrice_supply env hs priceID source price currency basketPrice timestamp⟩
    rintro (h | h | h)
    · exact balKey_ne_priceKey v _ h
    · exact balKey_ne_latestKey v h
    · exact balKey_ne_supplyKey v h
  · intro a b p amount reason refID c hc
    have hprice : ¬ (IsBookKey ("PRICE_" ++ p) ∨ "PRICE_" ++ p = "TX_" ++ env.txID) := by
      rintro (h | h)
      · exact not_isBookKey_price p h
      · exact priceKey_ne_txKey p _ h
    have hlatest :
        ¬ (IsBookKey "EPC_LATEST_PRICE" ∨ "EPC_LATEST_PRICE" = "TX_" ++ env.txID) := by
      rintro (h | h)
      · exact not_isBookKey_latest h
      · exact latestKey_ne_txKey _ h
    simp only [List.mem_cons, List.mem_singleton, List.not_mem_nil, or_false] at hc
    rcases hc with rfl | rfl | rfl | rfl | rfl <;>
    exact ⟨exec_frame env s _ _ hprice, exec_frame env s _ _ hlatest⟩

/-- Instance of C22: minting to alice leaves the record of bob alone. -/
theorem operations_change_named_records_witness :
    LedgerState afterLock ∧ "bob" ≠ "alice" ∧
      exec afterLock (exampleEnv "tx3", .mint "alice" 5 "reward" "") ("BAL_" ++ "bob") =
        afterLock ("BAL_" ++ "bob") :=
  ⟨LedgerState_afterLock, by decide,
    ((operations_change_named_records (exampleEnv "tx3") afterLock LedgerState_afterLock).1
      "alice" "bob" 5 "reward" "" (by decide)).1⟩

/-! ## The scenario of the specification -/

theorem Mint_known (env : Env) {s : Store} (hs : LedgerState s) (u : String) (amount : ℚ)
    (hpos : 0 < amount) (reason refID : String) {b : TokenBalance} {sup : TokenSupply}
    (hb : balanceRecord s u = some b) (hsup : supplyOf s = some sup) :
    (Mint (newStub env s) u amount reason refID).1 = .ok () ∧
    ∃ t1 t2,
      balanceRecord (Mint (newStub env s) u amount reason refID).2.ledger u =
        some ⟨u, b.Balance + amount, b.LockedBalance, t1⟩ ∧
      supplyOf (Mint (newStub env s) u amount reason refID).2.ledger =
        some ⟨sup.TotalSupply + amount, sup.TotalMinted + amount, sup.TotalBurned,
          sup.CurrentPrice, t2⟩ := by
  obtain ⟨b0, sup0, hb0, hsup0, t1, t2, tx, hok, hled⟩ :=
    Mint_effect env s hs u amount hpos reason refID
  obtain rfl : b0 = b := Option.some.inj (hb0.symm.trans hb)
  obtain rfl : sup0 = sup := Option.some.inj (hsup0.symm.trans hsup)
  refine ⟨hok, t1, t2, ?_, ?_⟩
  · rw [hled, balanceRecord_put_other _ _ _ _ (fun w => balKey_ne_txKey w _),
      balanceRecord_put_other _ _ _ _ balKey_ne_supplyKey]
    exact (balanceRecord_put_bal s ⟨u, _, _, _⟩ u).trans (if_pos rfl)
  · rw [hled, supplyOf_put_other _ _ _ (supplyKey_ne_txKey _)]
    exact supplyOf_put_supply _ _

theorem Lock_known (env : Env) {s : Store} (hs : LedgerState s) (u : String) (amount : ℚ)
    (hpos : 0 < amount) (refID : String) {b : TokenBalance}
    (hb : balanceRecord s u = some b) (hge : amount ≤ b.Balance - b.LockedBalance) :
    (Lock (newStub env s) u amount refID).1 = .ok () ∧
    ∃ t, balanceRecord (Lock (newStub env s) u amount refID).2.ledger u =
        some ⟨u, b.Balance, b.LockedBalance + amount, t⟩ := by
  obtain ⟨b0, hb0, -, hsucc⟩ := Lock_effect env s hs u amount hpos refID
  obtain rfl : b0 = b := Option.some.inj (hb0.symm.trans hb)
  obtain ⟨t, tx, hok, hled⟩ := hsucc (not_lt.mpr hge)
  refine ⟨hok, t, ?_⟩
  rw [hled, balanceRecord_put_other _ _ _ _ (fun w => balKey_ne_txKey w _)]
  exact (balanceRecord_put_bal s ⟨u, _, _, _⟩ u).trans (if_pos rfl)

theorem Unlock_known (env : Env) {s : Store} (hs : LedgerState s) (u : String) (amount : ℚ)
    (hpos : 0 < amount) (refID : String) {b : TokenBalance}
    (hb : balanceRecord s u = some b) (hge : amount ≤ b.LockedBalance) :
    (Unlock (newStub env s) u amount refID).1 = .ok () ∧
    ∃ t, balanceRecord (Unlock (newStub env s) u amount refID).2.ledger u =
        some ⟨u, b.Balance, b.LockedBalance - amount, t⟩ := by
  obtain ⟨b0, hb0, -, hsucc⟩ := Unlock_effect env s hs u amount hpos refID
  obtain rfl : b0 = b := Option.some.inj (hb0.symm.trans hb)
  obtain ⟨t, tx, hok, hled⟩ := hsucc (not_lt.mpr hge)
  refine ⟨hok, t, ?_⟩
  rw [hled, balanceRecord_put_other _ _ _ _ (fun w => balKey_ne_txKey w _)]
  exact (balanceRecord_put_bal s ⟨u, _, _, _⟩ u).trans (if_pos rfl)

theorem Transfer_blocked (env : Env) {s : Store} (hs : LedgerState s) (a b : String)
    (amount : ℚ) (hpos : 0 < amount) (hab : a ≠ b) (reason refID : String) {ba : TokenBalance}
    (hba : balanceRecord s a = some ba) (hlt : ba.Balance - ba.LockedBalance < amount) :
    (Transfer (newStub env s) a b amount reason refID).1 =
      .error (.insufficientAvailable (ba.Balance - ba.LockedBalance) amount) ∧
    (Transfer (newStub env s) a b amount reason refID).2.ledger = s := by
  obtain ⟨ba0, bb0, hba0, -, hfail, -⟩ :=
    Transfer_effect env s hs a b amount hpos hab reason refID
  obtain rfl : ba0 = ba := Option.some.inj (hba0.symm.trans hba)
  exact ⟨(hfail hlt).1, (hfail hlt).2.2⟩

theorem Transfer_known (env : Env) {s : Store} (hs : LedgerState s) (a b : String)
    (amount : ℚ) (hpos : 0 < amount) (hab : a ≠ b) (reason refID : String)
    {ba bb : TokenBalance} (hba : balanceRecord s a = some ba)
    (hbb : balanceRecord s b = some bb) (hge : amount ≤ ba.Balance - ba.LockedBalance) :
    (Transfer (newStub env s) a b amount reason refID).1 = .ok () ∧
    ∃ t,
      balanceRecord (Transfer (newStub env s) a b amount reason refID).2.ledger a =
        some ⟨a, ba.Balance - amount, ba.LockedBalance, t⟩ ∧
      balanceRecord (Transfer (newStub env s) a b amount reason refID).2.ledger b =
        some ⟨b, bb.Balance + amount, bb.LockedBalance, t⟩ := by
  obtain ⟨ba0, bb0, hba0, hbb0, -, hsucc⟩ :=
    Transfer_effect env s hs a b amount hpos hab reason refID
  obtain rfl : ba0 = ba := Option.some.inj (hba0.symm.trans hba)
  obtain rfl : bb0 = bb := Option.some.inj (hbb0.symm.trans hbb)
  obtain ⟨t, tx, hok, hled⟩ := hsucc (not_lt.mpr hge)
  refine ⟨hok, t, ?_, ?_⟩
  · rw [hled, balanceRecord_put_other _ _ _ _ (fun w => balKey_ne_txKey w _)]
    rw [balanceRecord_put_bal _ ⟨b, _, _, _⟩ a, if_neg hab]
    exact (balanceRecord_put_bal s ⟨a, _, _, _⟩ a).trans (if_pos rfl)
  · rw [hled, balanceRecord_put_other _ _ _ _ (fun w => balKey_ne_txKey w _)]
    exact (balanceRecord_put_bal _ ⟨b, _, _, _⟩ b).trans (if_pos rfl)

theorem balanceRecord_congr {s s' : Store} {u : String}
    (h : s' ("BAL_" ++ u) = s ("BAL_" ++ u)) : balanceRecord s' u = balanceRecord s u := by
  rw [balanceRecord_eq, balanceRecord_eq, h]

theorem scenarioState_succ (env : Nat → Env) (reason refID : Nat → String) (n : Nat)
    (inv : Env × Call) (h : (scenarioCalls env reason refID).get? n = some inv) :
    scenarioState env reason refID (n + 1) = exec (scenarioState env reason refID n) inv := by
  unfold scenarioState execAll
  rw [List.take_succ, List.foldl_append, ← List.get?_eq_getElem?, h]
  rfl

/-- C23: the scenario of the specification holds on the empty ledger, whatever
the transaction ids, the clock and the arguments the scenario leaves open.
`Mint("alice", 100, "reward", "")` succeeds and leaves alice with balance 100,
locked 0 and the supply at total 100, minted 100, burned 0; then
`Lock("alice", 70, "order1")` succeeds and leaves locked 70; then
`Transfer("alice", "bob", 50, ...)` fails with an insufficient-funds error and
leaves both balances as they were; then `Unlock("alice", 70, "order1")`
succeeds and leaves locked 0 with balance 100; and then
`Transfer("alice", "bob", 50, ...)` succeeds, leaving alice and bob with
balance 50 each. -/
theorem spec_scenario (env : Nat → Env) (reason refID : Nat → String) :
    scenarioResult env reason refID 0 = some (.ok ()) ∧
    (∃ b, balanceRecord (scenarioState env reason refID 1) "alice" = some b ∧
      b.Balance = 100 ∧ b.LockedBalance = 0) ∧
    (∃ sup, supplyOf (scenarioState env reason refID 1) = some sup ∧
      sup.TotalSupply = 100 ∧ sup.TotalMinted = 100 ∧ sup.TotalBurned = 0) ∧
    scenarioResult env reason refID 1 = some (.ok ()) ∧
    (∃ b, balanceRecord (scenarioState env reason refID 2) "alice" = some b ∧
      b.LockedBalance = 70) ∧
    (∃ e, scenarioResult env reason refID 2 = some (.error e) ∧
      e.isInsufficientFunds = true) ∧
    balanceRecord (scenarioState env reason refID 3) "alice" =
      balanceRecord (scenarioState env reason refID 2) "alice" ∧
    balanceRecord (scenarioState env reason refID 3) "bob" =
      balanceRecord (scenarioState env reason refID 2) "bob" ∧
    scenarioResult env reason refID 3 = some (.ok ()) ∧
    (∃ b, balanceRecord (scenarioState env reason refID 4) "alice" = some b ∧
      b.LockedBalance = 0 ∧ b.Balance = 100) ∧
    scenarioResult env reason refID 4 = some (.ok ()) ∧
    (∃ ba bb, balanceRecord (scenarioState env reason refID 5) "alice" = some ba ∧
      balanceRecord (scenarioState env reason refID 5) "bob" = some bb ∧
      ba.Balance = 50 ∧ bb.Balance = 50) := by
  have hInv : ∀ n, Inv (scenarioState env reason refID n) :=
    fun n => execAll_preserves_Inv _ Inv_empty
  have e1 := scenarioState_succ env reason refID 0 _ rfl
  have e2 := scenarioState_succ env reason refID 1 _ rfl
  have e3 := scenarioState_succ env reason refID 2 _ rfl
  have e4 := scenarioState_succ env reason refID 3 _ rfl
  have e5 := scenarioState_succ env reason refID 4 _ rfl
  have h0 := hInv 0
  have h1 := hInv 1
  have h2 := hInv 2
  have h3 := hInv 3
  have h4 := hInv 4
  have r0 : scenarioResult env reason refID 0 = some (Mint (newStub (env 0)
      (scenarioState env reason refID 0)) "alice" 100 "reward" "").1 := rfl
  have r1 : scenarioResult env reason refID 1 = some (Lock (newStub (env 1)
      (scenarioState env reason refID 1)) "alice" 70 "order1").1 := rfl
  have r2 : scenarioResult env reason refID 2 = some (Transfer (newStub (env 2)
      (scenarioState env reason refID 2)) "alice" "bob" 50 (reason 2) (refID 2)).1 := rfl
  have r3 : scenarioResult env reason refID 3 = some (Unlock (newStub (env 3)
      (scenarioState env reason refID 3)) "alice" 70 "order1").1 := rfl
  have r4 : scenarioResult env reason refID 4 = some (Transfer (newStub (env 4)
      (scenarioState env reason refID 4)) "alice" "bob" 50 (reason 4) (refID 4)).1 := rfl
  rw [r0, r1, r2, r3, r4]
  generalize scenarioState env reason refID 1 = s1 at *
  generalize scenarioState env reason refID 2 = s2 at *
  generalize scenarioState env reason refID 3 = s3 at *
  generalize scenarioState env reason refID 4 = s4 at *
  generalize scenarioState env reason refID 5 = s5 at *
  have hs0 : scenarioState env reason refID 0 = emptyStore := rfl
  rw [hs0] at e1 h0 ⊢
  have hab : "alice" ≠ "bob" := by decide
  have hba : "bob" ≠ "alice" := by decide
  -- the first call
  have ha0 : balanceRecord emptyStore "alice" = some ⟨"alice", 0, 0, ""⟩ := by
    rw [balanceRecord_eq]; rfl
  have hsup0 : supplyOf emptyStore = some ⟨0, 0, 0, 0, ""⟩ := by
    rw [supplyOf_eq]; rfl
  obtain ⟨ok1, t1, t1', ha1, hsup1⟩ :=
    Mint_known (env 0) h0.1 "alice" 100 (by norm_num) "reward" "" ha0 hsup0
  have hb1 : s1 ("BAL_" ++ "bob") = none := by
    rw [e1]
    exact Mint_frame (env 0) h0.1 "alice" 100 "reward" ""
      (fun e => hba (balKey_inj e)) (balKey_ne_supplyKey _) (balKey_ne_txKey _ _)
  have e1' : (Mint (newStub (env 0) emptyStore) "alice" 100 "reward" "").2.ledger = s1 :=
    e1.symm
  rw [e1'] at ha1 hsup1
  -- the second call
  obtain ⟨ok2, t2, ha2⟩ := Lock_known (env 1) h1.1 "alice" 70 (by norm_num) "order1" ha1
    (by norm_num)
  have hb2 : s2 ("BAL_" ++ "bob") = none := by
    rw [e2]
    exact (Lock_frame (env 1) h1.1 "alice" 70 "order1"
      (fun e => hba (balKey_inj e)) (balKey_ne_txKey _ _)).trans hb1
  have e2' : (Lock (newStub (env 1) s1) "alice" 70 "order1").2.ledger = s2 := e2.symm
  rw [e2'] at ha2
  -- the third call
  obtain ⟨err3, led3⟩ := Transfer_blocked (env 2) h2.1 "alice" "bob" 50 (by norm_num) hab
    (reason 2) (refID 2) ha2 (by norm_num)
  have e3' : s3 = s2 := e3.trans led3
  subst e3'
  -- the fourth call
  obtain ⟨ok4, t4, ha4⟩ := Unlock_known (env 3) h3.1 "alice" 70 (by norm_num) "order1" ha2
    (by norm_num)
  have hb4 : s4 ("BAL_" ++ "bob") = none := by
    rw [e4]
    exact (Unlock_frame (env 3) h3.1 "alice" 70 "order1"
      (fun e => hba (balKey_inj e)) (balKey_ne_txKey _ _)).trans hb2
  have e4' : (Unlock (newStub (env 3) s3) "alice" 70 "order1").2.ledger = s4 := e4.symm
  rw [e4'] at ha4
  -- the fifth call
  have hbob4 : balanceRecord s4 "bob" = some ⟨"bob", 0, 0, ""⟩ := by
    rw [balanceRecord_eq, hb4]
  obtain ⟨ok5, t5, ha5, hb5⟩ := Transfer_known (env 4) h4.1 "alice" "bob" 50 (by norm_num) hab
    (reason 4) (refID 4) ha4 hbob4 (by norm_num)
  have e5' : (Transfer (newStub (env 4) s4) "alice" "bob" 50 (reason 4) (refID 4)).2.ledger
      = s5 := e5.symm
  rw [e5'] at ha5 hb5
  refine ⟨by rw [ok1], ⟨_, ha1, by norm_num, rfl⟩, ⟨_, hsup1, by norm_num, by norm_num, rfl⟩,
    by rw [ok2], ⟨_, ha2, by norm_num⟩, ⟨.insufficientAvailable _ _, by rw [err3], rfl⟩, rfl, rfl, by rw [ok4],
    ⟨_, ha4, by norm_num, by norm_num⟩, by rw [ok5], _, _, ha5, hb5, by norm_num, by norm_num⟩

/-! ## Balances summed over the accounts -/

theorem balanceAmount_of_record {s : Store} {u : String} {b : TokenBalance}
    (h : balanceRecord s u = some b) : balanceAmount s u = b.Balance := by
  simp [balanceAmount, h]

theorem balanceAmount_of_none {s : Store} {u : String} (h : s ("BAL_" ++ u) = none) :
    balanceAmount s u = 0 := by
  have : balanceRecord s u = some ⟨u, 0, 0, ""⟩ := by rw [balanceRecord_eq, h]
  rw [balanceAmount_of_record this]

theorem balanceAmount_put_bal (s : Store) (u : String) (x y : ℚ) (t : String) (v : String) :
    balanceAmount (s.put ("BAL_" ++ u) (TokenBalance.marshal ⟨u, x, y, t⟩)) v =
      if v = u then x else balanceAmount s v := by
  unfold balanceAmount
  rw [balanceRecord_put_bal s ⟨u, x, y, t⟩ v]
  by_cases h : v = u <;> simp [h]

theorem balanceAmount_put_other (s : Store) (k : String) (d : Doc) (u : String)
    (hk : ∀ w, "BAL_" ++ w ≠ k) : balanceAmount (s.put k d) u = balanceAmount s u := by
  unfold balanceAmount
  rw [balanceRecord_put_other _ _ _ _ hk]

theorem SumIs_empty : SumIs emptyStore 0 :=
  ⟨∅, fun _ h => absurd rfl h, rfl⟩

theorem SumIs_put_other {s : Store} {q : ℚ} (h : SumIs s q) (k : String) (d : Doc)
    (hk : ∀ w, "BAL_" ++ w ≠ k) : SumIs (s.put k d) q := by
  obtain ⟨A, hcov, hsum⟩ := h
  refine ⟨A, ?_, ?_⟩
  · intro u hu
    rw [Store.put_of_ne _ _ (hk u)] at hu
    exact hcov u hu
  · rw [← hsum]
    exact Finset.sum_congr rfl (fun u _ => balanceAmount_put_other s k d u hk)

theorem SumIs_put_bal {s : Store} {q : ℚ} (h : SumIs s q) (u : String) (x y : ℚ)
    (t : String) :
    SumIs (s.put ("BAL_" ++ u) (TokenBalance.marshal ⟨u, x, y, t⟩))
      (q + (x - balanceAmount s u)) := by
  obtain ⟨A, hcov, hsum⟩ := h
  refine ⟨insert u A, ?_, ?_⟩
  · intro w hw
    by_cases hwu : w = u
    · rw [hwu]
      exact Finset.mem_insert_self u A
    · rw [Store.put_of_ne _ _ (fun e => hwu (balKey_inj e))] at hw
      exact Finset.mem_insert_of_mem (hcov w hw)
  · have hcongr : ∀ B : Finset String, u ∉ B →
        B.sum (balanceAmount (s.put ("BAL_" ++ u) (TokenBalance.marshal ⟨u, x, y, t⟩))) =
          B.sum (balanceAmount s) := by
      intro B hB
      refine Finset.sum_congr rfl (fun v hv => ?_)
      rw [balanceAmount_put_bal, if_neg (fun e : v = u => hB (e ▸ hv))]
    have hself :
        balanceAmount (s.put ("BAL_" ++ u) (TokenBalance.marshal ⟨u, x, y, t⟩)) u = x := by
      rw [balanceAmount_put_bal, if_pos rfl]
    by_cases hu : u ∈ A
    · rw [Finset.insert_eq_of_mem hu, ← Finset.add_sum_erase A _ hu, hself,
        hcongr _ (Finset.not_mem_erase u A), ← hsum,
        ← Finset.add_sum_erase A (balanceAmount s) hu]
      ring
    · have h0 : balanceAmount s u = 0 := by
        apply balanceAmount_of_none
        by_contra hne
        exact hu (hcov u hne)
      rw [Finset.sum_insert hu, hself, hcongr A hu, hsum, h0]
      ring

theorem SumIs_unique {s : Store} {q : ℚ} (h : SumIs s q) {A : Finset String}
    (hA : Covers s A) : A.sum (balanceAmount s) = q := by
  obtain ⟨B, hB, hsum⟩ := h
  have hzero : ∀ C : Finset String, Covers s C →
      ∀ x ∈ A ∪ B, x ∉ C → balanceAmount s x = 0 := by
    intro C hC x _ hx
    apply balanceAmount_of_none
    by_contra hne
    exact hx (hC x hne)
  rw [Finset.sum_subset Finset.subset_union_left (hzero A hA), ← hsum,
    Finset.sum_subset Finset.subset_union_right (hzero B hB)]

theorem SumIs_stored {s : Store} {q : ℚ} (h : SumIs s q) :
    ∃ A, StoredAccounts s A ∧ A.sum (balanceAmount s) = q := by
  obtain ⟨B, hB, hsum⟩ := h
  refine ⟨B.filter (fun u => s ("BAL_" ++ u) ≠ none), ?_, ?_⟩
  · intro u
    rw [Finset.mem_filter]
    exact ⟨fun h => h.2, fun h => ⟨hB u h, h⟩⟩
  · exact SumIs_unique ⟨B, hB, hsum⟩ (fun u hu => Finset.mem_filter.mpr ⟨hB u hu, hu⟩)

/-! ## The supply accounts for the balances -/

theorem Accounted_put_other {s : Store} (h : Accounted s) (k : String) (d : Doc)
    (hk : ∀ w, "BAL_" ++ w ≠ k) (hk' : "EPC_SUPPLY" ≠ k) : Accounted (s.put k d) := by
  obtain ⟨sup, hsup, hsum, hm, hb⟩ := h
  exact ⟨sup, (supplyOf_put_other s k d hk').trans hsup, SumIs_put_other hsum k d hk, hm, hb⟩

/-- Writing a balance record together with a supply record whose
`totalSupply` has moved by the same amount as the balance. -/
theorem Accounted_put_bal_supply {s : Store} {sup : TokenSupply} (hsup : supplyOf s = some sup)
    (h : Accounted s) (u : String) (x y : ℚ) (t : String) (sup' : TokenSupply)
    (hq : sup'.TotalSupply = sup.TotalSupply + (x - balanceAmount s u))
    (hm : 0 ≤ sup'.TotalMinted) (hb : 0 ≤ sup'.TotalBurned) :
    Accounted ((s.put ("BAL_" ++ u) (TokenBalance.marshal ⟨u, x, y, t⟩)).put "EPC_SUPPLY"
      sup'.marshal) := by
  obtain ⟨sup0, hsup0, hsum, -, -⟩ := h
  obtain rfl : sup0 = sup := Option.some.inj (hsup0.symm.trans hsup)
  refine ⟨sup', supplyOf_put_supply _ _, ?_, hm, hb⟩
  rw [hq]
  exact SumIs_put_other (SumIs_put_bal hsum u x y t) _ _ balKey_ne_supplyKey

/-- Writing a balance record that moves the balance by `delta`, the supply
record staying as it is. -/
theorem SumIs_put_bal_of_record {s : Store} {q : ℚ} (h : SumIs s q) {u : String}
    {b : TokenBalance} (hb : balanceRecord s u = some b) (x y : ℚ) (t : String) :
    SumIs (s.put ("BAL_" ++ u) (TokenBalance.marshal ⟨u, x, y, t⟩)) (q + (x - b.Balance)) := by
  rw [← balanceAmount_of_record hb]
  exact SumIs_put_bal h u x y t

theorem Accounted_put_bal_same {s : Store} (h : Accounted s) {u : String} {b : TokenBalance}
    (hb : balanceRecord s u = some b) (y : ℚ) (t : String) :
    Accounted (s.put ("BAL_" ++ u) (TokenBalance.marshal ⟨u, b.Balance, y, t⟩)) := by
  obtain ⟨sup, hsup, hsum, hm, hbu⟩ := h
  refine ⟨sup, (supplyOf_put_bal s u _).trans hsup, ?_, hm, hbu⟩
  have := SumIs_put_bal_of_record hsum hb b.Balance y t
  rwa [sub_self, add_zero] at this

theorem Mint_preserves_Accounted (env : Env) {s : Store} (hs : LedgerState s)
    (h : Accounted s) (u : String) (amount : ℚ) (reason refID : String) :
    Accounted (Mint (newStub env s) u amount reason refID).2.ledger := by
  by_cases hpos : amount ≤ 0
  · rw [Mint_nonpos _ _ hpos]
    exact h
  · have hpos' : 0 < amount := not_le.mp hpos
    obtain ⟨b, sup, hb, hsup, t1, t2, tx, -, hled⟩ :=
      Mint_effect env s hs u amount hpos' reason refID
    obtain ⟨sup0, hsup0, -, hm, hbu⟩ := id h
    obtain rfl : sup0 = sup := Option.some.inj (hsup0.symm.trans hsup)
    rw [hled]
    refine Accounted_put_other (Accounted_put_bal_supply hsup h u _ _ t1
      ⟨sup0.TotalSupply + amount, sup0.TotalMinted + amount, sup0.TotalBurned,
        sup0.CurrentPrice, t2⟩ ?_ ?_ hbu) _ _
      (fun w => balKey_ne_txKey w _) (supplyKey_ne_txKey _)
    · rw [balanceAmount_of_record hb]
      show sup0.TotalSupply + amount = sup0.TotalSupply + (b.Balance + amount - b.Balance)
      ring
    · show 0 ≤ sup0.TotalMinted + amount
      linarith

theorem Burn_preserves_Accounted (env : Env) {s : Store} (hs : LedgerState s)
    (h : Accounted s) (u : String) (amount : ℚ) (reason refID : String) :
    Accounted (Burn (newStub env s) u amount reason refID).2.ledger := by
  by_cases hpos : amount ≤ 0
  · rw [Burn_nonpos _ _ hpos]
    exact h
  · have hpos' : 0 < amount := not_le.mp hpos
    obtain ⟨b, sup, hb, hsup, hfail, hsucc⟩ :=
      Burn_effect env s hs u amount hpos' reason refID
    by_cases hlt : b.Balance < amount
    · rw [(hfail hlt).2.2]
      exact h
    · obtain ⟨t1, t2, tx, -, hled⟩ := hsucc hlt
      obtain ⟨sup0, hsup0, -, hm, hbu⟩ := id h
      obtain rfl : sup0 = sup := Option.some.inj (hsup0.symm.trans hsup)
      rw [hled]
      refine Accounted_put_other (Accounted_put_bal_supply hsup h u _ _ t1
        ⟨sup0.TotalSupply - amount, sup0.TotalMinted, sup0.TotalBurned + amount,
          sup0.CurrentPrice, t2⟩ ?_ hm ?_) _ _
        (fun w => balKey_ne_txKey w _) (supplyKey_ne_txKey _)
      · rw [balanceAmount_of_record hb]
        show sup0.TotalSupply - amount = sup0.TotalSupply + (b.Balance - amount - b.Balance)
        ring
      · show 0 ≤ sup0.TotalBurned + amount
        linarith

theorem Transfer_preserves_Accounted (env : Env) {s : Store} (hs : LedgerState s)
    (h : Accounted s) (a b : String) (amount : ℚ) (reason refID : String) :
    Accounted (Transfer (newStub env s) a b amount reason refID).2.ledger := by
  by_cases hpos : amount ≤ 0
  · rw [Transfer_nonpos _ _ _ hpos]
    exact h
  · have hpos' : 0 < amount := not_le.mp hpos
    by_cases hab : a = b
    · subst hab
      rw [Transfer_self _ _ hpos']
      exact h
    · obtain ⟨ba, bb, hba, hbb, hfail, hsucc⟩ :=
        Transfer_effect env s hs a b amount hpos' hab reason refID
      by_cases hlt : ba.Balance - ba.LockedBalance < amount
      · rw [(hfail hlt).2.2]
        exact h
      · obtain ⟨t, tx, -, hled⟩ := hsucc hlt
        obtain ⟨sup, hsup, hsum, hm, hbu⟩ := h
        rw [hled]
        refine ⟨sup, ?_, ?_, hm, hbu⟩
        · rw [supplyOf_put_other _ _ _ (supplyKey_ne_txKey _), supplyOf_put_bal,
            supplyOf_put_bal]
          exact hsup
        · have hbb' : balanceRecord (s.put ("BAL_" ++ a) (TokenBalance.marshal
              ⟨a, ba.Balance - amount, ba.LockedBalance, t⟩)) b = some bb := by
            rw [balanceRecord_put_bal s ⟨a, _, _, _⟩ b, if_neg (Ne.symm hab)]
            exact hbb
          have h1 := SumIs_put_bal_of_record hsum hba (ba.Balance - amount) ba.LockedBalance t
          have h2 := SumIs_put_bal_of_record h1 hbb' (bb.Balance + amount) bb.LockedBalance t
          have h3 := SumIs_put_other h2 ("TX_" ++ env.txID) tx (fun w => balKey_ne_txKey w _)
          have e : sup.TotalSupply + (ba.Balance - amount - ba.Balance) +
              (bb.Balance + amount - bb.Balance) = sup.TotalSupply := by ring
          rwa [e] at h3

theorem Lock_preserves_Accounted (env : Env) {s : Store} (hs : LedgerState s)
    (h : Accounted s) (u : String) (amount : ℚ) (refID : String) :
    Accounted (Lock (newStub env s) u amount refID).2.ledger := by
  by_cases hpos : amount ≤ 0
  · rw [Lock_nonpos _ _ hpos]
    exact h
  · obtain ⟨b, hb, hfail, hsucc⟩ := Lock_effect env s hs u amount (not_le.mp hpos) refID
    by_cases hlt : b.Balance - b.LockedBalance < amount
    · rw [(hfail hlt).2.2]
      exact h
    · obtain ⟨t, tx, -, hled⟩ := hsucc hlt
      rw [hled]
      exact Accounted_put_other (Accounted_put_bal_same h hb _ t) _ _
        (fun w => balKey_ne_txKey w _) (supplyKey_ne_txKey _)

theorem Unlock_preserves_Accounted (env : Env) {s : Store} (hs : LedgerState s)
    (h : Accounted s) (u : String) (amount : ℚ) (refID : String) :
    Accounted (Unlock (newStub env s) u amount refID).2.ledger := by
  by_cases hpos : amount ≤ 0
  · rw [Unlock_nonpos _ _ hpos]
    exact h
  · obtain ⟨b, hb, hfail, hsucc⟩ := Unlock_effect env s hs u amount (not_le.mp hpos) refID
    by_cases hlt : b.LockedBalance < amount
    · rw [(hfail hlt).2.2]
      exact h
    · obtain ⟨t, tx, -, hled⟩ := hsucc hlt
      rw [hled]
      exact Accounted_put_other (Accounted_put_bal_same h hb _ t) _ _
        (fun w => balKey_ne_txKey w _) (supplyKey_ne_txKey _)

theorem SetPrice_preserves_Accounted (env : Env) {s : Store} (hs : LedgerState s)
    (h : Accounted s) (priceID source : String) (price : ℚ) (currency : String)
    (basketPrice : ℚ) (timestamp : String) :
    Accounted
      (SetPrice (newStub env s) priceID source price currency basketPrice timestamp).2.ledger := by
  by_cases hp : price ≤ 0 ∨ basketPrice ≤ 0
  · rw [SetPrice_nonpos _ _ _ _ _ _ _ hp]
    exact h
  · have hp1 : 0 < price := not_le.mp fun e => hp (Or.inl e)
    have hp2 : 0 < basketPrice := not_le.mp fun e => hp (Or.inr e)
    obtain ⟨sup, hsup, doc, t, -, hled⟩ :=
      SetPrice_effect env s hs priceID source price currency basketPrice timestamp hp1 hp2
    obtain ⟨sup0, hsup0, hsum, hm, hbu⟩ := h
    obtain rfl : sup0 = sup := Option.some.inj (hsup0.symm.trans hsup)
    rw [hled]
    refine ⟨_, supplyOf_put_supply _ _, ?_, hm, hbu⟩
    exact SumIs_put_other
      (SumIs_put_other
        (SumIs_put_other hsum _ doc (fun w => balKey_ne_priceKey w _)) _ doc balKey_ne_latestKey)
      _ _ balKey_ne_supplyKey

/-- On the empty ledger `InitLedger` leaves an accounted state. -/
theorem InitLedger_Accounted (env : Env) : Accounted (exec emptyStore (env, .initLedger)) := by
  show Accounted (InitLedger (newStub env emptyStore)).2.ledger
  rw [(InitLedger_effect env emptyStore).2]
  exact ⟨_, supplyOf_put_supply _ _, SumIs_put_other SumIs_empty _ _ balKey_ne_supplyKey,
    le_refl _, le_refl _⟩

theorem exec_preserves_Accounted {s : Store} (hs : LedgerState s) (h : Accounted s)
    (inv : Env × Call) (hne : inv.2 ≠ .initLedger) : Accounted (exec s inv) := by
  obtain ⟨env, c⟩ := inv
  cases c with
  | initLedger => exact absurd rfl hne
  | setPrice priceID source price currency basketPrice timestamp =>
    exact SetPrice_preserves_Accounted env hs h priceID source price currency basketPrice
      timestamp
  | mint u amount reason refID => exact Mint_preserves_Accounted env hs h u amount reason refID
  | burn u amount reason refID => exact Burn_preserves_Accounted env hs h u amount reason refID
  | transfer a b amount reason refID =>
    exact Transfer_preserves_Accounted env hs h a b amount reason refID
  | lock u amount refID => exact Lock_preserves_Accounted env hs h u amount refID
  | unlock u amount refID => exact Unlock_preserves_Accounted env hs h u amount refID

theorem execAll_preserves_Accounted (invs : List (Env × Call)) {s : Store} (hI : Inv s)
    (h : Accounted s) (hne : ∀ inv ∈ invs, inv.2 ≠ .initLedger) :
    Accounted (execAll s invs) := by
  induction invs generalizing s with
  | nil => exact h
  | cons inv rest ih =>
    exact ih (exec_preserves_Inv hI inv)
      (exec_preserves_Accounted hI.1 h inv (hne inv (List.mem_cons_self _ _)))
      (fun i hi => hne i (List.mem_cons_of_mem _ hi))

/-- Worked instance: after `InitLedger` and the example run alice holds 80,
bob holds 15, and the supply record shows total 95, minted 100, burned 5. -/
theorem exampleRun_totals :
    balanceAmount (execAll emptyStore ((exampleEnv "tx0", .initLedger) :: exampleRun))
      "alice" = 80 ∧
    balanceAmount (execAll emptyStore ((exampleEnv "tx0", .initLedger) :: exampleRun))
      "bob" = 15 ∧
    (supplyOf (execAll emptyStore ((exampleEnv "tx0", .initLedger) :: exampleRun))).map
      (fun sup => (sup.TotalSupply, sup.TotalMinted, sup.TotalBurned)) = some (95, 100, 5) := by
  decide!

/-- C25: supply is conserved across accounts.  In every state reached from
`InitLedger` on the empty ledger followed by any finite sequence of Mint,
Burn, Transfer, Lock, Unlock and SetPrice calls, successful or failed, the
supply record is readable, finitely many account records are stored, and the
balances of the stored accounts add up to `totalSupply` (exact decimals). -/
theorem balances_sum_to_supply (env0 : Env) (invs : List (Env × Call))
    (hne : ∀ inv ∈ invs, inv.2 ≠ .initLedger) :
    ∃ sup A, supplyOf (execAll emptyStore ((env0, .initLedger) :: invs)) = some sup ∧
      StoredAccounts (execAll emptyStore ((env0, .initLedger) :: invs)) A ∧
      A.sum (balanceAmount (execAll emptyStore ((env0, .initLedger) :: invs))) =
        sup.TotalSupply := by
  have hI : Inv (exec emptyStore (env0, .initLedger)) := exec_preserves_Inv Inv_empty _
  obtain ⟨sup, hsup, hsum, -, -⟩ :=
    execAll_preserves_Accounted invs hI (InitLedger_Accounted env0) hne
  obtain ⟨A, hA, hAsum⟩ := SumIs_stored hsum
  exact ⟨sup, A, hsup, hA, hAsum⟩

/-- Instance of C25: the example run after `InitLedger`. -/
theorem balances_sum_to_supply_witness :
    (∀ inv ∈ exampleRun, inv.2 ≠ .initLedger) ∧
    ∃ sup A, supplyOf (execAll emptyStore ((exampleEnv "tx0", .initLedger) :: exampleRun))
        = some sup ∧
      StoredAccounts (execAll emptyStore ((exampleEnv "tx0", .initLedger) :: exampleRun)) A ∧
      A.sum (balanceAmount (execAll emptyStore ((exampleEnv "tx0", .initLedger) :: exampleRun)))
        = sup.TotalSupply :=
  ⟨by simp [exampleRun],
    balances_sum_to_supply (exampleEnv "tx0") exampleRun (by simp [exampleRun])⟩

theorem Mint_clock (env env' : Env) (s : Store) (htx : env.txID = env'.txID)
    (u : String) (amount : ℚ) (reason refID : String) :
    (Mint (newStub env s) u amount reason refID).1 =
      (Mint (newStub env' s) u amount reason refID).1 ∧
    (Mint (newStub env s) u amount reason refID).2.writes.map Prod.fst =
      (Mint (newStub env' s) u amount reason refID).2.writes.map Prod.fst ∧
    (SameReadings 5 env env' →
      (Mint (newStub env s) u amount reason refID).2.writes =
        (Mint (newStub env' s) u amount reason refID).2.writes ∧
      (Mint (newStub env s) u amount reason refID).2.event =
        (Mint (newStub env' s) u amount reason refID).2.event) := by
  by_cases hpos : amount ≤ 0
  · rw [Mint_nonpos _ _ hpos, Mint_nonpos _ _ hpos]
    exact ⟨rfl, rfl, fun _ => ⟨rfl, rfl⟩⟩
  · rcases getOrCreateBalance_any s u with hg | hg | ⟨b, hg⟩ <;>
    rcases getSupply_any s with hs | hs | ⟨sup, hs⟩ <;>
    · simp only [Mint, hpos, if_false, hg, hs, state_newStub, state_tick, state_saveBalance]
      all_goals
        refine ⟨by trivial, ?_, ?_⟩
        · simp [saveBalance, Stub.PutState, Stub.tick, Stub.SetEvent, Stub.now, newStub, htx]
        · intro h
          have h0 := h 0 (by norm_num)
          have h1 := h 1 (by norm_num)
          have h2 := h 2 (by norm_num)
          have h3 := h 3 (by norm_num)
          have h4 := h 4 (by norm_num)
          simp [saveBalance, Stub.PutState, Stub.tick, Stub.SetEvent, Stub.now, newStub, htx,
            h0, h1, h2, h3, h4]

theorem Burn_clock (env env' : Env) (s : Store) (htx : env.txID = env'.txID)
    (u : String) (amount : ℚ) (reason refID : String) :
    (Burn (newStub env s) u amount reason refID).1 =
      (Burn (newStub env' s) u amount reason refID).1 ∧
    (Burn (newStub env s) u amount reason refID).2.writes.map Prod.fst =
      (Burn (newStub env' s) u amount reason refID).2.writes.map Prod.fst ∧
    (SameReadings 5 env env' →
      (Burn (newStub env s) u amount reason refID).2.writes =
        (Burn (newStub env' s) u amount reason refID).2.writes ∧
      (Burn (newStub env s) u amount reason refID).2.event =
        (Burn (newStub env' s) u amount reason refID).2.event) := by
  by_cases hpos : amount ≤ 0
  · rw [Burn_nonpos _ _ hpos, Burn_nonpos _ _ hpos]
    exact ⟨rfl, rfl, fun _ => ⟨rfl, rfl⟩⟩
  · rcases getOrCreateBalance_any s u with hg | hg | ⟨b, hg⟩ <;>
    rcases getSupply_any s with hs | hs | ⟨sup, hs⟩ <;>
    · simp only [Burn, hpos, if_false, hg, hs, state_newStub, state_tick, state_saveBalance]
      try split_ifs
      all_goals
        refine ⟨by trivial, ?_, ?_⟩
        · simp [saveBalance, Stub.PutState, Stub.tick, Stub.SetEvent, Stub.now, newStub, htx]
        · intro h
          have h0 := h 0 (by norm_num)
          have h1 := h 1 (by norm_num)
          have h2 := h 2 (by norm_num)
          have h3 := h 3 (by norm_num)
          have h4 := h 4 (by norm_num)
          simp [saveBalance, Stub.PutState, Stub.tick, Stub.SetEvent, Stub.now, newStub, htx,
            h0, h1, h2, h3, h4]

theorem Transfer_clock (env env' : Env) (s : Store) (htx : env.txID = env'.txID)
    (a b : String) (amount : ℚ) (reason refID : String) :
    (Transfer (newStub env s) a b amount reason refID).1 =
      (Transfer (newStub env' s) a b amount reason refID).1 ∧
    (Transfer (newStub env s) a b amount reason refID).2.writes.map Prod.fst =
      (Transfer (newStub env' s) a b amount reason refID).2.writes.map Prod.fst ∧
    (SameReadings 5 env env' →
      (Transfer (newStub env s) a b amount reason refID).2.writes =
        (Transfer (newStub env' s) a b amount reason refID).2.writes ∧
      (Transfer (newStub env s) a b amount reason refID).2.event =
        (Transfer (newStub env' s) a b amount reason refID).2.event) := by
  by_cases hpos : amount ≤ 0
  · rw [Transfer_nonpos _ _ _ hpos, Transfer_nonpos _ _ _ hpos]
    exact ⟨rfl, rfl, fun _ => ⟨rfl, rfl⟩⟩
  · by_cases hab : a = b
    · subst hab
      rw [Transfer_self _ _ (not_le.mp hpos), Transfer_self _ _ (not_le.mp hpos)]
      exact ⟨rfl, rfl, fun _ => ⟨rfl, rfl⟩⟩
    · rcases getOrCreateBalance_any s a with hg | hg | ⟨ba, hg⟩ <;>
      rcases getOrCreateBalance_any s b with hs | hs | ⟨bb, hs⟩ <;>
      · simp only [Transfer, hpos, hab, if_false, hg, hs, state_newStub, state_tick,
          state_saveBalance]
        try split_ifs
        all_goals
          refine ⟨by trivial, ?_, ?_⟩
          · simp [saveBalance, Stub.PutState, Stub.tick, Stub.SetEvent, Stub.now, newStub, htx]
          · intro h
            have h0 := h 0 (by norm_num)
            have h1 := h 1 (by norm_num)
            have h2 := h 2 (by norm_num)
            have h3 := h 3 (by norm_num)
            have h4 := h 4 (by norm_num)
            simp [saveBalance, Stub.PutState, Stub.tick, Stub.SetEvent, Stub.now, newStub, htx,
              h0, h1, h2, h3, h4]

theorem Lock_clock (env env' : Env) (s : Store) (htx : env.txID = env'.txID)
    (u : String) (amount : ℚ) (refID : String) :
    (Lock (newStub env s) u amount refID).1 =
      (Lock (newStub env' s) u amount refID).1 ∧
    (Lock (newStub env s) u amount refID).2.writes.map Prod.fst =
      (Lock (newStub env' s) u amount refID).2.writes.map Prod.fst ∧
    (SameReadings 5 env env' →
      (Lock (newStub env s) u amount refID).2.writes =
        (Lock (newStub env' s) u amount refID).2.writes ∧
      (Lock (newStub env s) u amount refID).2.event =
        (Lock (newStub env' s) u amount refID).2.event) := by
  by_cases hpos : amount ≤ 0
  · rw [Lock_nonpos _ _ hpos, Lock_nonpos _ _ hpos]
    exact ⟨rfl, rfl, fun _ => ⟨rfl, rfl⟩⟩
  · rcases getOrCreateBalance_any s u with hg | hg | ⟨b, hg⟩ <;>
    · simp only [Lock, hpos, if_false, hg, state_newStub, state_tick, state_saveBalance]
      try split_ifs
      all_goals
        refine ⟨by trivial, ?_, ?_⟩
        · simp [saveBalance, Stub.PutState, Stub.tick, Stub.SetEvent, Stub.now, newStub, htx]
        · intro h
          have h0 := h 0 (by norm_num)
          have h1 := h 1 (by norm_num)
          have h2 := h 2 (by norm_num)
          have h3 := h 3 (by norm_num)
          have h4 := h 4 (by norm_num)
          simp [saveBalance, Stub.PutState, Stub.tick, Stub.SetEvent, Stub.now, newStub, htx,
            h0, h1, h2, h3, h4]

theorem Unlock_clock (env env' : Env) (s : Store) (htx : env.txID = env'.txID)
    (u : String) (amount : ℚ) (refID : String) :
    (Unlock (newStub env s) u amount refID).1 =
      (Unlock (newStub env' s) u amount refID).1 ∧
    (Unlock (newStub env s) u amount refID).2.writes.map Prod.fst =
      (Unlock (newStub env' s) u amount refID).2.writes.map Prod.fst ∧
    (SameReadings 5 env env' →
      (Unlock (newStub env s) u amount refID).2.writes =
        (Unlock (newStub env' s) u amount refID).2.writes ∧
      (Unlock (newStub env s) u amount refID).2.event =
        (Unlock (newStub env' s) u amount refID).2.event) := by
  by_cases hpos : amount ≤ 0
  · rw [Unlock_nonpos _ _ hpos, Unlock_nonpos _ _ hpos]
    exact ⟨rfl, rfl, fun _ => ⟨rfl, rfl⟩⟩
  · rcases getOrCreateBalance_any s u with hg | hg | ⟨b, hg⟩ <;>
    · simp only [Unlock, hpos, if_false, hg, state_newStub, state_tick, state_saveBalance]
      try split_ifs
      all_goals
        refine ⟨by trivial, ?_, ?_⟩
        · simp [saveBalance, Stub.PutState, Stub.tick, Stub.SetEvent, Stub.now, newStub, htx]
        · intro h
          have h0 := h 0 (by norm_num)
          have h1 := h 1 (by norm_num)
          have h2 := h 2 (by norm_num)
          have h3 := h 3 (by norm_num)
          have h4 := h 4 (by norm_num)
          simp [saveBalance, Stub.PutState, Stub.tick, Stub.SetEvent, Stub.now, newStub, htx,
            h0, h1, h2, h3, h4]

theorem SetPrice_clock (env env' : Env) (s : Store) (htx : env.txID = env'.txID)
    (priceID source : String) (price : ℚ) (currency : String)
    (basketPrice : ℚ) (timestamp : String) :
    (SetPrice (newStub env s) priceID source price currency basketPrice timestamp).1 =
      (SetPrice (newStub env' s) priceID source price currency basketPrice timestamp).1 ∧
    (SetPrice (newStub env s) priceID source price currency basketPrice timestamp).2.writes.map Prod.fst =
      (SetPrice (newStub env' s) priceID source price currency basketPrice timestamp).2.writes.map Prod.fst ∧
    (SameReadings 5 env env' →
      (SetPrice (newStub env s) priceID source price currency basketPrice timestamp).2.writes =
        (SetPrice (newStub env' s) priceID source price currency basketPrice timestamp).2.writes ∧
      (SetPrice (newStub env s) priceID source price currency basketPrice timestamp).2.event =
        (SetPrice (newStub env' s) priceID source price currency basketPrice timestamp).2.event) := by
  by_cases hp : price ≤ 0
  · simp [SetPrice, hp]
  · by_cases hb : basketPrice ≤ 0
    · simp [SetPrice, hp, hb]
    · rcases getSupply_any s with hs | hs | ⟨sup, hs⟩ <;>
      · simp only [SetPrice, hp, hb, if_false, hs, state_newStub, state_tick, state_PutState]
        all_goals
          refine ⟨by trivial, ?_, ?_⟩
          · simp [saveBalance, Stub.PutState, Stub.tick, Stub.SetEvent, Stub.now, newStub, htx]
          · intro h
            have h0 := h 0 (by norm_num)
            have h1 := h 1 (by norm_num)
            have h2 := h 2 (by norm_num)
            have h3 := h 3 (by norm_num)
            have h4 := h 4 (by norm_num)
            simp [saveBalance, Stub.PutState, Stub.tick, Stub.SetEvent, Stub.now, newStub, htx,
              h0, h1, h2, h3, h4]

theorem InitLedger_clock (env env' : Env) (s : Store) :
    (InitLedger (newStub env s)).1 =
      (InitLedger (newStub env' s)).1 ∧
    (InitLedger (newStub env s)).2.writes.map Prod.fst =
      (InitLedger (newStub env' s)).2.writes.map Prod.fst ∧
    (SameReadings 5 env env' →
      (InitLedger (newStub env s)).2.writes =
        (InitLedger (newStub env' s)).2.writes ∧
      (InitLedger (newStub env s)).2.event =
        (InitLedger (newStub env' s)).2.event) := by
  refine ⟨rfl, rfl, ?_⟩
  intro h
  have h0 := h 0 (by norm_num)
  simp [InitLedger, Stub.PutState, Stub.tick, Stub.now, newStub, h0]

theorem BalanceOf_clock (env env' : Env) (s : Store) (u : String) :
    (BalanceOf (newStub env s) u).1.map (fun b => (b.UserID, b.Balance, b.LockedBalance)) =
      (BalanceOf (newStub env' s) u).1.map (fun b => (b.UserID, b.Balance, b.LockedBalance)) ∧
    (BalanceOf (newStub env s) u).2.writes = (BalanceOf (newStub env' s) u).2.writes ∧
    (BalanceOf (newStub env s) u).2.event = (BalanceOf (newStub env' s) u).2.event ∧
    (SameReadings 5 env env' →
      (BalanceOf (newStub env s) u).1 = (BalanceOf (newStub env' s) u).1) := by
  unfold BalanceOf
  rcases getOrCreateBalance_any s u with hg | hg | ⟨b, hg⟩ <;>
  · rw [hg _ rfl, hg _ rfl]
    refine ⟨rfl, rfl, rfl, ?_⟩
    intro h
    have h0 := h 0 (by norm_num)
    simp [Stub.now, newStub, h0]

/-- C21 (amended): the wall clock enters an operation only through the
timestamps it writes.  Two executions of InitLedger, SetPrice, Mint, Burn,
Transfer, Lock or Unlock from the same prior state with the same arguments and
the same transaction id return the same result and write the same keys in the
same order, whatever their wall clocks show; when the two wall clocks give the
same first five readings, the written values and the event are the same as
well.  BalanceOf writes nothing, returns the same account, balance and locked
balance (or the same error) whatever the clocks show, and the same record when
the readings agree. -/
theorem clock_enters_through_readings (s : Store) (env env' : Env)
    (htx : env.txID = env'.txID) :
    (∀ c : Call,
      (c.run (newStub env s)).1 = (c.run (newStub env' s)).1 ∧
      (c.run (newStub env s)).2.writes.map Prod.fst =
        (c.run (newStub env' s)).2.writes.map Prod.fst ∧
      (SameReadings 5 env env' →
        (c.run (newStub env s)).2.writes = (c.run (newStub env' s)).2.writes ∧
        (c.run (newStub env s)).2.event = (c.run (newStub env' s)).2.event)) ∧
    (∀ u : String,
      (BalanceOf (newStub env s) u).1.map (fun b => (b.UserID, b.Balance, b.LockedBalance)) =
        (BalanceOf (newStub env' s) u).1.map
          (fun b => (b.UserID, b.Balance, b.LockedBalance)) ∧
      (BalanceOf (newStub env s) u).2.writes = (BalanceOf (newStub env' s) u).2.writes ∧
      (BalanceOf (newStub env s) u).2.event = (BalanceOf (newStub env' s) u).2.event ∧
      (SameReadings 5 env env' →
        (BalanceOf (newStub env s) u).1 = (BalanceOf (newStub env' s) u).1)) := by
  refine ⟨fun c => ?_, fun u => BalanceOf_clock env env' s u⟩
  cases c with
  | initLedger => exact InitLedger_clock env env' s
  | setPrice priceID source price currency basketPrice timestamp =>
    exact SetPrice_clock env env' s htx priceID source price currency basketPrice timestamp
  | mint u amount reason refID => exact Mint_clock env env' s htx u amount reason refID
  | burn u amount reason refID => exact Burn_clock env env' s htx u amount reason refID
  | transfer a b amount reason refID =>
    exact Transfer_clock env env' s htx a b amount reason refID
  | lock u amount refID => exact Lock_clock env env' s htx u amount refID
  | unlock u amount refID => exact Unlock_clock env env' s htx u amount refID

/-- Instance of C21 (amended): a Mint run at two different wall-clock times
returns the same result. -/
theorem clock_enters_through_readings_witness :
    (exampleEnv "tx1").txID = (laterEnv "tx1").txID ∧
    (Mint (newStub (exampleEnv "tx1") emptyStore) "alice" 100 "reward" "").1 =
      (Mint (newStub (laterEnv "tx1") emptyStore) "alice" 100 "reward" "").1 :=
  ⟨rfl, ((clock_enters_through_readings emptyStore (exampleEnv "tx1") (laterEnv "tx1") rfl).1
    (.mint "alice" 100 "reward" "")).1⟩

/-- C21 (counterexample): two executions from the empty ledger with the same
arguments, the same transaction id and the same transaction timestamp, run one
second apart on the wall clock, differ in what they write: the values `Mint`
writes and its event differ, the value `InitLedger` writes differs, and the
record `BalanceOf` returns differs. -/
theorem written_timestamps_follow_wall_clock :
    (exampleEnv "tx1").txID = (laterEnv "tx1").txID ∧
    (exampleEnv "tx1").txTimestamp = (laterEnv "tx1").txTimestamp ∧
    (Mint (newStub (exampleEnv "tx1") emptyStore) "alice" 100 "reward" "").2.writes ≠
      (Mint (newStub (laterEnv "tx1") emptyStore) "alice" 100 "reward" "").2.writes ∧
    (Mint (newStub (exampleEnv "tx1") emptyStore) "alice" 100 "reward" "").2.event ≠
      (Mint (newStub (laterEnv "tx1") emptyStore) "alice" 100 "reward" "").2.event ∧
    (InitLedger (newStub (exampleEnv "tx1") emptyStore)).2.writes ≠
      (InitLedger (newStub (laterEnv "tx1") emptyStore)).2.writes ∧
    (BalanceOf (newStub (exampleEnv "tx1") emptyStore) "alice").1.toOption ≠
      (BalanceOf (newStub (laterEnv "tx1") emptyStore) "alice").1.toOption := by
  decide!

end EPC

namespace REC

/-! ## Retirement and colliding keys -/

/-- The index key IssueREC writes for token `t2` and owner `bob` is the record
key of the token `OWNER_bob_t2`. -/
theorem owner_index_key_is_token_key :
    "RECT_OWNER_" ++ "bob" ++ "_" ++ "t2" = "RECT_" ++ "OWNER_bob_t2" := by decide

/-- The key TransferREC writes its record under in transaction `tx9` is the
record key of the token `TXF_tx9`. -/
theorem transfer_key_is_token_key : "RECT_TXF_" ++ "tx9" = "RECT_" ++ "TXF_tx9" := by decide

/-- C28 (the code departs from the claim): the token `OWNER_bob_t2` is issued
to alice and retired by alice, and `GetREC` returns it with status RETIRED.  A
later `IssueREC` of the token `t2` to the owner bob succeeds, and its
ownership index entry lands on the key of the retired token: the bytes stored
there are now the raw text `t2`, and `GetREC("OWNER_bob_t2")` returns whatever
the JSON decoder makes of that text (a decoding error, `t2` not being JSON)
instead of the retired record. -/
theorem retired_token_overwritten (decode : String → Option RECToken) :
    (RetireREC (newStub (exampleEnv decode "tx2")
      (execAll emptyStore ((retiredOwnerRun decode).take 1))) "OWNER_bob_t2" "alice").1 = .ok () ∧
    (∃ r, GetREC (newStub (exampleEnv decode "q") (execAll emptyStore (retiredOwnerRun decode)))
        "OWNER_bob_t2" = .ok r ∧
      r.Status = "RETIRED" ∧ r.OwnerID = "alice" ∧ r.RetiredBy = "alice") ∧
    (IssueREC (newStub (exampleEnv decode "tx3") (execAll emptyStore (retiredOwnerRun decode)))
      "t2" "cert2" "trade2" "issuer1" "bob" "wind" 2 "2024" "KR" "2025-12-31" "h2").1 = .ok () ∧
    execAll emptyStore (retiredOwnerRun decode ++ laterIssue decode) ("RECT_" ++ "OWNER_bob_t2") =
      some (.raw "t2") ∧
    GetREC (newStub (exampleEnv decode "q")
        (execAll emptyStore (retiredOwnerRun decode ++ laterIssue decode))) "OWNER_bob_t2" =
      (match decode "t2" with
        | none => .error .tokenDecode
        | some t => .ok t) := by
  refine ⟨?_, ?_, ?_, ?_, ?_⟩
  · with_unfolding_all rfl
  · exact ⟨_, by with_unfolding_all rfl, rfl, rfl, rfl⟩
  · with_unfolding_all rfl
  · with_unfolding_all rfl
  · have h : execAll emptyStore (retiredOwnerRun decode ++ laterIssue decode)
        "RECT_OWNER_bob_t2" = some (.raw "t2") := by
      with_unfolding_all rfl
    cases hd : decode "t2" <;>
    simp [GetREC, getToken, Stub.GetState, newStub, h, Stub.unmarshalToken, exampleEnv, hd]

/-- Worked instance: the token `TXF_tx9` is issued to alice and retired by
alice.  Later the token `t2` is issued to bob, and bob transfers it to carol in
the transaction with id `tx9`: the transfer record lands on the key of the
retired token.  `GetREC("TXF_tx9")` then returns a record with token id `t2`
and every other field empty, and `RetireREC("TXF_tx9", "")` succeeds. -/
theorem transfer_record_replaces_retired_token (decode : String → Option RECToken) :
    (RetireREC (newStub (exampleEnv decode "tx2")
      (execAll emptyStore ((retiredRun decode).take 1))) "TXF_tx9" "alice").1 = .ok () ∧
    (∃ r, GetREC (newStub (exampleEnv decode "q") (execAll emptyStore (retiredRun decode)))
        "TXF_tx9" = .ok r ∧ r.Status = "RETIRED" ∧ r.OwnerID = "alice" ∧ r.RetiredBy = "alice") ∧
    (TransferREC (newStub (exampleEnv decode "tx9")
        (execAll emptyStore (retiredRun decode ++ (laterRun decode).take 1)))
        "t2" "bob" "carol").1 = .ok () ∧
    GetREC (newStub (exampleEnv decode "q")
        (execAll emptyStore (retiredRun decode ++ laterRun decode))) "TXF_tx9" =
      .ok { RECToken.zero with TokenID := "t2" } ∧
    (RetireREC (newStub (exampleEnv decode "tx10")
        (execAll emptyStore (retiredRun decode ++ laterRun decode))) "TXF_tx9" "").1 = .ok () := by
  refine ⟨?_, ?_, ?_, ?_, ?_⟩
  · with_unfolding_all rfl
  · exact ⟨_, by with_unfolding_all rfl, rfl, rfl, rfl⟩
  · with_unfolding_all rfl
  · with_unfolding_all rfl
  · with_unfolding_all rfl

/-! ## Retirement away from the colliding keys -/

theorem tokenKey_inj {t t' : String} (h : "RECT_" ++ t = "RECT_" ++ t') : t = t' := by
  have := congrArg String.data h
  simp [String.data_append] at this
  exact String.ext this

theorem ownerKey_eq (o t : String) :
    "RECT_OWNER_" ++ o ++ "_" ++ t = "RECT_" ++ ("OWNER_" ++ (o ++ "_" ++ t)) := by
  apply String.ext
  simp [String.data_append]

theorem transferKey_eq (x : String) : "RECT_TXF_" ++ x = "RECT_" ++ ("TXF_" ++ x) := by
  apply String.ext
  simp [String.data_append]

theorem ownerKey_ne_tokenKey {id : String} (h : ∀ r, id ≠ "OWNER_" ++ r) (o t : String) :
    "RECT_" ++ id ≠ "RECT_OWNER_" ++ o ++ "_" ++ t := by
  intro e
  rw [ownerKey_eq] at e
  exact h _ (tokenKey_inj e)

theorem transferKey_ne_tokenKey {id : String} (h : ∀ r, id ≠ "TXF_" ++ r) (x : String) :
    "RECT_" ++ id ≠ "RECT_TXF_" ++ x := by
  intro e
  rw [transferKey_eq] at e
  exact h _ (tokenKey_inj e)

theorem getToken_of_token (st : Stub) {id : String} {R : RECToken}
    (h : st.state ("RECT_" ++ id) = some (.token R)) : getToken st id = .ok R := by
  simp [getToken, Stub.GetState, h, Stub.unmarshalToken]

/-- A successful `RetireREC` leaves the retired token under its key. -/
theorem RetireREC_stores_retired (env : Env) (s : Store) (id owner : String)
    (hok : (RetireREC (newStub env s) id owner).1 = .ok ()) :
    ∃ R, exec s (env, .retire id owner) ("RECT_" ++ id) = some (.token R) ∧
      R.Status = "RETIRED" ∧ R.OwnerID = owner ∧ R.RetiredBy = owner ∧
      R.RetiredAt = env.clock 0 := by
  show ∃ R, (RetireREC (newStub env s) id owner).2.ledger ("RECT_" ++ id) = _ ∧ _
  unfold RetireREC at hok ⊢
  cases hg : getToken (newStub env s) id with
  | error e => simp [hg] at hok
  | ok token =>
    by_cases ho : token.OwnerID = owner
    · by_cases hst : token.Status = "RETIRED"
      · simp [hg, ho, hst] at hok
      · refine ⟨{ token with
            Status := "RETIRED", RetiredAt := env.clock 0, RetiredBy := owner },
          ?_, rfl, ho, rfl, rfl⟩
        simp [hg, ho, hst, Stub.PutState, Stub.SetEvent, Stub.ledger, Stub.tick, Stub.now,
          newStub, Store.set]
    · simp [hg, ho] at hok

/-- Every later call leaves the bytes of a retired token as they are, provided
its id begins neither with `OWNER_` nor with `TXF_`. -/
theorem exec_keeps_retired {s : Store} {id : String} {R : RECToken}
    (h1 : ∀ r, id ≠ "OWNER_" ++ r) (h2 : ∀ r, id ≠ "TXF_" ++ r)
    (hs : s ("RECT_" ++ id) = some (.token R)) (hst : R.Status = "RETIRED")
    (inv : Env × Call) : exec s inv ("RECT_" ++ id) = some (.token R) := by
  obtain ⟨env, c⟩ := inv
  cases c with
  | issue id' certID tradeID issuerID ownerID energySource quantity vintage location validUntil
      metadataHash =>
    show (IssueREC (newStub env s) id' certID tradeID issuerID ownerID energySource quantity
      vintage location validUntil metadataHash).2.ledger _ = _
    unfold IssueREC
    cases hg : (newStub env s).GetState ("RECT_" ++ id') with
    | some b => simpa [Stub.ledger, newStub] using hs
    | none =>
      have hne : "RECT_" ++ id ≠ "RECT_" ++ id' := by
        intro e
        rw [← e] at hg
        simp [Stub.GetState, newStub, hs] at hg
      simp [Stub.PutState, Stub.SetEvent, Stub.ledger, Stub.tick, newStub, Store.set, hne,
        ownerKey_ne_tokenKey h1, hs]
  | transfer id' fromID toID =>
    show (TransferREC (newStub env s) id' fromID toID).2.ledger _ = _
    unfold TransferREC
    cases hg : getToken (newStub env s) id' with
    | error e => simpa [Stub.ledger, newStub] using hs
    | ok token =>
      by_cases ho : token.OwnerID = fromID
      · by_cases hact : token.Status = "ACTIVE"
        · have hne : "RECT_" ++ id ≠ "RECT_" ++ id' := by
            intro e
            have e' := tokenKey_inj e
            subst e'
            have := getToken_of_token (newStub env s) hs
            rw [hg] at this
            have : token = R := Except.ok.inj this
            rw [this, hst] at hact
            exact absurd hact (by decide)
          simp [ho, hact, Stub.PutState, Stub.DelState, Stub.SetEvent, Stub.ledger, Stub.tick,
            newStub, Store.set, hne, ownerKey_ne_tokenKey h1, transferKey_ne_tokenKey h2, hs]
        · simpa [ho, hact, Stub.ledger, newStub] using hs
      · simpa [ho, Stub.ledger, newStub] using hs
  | retire id' retiredBy =>
    show (RetireREC (newStub env s) id' retiredBy).2.ledger _ = _
    unfold RetireREC
    cases hg : getToken (newStub env s) id' with
    | error e => simpa [Stub.ledger, newStub] using hs
    | ok token =>
      by_cases ho : token.OwnerID = retiredBy
      · by_cases hret : token.Status = "RETIRED"
        · simpa [ho, hret, Stub.ledger, newStub] using hs
        · have hne : "RECT_" ++ id ≠ "RECT_" ++ id' := by
            intro e
            have e' := tokenKey_inj e
            subst e'
            have := getToken_of_token (newStub env s) hs
            rw [hg] at this
            have : token = R := Except.ok.inj this
            rw [this] at hret
            exact hret hst
          simp [ho, hret, Stub.PutState, Stub.SetEvent, Stub.ledger, Stub.tick, newStub,
            Store.set, hne, hs]
      · simpa [ho, Stub.ledger, newStub] using hs

theorem execAll_keeps_retired {id : String} {R : RECToken}
    (h1 : ∀ r, id ≠ "OWNER_" ++ r) (h2 : ∀ r, id ≠ "TXF_" ++ r) (hst : R.Status = "RETIRED")
    (invs : List (Env × Call)) {s : Store} (hs : s ("RECT_" ++ id) = some (.token R)) :
    execAll s invs ("RECT_" ++ id) = some (.token R) := by
  induction invs generalizing s with
  | nil => exact hs
  | cons inv rest ih => exact ih (exec_keeps_retired h1 h2 hs hst inv)

/-- On a retired token every further IssueREC, TransferREC and RetireREC
fails. -/
theorem calls_on_retired_fail (env : Env) {s : Store} {id : String} {R : RECToken}
    (hs : s ("RECT_" ++ id) = some (.token R)) (hst : R.Status = "RETIRED") (c : Call)
    (hc : (∃ certID tradeID issuerID ownerID energySource quantity vintage location validUntil
          metadataHash, c = .issue id certID tradeID issuerID ownerID energySource quantity
            vintage location validUntil metadataHash) ∨
        (∃ fromID toID, c = .transfer id fromID toID) ∨ (∃ retiredBy, c = .retire id retiredBy)) :
    ∃ e, (c.run (newStub env s)).1 = .error e := by
  have hg : getToken (newStub env s) id = .ok R := getToken_of_token _ hs
  rcases hc with ⟨_, _, _, _, _, _, _, _, _, _, rfl⟩ | ⟨fromID, toID, rfl⟩ | ⟨retiredBy, rfl⟩
  · exact ⟨.tokenExists id, by simp [Call.run, IssueREC, Stub.GetState, newStub, hs]⟩
  · by_cases ho : R.OwnerID = fromID
    · exact ⟨.notTransferable R.Status, by simp [Call.run, TransferREC, hg, ho, hst]⟩
    · exact ⟨.notOwner R.OwnerID fromID, by simp [Call.run, TransferREC, hg, ho]⟩
  · by_cases ho : R.OwnerID = retiredBy
    · exact ⟨.alreadyRetired, by simp [Call.run, RetireREC, hg, ho, hst]⟩
    · exact ⟨.onlyOwnerRetires, by simp [Call.run, RetireREC, hg, ho]⟩

/-- Retirement is final for a token whose id begins neither with `OWNER_` nor
with `TXF_`: once `RetireREC(id, owner)` has succeeded, after every sequence of
later IssueREC, TransferREC and RetireREC calls `GetREC(id)` returns the record
it returned right after the retirement (owner `owner`, status RETIRED, the same
retiredAt and retiredBy), and IssueREC, TransferREC and RetireREC on `id`
fail. -/
theorem retirement_final_off_index (id owner : String) (h1 : ∀ r, id ≠ "OWNER_" ++ r)
    (h2 : ∀ r, id ≠ "TXF_" ++ r) (env : Env) (s : Store)
    (hok : (RetireREC (newStub env s) id owner).1 = .ok ()) (invs : List (Env × Call))
    (env' : Env) :
    ∃ R, R.Status = "RETIRED" ∧ R.OwnerID = owner ∧ R.RetiredBy = owner ∧
      R.RetiredAt = env.clock 0 ∧
      GetREC (newStub env' (exec s (env, .retire id owner))) id = .ok R ∧
      GetREC (newStub env' (execAll (exec s (env, .retire id owner)) invs)) id = .ok R ∧
      (∀ fromID toID, ∃ e, (TransferREC (newStub env'
        (execAll (exec s (env, .retire id owner)) invs)) id fromID toID).1 = .error e) ∧
      (∀ retiredBy, ∃ e, (RetireREC (newStub env'
        (execAll (exec s (env, .retire id owner)) invs)) id retiredBy).1 = .error e) ∧
      (∀ certID tradeID issuerID ownerID energySource quantity vintage location validUntil
        metadataHash, ∃ e, (IssueREC (newStub env'
          (execAll (exec s (env, .retire id owner)) invs)) id certID tradeID issuerID ownerID
          energySource quantity vintage location validUntil metadataHash).1 = .error e) := by
  obtain ⟨R, hR, hst, ho, hby, hat⟩ := RetireREC_stores_retired env s id owner hok
  have hR' := execAll_keeps_retired h1 h2 hst invs hR
  refine ⟨R, hst, ho, hby, hat, getToken_of_token _ hR, getToken_of_token _ hR', ?_, ?_, ?_⟩
  · intro fromID toID
    exact calls_on_retired_fail env' hR' hst (.transfer id fromID toID)
      (Or.inr (Or.inl ⟨_, _, rfl⟩))
  · intro retiredBy
    exact calls_on_retired_fail env' hR' hst (.retire id retiredBy) (Or.inr (Or.inr ⟨_, rfl⟩))
  · intro certID tradeID issuerID ownerID energySource quantity vintage location validUntil
      metadataHash
    exact calls_on_retired_fail env' hR' hst _ (Or.inl ⟨_, _, _, _, _, _, _, _, _, _, rfl⟩)

end REC

namespace DID

/-! ## Revocation and colliding keys -/

/-- C29 (the code departs from the claim): the DID `USER_x` is created and
revoked, and `VerifyDID("USER_x", k)` is invalid for every key `k`.  A later
`CreateDID` of a new DID `did` for the user `x` succeeds, and its reverse index
entry lands on the key of the revoked document: the bytes stored there are now
the raw text of `did`.  When that text is JSON that decodes to a document with
status ACTIVE, `VerifyDID("USER_x", k)` is valid for the public key `k` of
that document. -/
theorem revoked_did_verifies_again (decode : String → Option DIDDocument) (did : String)
    (doc : DIDDocument) (hnew : did ≠ "USER_x") (hne : did ≠ "") (hu0 : did ≠ "USER_u0")
    (hdec : decode did = some doc) (hst : doc.Status = "ACTIVE") :
    (RevokeDID (newStub (exampleEnv decode) (execAll emptyStore ((revokedRun decode).take 1)))
      "USER_x").1 = .ok () ∧
    (∀ k, (VerifyDID (newStub (exampleEnv decode) (execAll emptyStore (revokedRun decode)))
      "USER_x" k).Valid = false) ∧
    (CreateDID (newStub (exampleEnv decode) (execAll emptyStore (revokedRun decode)))
      did "x" "k1" "consumer" "Org1").1 = .ok () ∧
    (VerifyDID (newStub (exampleEnv decode)
        (execAll emptyStore (revokedRun decode ++ laterCreate decode did)))
      "USER_x" doc.PublicKey).Valid = true := by
  have hs1 : execAll emptyStore ((revokedRun decode).take 1) =
      (emptyStore.put "USER_x" (.document ⟨"USER_x", "u0", "k0", "Ed25519VerificationKey2020",
        "consumer", "Org1", "ACTIVE", "2024-01-01T00:00:00Z", "2024-01-01T00:00:00Z", []⟩)).put
        "USER_u0" (.raw "USER_x") := by
    with_unfolding_all rfl
  have hs2 : execAll emptyStore (revokedRun decode) =
      ((emptyStore.put "USER_x" (.document ⟨"USER_x", "u0", "k0", "Ed25519VerificationKey2020",
        "consumer", "Org1", "ACTIVE", "2024-01-01T00:00:00Z", "2024-01-01T00:00:00Z", []⟩)).put
        "USER_u0" (.raw "USER_x")).put "USER_x" (.document ⟨"USER_x", "u0", "k0",
          "Ed25519VerificationKey2020", "consumer", "Org1", "REVOKED", "2024-01-01T00:00:00Z",
          "2024-01-01T00:00:00Z", []⟩) := by
    with_unfolding_all rfl
  refine ⟨?_, ?_, ?_, ?_⟩
  · rw [hs1]
    with_unfolding_all rfl
  · intro k
    rw [hs2]
    with_unfolding_all rfl
  · rw [hs2]
    simp [CreateDID, Stub.GetState, newStub, Store.put, emptyStore, hnew, hu0, Stub.PutState,
      Stub.tick, hne]
  · have : execAll emptyStore (revokedRun decode ++ laterCreate decode did) =
        exec (execAll emptyStore (revokedRun decode))
          (exampleEnv decode, .create did "x" "k1" "consumer" "Org1") := by
      simp [execAll, laterCreate]
    rw [this, hs2]
    simp [exec, Call.run, CreateDID, Stub.GetState, newStub, Store.put, emptyStore, hnew, hu0,
      Stub.PutState, Stub.tick, hne, Stub.ledger, VerifyDID, GetDID, Stub.unmarshalDocument,
      exampleEnv, hdec, hst]

/-- Instance of C29: the later DID is the JSON text `craftedDID`, which decodes
to an ACTIVE document with public key `k`; after it is created for the user
`x`, the revoked DID `USER_x` verifies for `k`. -/
theorem revoked_did_verifies_again_witness :
    craftedDID ≠ "USER_x" ∧ craftedDID ≠ "" ∧ craftedDID ≠ "USER_u0" ∧
    craftedDecoder craftedDID = some craftedDocument ∧ craftedDocument.Status = "ACTIVE" ∧
    (VerifyDID (newStub (exampleEnv craftedDecoder)
        (execAll emptyStore (revokedRun craftedDecoder ++ laterCreate craftedDecoder craftedDID)))
      "USER_x" "k").Valid = true :=
  ⟨by decide, by decide, by decide, by decide, by decide,
    (revoked_did_verifies_again craftedDecoder craftedDID craftedDocument (by decide)
      (by decide) (by decide) (by decide) (by decide)).2.2.2⟩

/-! ## Revocation away from the colliding keys -/

theorem ledger_nil (env : Env) (s : Store) : (newStub env s).ledger = s := rfl

theorem userKey_ne_empty (u : String) : "USER_" ++ u ≠ "" := by
  intro h
  have := congrArg String.data h
  simp [String.data_append] at this

theorem GetDID_of_document (st : Stub) {d : String} {doc : DIDDocument}
    (h : st.state d = some (.document doc)) : GetDID st d = .ok doc := by
  simp [GetDID, Stub.GetState, h, Stub.unmarshalDocument]

/-- A revoked document never verifies. -/
theorem VerifyDID_of_revoked (env : Env) {s : Store} {d : String} {doc : DIDDocument}
    (h : s d = some (.document doc)) (hst : doc.Status = "REVOKED") (k : String) :
    (VerifyDID (newStub env s) d k).Valid = false := by
  have hg : GetDID (newStub env s) d = .ok doc := GetDID_of_document _ h
  simp [VerifyDID, hg, hst]

/-- A successful `RevokeDID` leaves a document with status REVOKED under the
DID. -/
theorem RevokeDID_stores_revoked (env : Env) (s : Store) (d : String)
    (hok : (RevokeDID (newStub env s) d).1 = .ok ()) :
    ∃ doc, exec s (env, .revoke d) d = some (.document doc) ∧ doc.Status = "REVOKED" := by
  show ∃ doc, (RevokeDID (newStub env s) d).2.ledger d = some (.document doc) ∧ _
  unfold RevokeDID at hok ⊢
  cases hg : GetDID (newStub env s) d with
  | error e => simp [hg] at hok
  | ok doc0 =>
    by_cases hd : d = ""
    · subst hd
      simp [hg, Stub.PutState] at hok
    · refine ⟨{ doc0 with Status := "REVOKED", UpdatedAt := (newStub env s).now }, ?_, rfl⟩
      simp [hg, Stub.PutState, hd, Stub.ledger, Stub.tick, newStub, Store.put]

/-- Every later call leaves a revoked document revoked, provided the DID is
not the key of a reverse index entry. -/
theorem exec_keeps_revoked {s : Store} {d : String} (hd : ∀ u, d ≠ "USER_" ++ u)
    (h : ∃ doc, s d = some (.document doc) ∧ doc.Status = "REVOKED") (inv : Env × Call) :
    ∃ doc, exec s inv d = some (.document doc) ∧ doc.Status = "REVOKED" := by
  obtain ⟨doc, hs, hst⟩ := h
  obtain ⟨env, c⟩ := inv
  cases c with
  | create d' userID publicKey role org =>
    show ∃ doc, (CreateDID (newStub env s) d' userID publicKey role org).2.ledger d = _ ∧ _
    unfold CreateDID
    cases hg : (newStub env s).GetState d' with
    | some b => exact ⟨doc, by simpa [ledger_nil] using hs, hst⟩
    | none =>
      have hne : d ≠ d' := by
        intro e
        rw [← e] at hg
        simp [Stub.GetState, newStub, hs] at hg
      by_cases he : d' = ""
      · exact ⟨doc, by simpa [Stub.PutState, he, Stub.ledger, Stub.tick, newStub] using hs, hst⟩
      · refine ⟨doc, ?_, hst⟩
        simp [Stub.PutState, he, Stub.ledger, Stub.tick, newStub, Store.put, hne, hd userID, hs,
          userKey_ne_empty]
  | addService d' serviceID serviceType endpoint =>
    show ∃ doc, (AddService (newStub env s) d' serviceID serviceType endpoint).2.ledger d = _ ∧ _
    unfold AddService
    cases hg : GetDID (newStub env s) d' with
    | error e => exact ⟨doc, by simpa [ledger_nil] using hs, hst⟩
    | ok doc0 =>
      by_cases he : d' = ""
      · exact ⟨doc, by simpa [Stub.PutState, he, Stub.ledger, Stub.tick, newStub] using hs, hst⟩
      · by_cases hdd : d = d'
        · subst hdd
          have : doc0 = doc := by
            have := GetDID_of_document (newStub env s) hs
            rw [hg] at this
            exact Except.ok.inj this
          subst this
          exact ⟨{ doc0 with
              Services := doc0.Services ++ [⟨serviceID, serviceType, endpoint⟩],
              UpdatedAt := (newStub env s).now },
            by simp [Stub.PutState, he, Stub.ledger, Stub.tick, newStub, Store.put], hst⟩
        · refine ⟨doc, ?_, hst⟩
          simp [Stub.PutState, he, Stub.ledger, Stub.tick, newStub, Store.put, hdd, hs]
  | revoke d' =>
    show ∃ doc, (RevokeDID (newStub env s) d').2.ledger d = _ ∧ _
    unfold RevokeDID
    cases hg : GetDID (newStub env s) d' with
    | error e => exact ⟨doc, by simpa [ledger_nil] using hs, hst⟩
    | ok doc0 =>
      by_cases he : d' = ""
      · exact ⟨doc, by simpa [Stub.PutState, he, Stub.ledger, Stub.tick, newStub] using hs, hst⟩
      · by_cases hdd : d = d'
        · subst hdd
          exact ⟨{ doc0 with Status := "REVOKED", UpdatedAt := (newStub env s).now },
            by simp [Stub.PutState, he, Stub.ledger, Stub.tick, newStub, Store.put], rfl⟩
        · refine ⟨doc, ?_, hst⟩
          simp [Stub.PutState, he, Stub.ledger, Stub.tick, newStub, Store.put, hdd, hs]

theorem execAll_keeps_revoked {d : String} (hd : ∀ u, d ≠ "USER_" ++ u)
    (invs : List (Env × Call)) {s : Store}
    (h : ∃ doc, s d = some (.document doc) ∧ doc.Status = "REVOKED") :
    ∃ doc, execAll s invs d = some (.document doc) ∧ doc.Status = "REVOKED" := by
  induction invs generalizing s with
  | nil => exact h
  | cons inv rest ih => exact ih (exec_keeps_revoked hd h inv)

/-- Revocation is permanent for a DID that does not begin with `USER_`: once
`RevokeDID(d)` has succeeded, `VerifyDID(d, k)` is invalid for every key `k`
after every sequence of later CreateDID, AddService and RevokeDID calls. -/
theorem revocation_permanent_off_index (d : String) (hd : ∀ u, d ≠ "USER_" ++ u) (env : Env)
    (s : Store) (hok : (RevokeDID (newStub env s) d).1 = .ok ()) (invs : List (Env × Call))
    (env' : Env) (k : String) :
    (VerifyDID (newStub env' (execAll (exec s (env, .revoke d)) invs)) d k).Valid = false := by
  obtain ⟨doc, h, hst⟩ :=
    execAll_keeps_revoked hd invs (RevokeDID_stores_revoked env s d hok)
  exact VerifyDID_of_revoked env' h hst k

end DID

/-! ## The EPC contract over binary64: atomicity, rounding, overflow

The theorems below are about the `float64` embedding `EPC.Float64`. -/

namespace EPC

namespace Float64

theorem getOrCreateBalance_quiet (st : Stub) (u : String) :
    (getOrCreateBalance st u).2.event = st.event ∧
    (getOrCreateBalance st u).2.writes = st.writes ∧
    (getOrCreateBalance st u).2.txID = st.txID := by
  unfold getOrCreateBalance
  split
  · exact ⟨rfl, rfl, rfl⟩
  · split <;> exact ⟨rfl, rfl, rfl⟩

theorem getSupply_quiet (st : Stub) :
    (getSupply st).2.event = st.event ∧ (getSupply st).2.writes = st.writes ∧
    (getSupply st).2.txID = st.txID := by
  unfold getSupply
  split
  · exact ⟨rfl, rfl, rfl⟩
  · split <;> exact ⟨rfl, rfl, rfl⟩

theorem saveBalance_cases (st : Stub) (b : TokenBalance) :
    saveBalance st b = (.error .balanceMarshal, st) ∨
    ∃ d, saveBalance st b = (.ok (), st.PutState ("BAL_" ++ b.UserID) d) := by
  unfold saveBalance
  split
  · exact Or.inl rfl
  · exact Or.inr ⟨_, rfl⟩

theorem Mint_atomic (st : Stub) (u : String) (amount : F64) (reason refID : String) :
    ((∃ e, (Mint st u amount reason refID).1 = .error e) ∧
      (Mint st u amount reason refID).2.event = st.event) ∨
    ((Mint st u amount reason refID).1 = .ok () ∧
      ∃ w, (Mint st u amount reason refID).2.writes.map Prod.fst =
        st.writes.map Prod.fst ++ ["BAL_" ++ w, "EPC_SUPPLY", "TX_" ++ st.txID]) := by
  unfold Mint
  split
  · exact Or.inl ⟨⟨_, rfl⟩, rfl⟩
  · obtain ⟨g1, g2, g3⟩ := getOrCreateBalance_quiet st u
    cases h1 : getOrCreateBalance st u with
    | mk r1 st1 =>
    rw [h1] at g1 g2 g3
    cases r1 with
    | error e => exact Or.inl ⟨⟨_, rfl⟩, g1⟩
    | ok balance =>
      simp only []
      rcases saveBalance_cases st1.tick
        { balance with Balance := balance.Balance.add amount, UpdatedAt := st1.now } with h2 | ⟨d1, h2⟩
      · rw [h2]
        exact Or.inl ⟨⟨_, rfl⟩, g1⟩
      · rw [h2]
        simp only []
        obtain ⟨k1, k2, k3⟩ := getSupply_quiet
          (st1.tick.PutState ("BAL_" ++ balance.UserID) d1)
        cases h3 : getSupply (st1.tick.PutState ("BAL_" ++ balance.UserID) d1) with
        | mk r3 st3 =>
        rw [h3] at k1 k2 k3
        cases r3 with
        | error e => exact Or.inl ⟨⟨_, rfl⟩, k1.trans g1⟩
        | ok supply =>
          simp only []
          split
          · exact Or.inl ⟨⟨_, rfl⟩, k1.trans g1⟩
          · split
            · exact Or.inl ⟨⟨_, rfl⟩, k1.trans g1⟩
            · refine Or.inr ⟨rfl, balance.UserID, ?_⟩
              simp [Stub.SetEvent, Stub.PutState, Stub.tick] at k2 k3 g2 g3 ⊢
              simp [k2, k3, g2, g3]

theorem Burn_atomic (st : Stub) (u : String) (amount : F64) (reason refID : String) :
    ((∃ e, (Burn st u amount reason refID).1 = .error e) ∧
      (Burn st u amount reason refID).2.event = st.event) ∨
    ((Burn st u amount reason refID).1 = .ok () ∧
      ∃ w, (Burn st u amount reason refID).2.writes.map Prod.fst =
        st.writes.map Prod.fst ++ ["BAL_" ++ w, "EPC_SUPPLY", "TX_" ++ st.txID]) := by
  unfold Burn
  split
  · exact Or.inl ⟨⟨_, rfl⟩, rfl⟩
  · obtain ⟨g1, g2, g3⟩ := getOrCreateBalance_quiet st u
    cases h1 : getOrCreateBalance st u with
    | mk r1 st1 =>
    rw [h1] at g1 g2 g3
    cases r1 with
    | error e => exact Or.inl ⟨⟨_, rfl⟩, g1⟩
    | ok balance =>
      simp only []
      split
      · exact Or.inl ⟨⟨_, rfl⟩, g1⟩
      · rcases saveBalance_cases st1.tick
          { balance with Balance := balance.Balance.sub amount, UpdatedAt := st1.now }
          with h2 | ⟨d1, h2⟩
        · rw [h2]
          exact Or.inl ⟨⟨_, rfl⟩, g1⟩
        · rw [h2]
          simp only []
          obtain ⟨k1, k2, k3⟩ := getSupply_quiet
            (st1.tick.PutState ("BAL_" ++ balance.UserID) d1)
          cases h3 : getSupply (st1.tick.PutState ("BAL_" ++ balance.UserID) d1) with
          | mk r3 st3 =>
          rw [h3] at k1 k2 k3
          cases r3 with
          | error e => exact Or.inl ⟨⟨_, rfl⟩, k1.trans g1⟩
          | ok supply =>
            simp only []
            split
            · exact Or.inl ⟨⟨_, rfl⟩, k1.trans g1⟩
            · split
              · exact Or.inl ⟨⟨_, rfl⟩, k1.trans g1⟩
              · refine Or.inr ⟨rfl, balance.UserID, ?_⟩
                simp [Stub.SetEvent, Stub.PutState, Stub.tick] at k2 k3 g2 g3 ⊢
                simp [k2, k3, g2, g3]

theorem Transfer_atomic (st : Stub) (a b : String) (amount : F64) (reason refID : String) :
    ((∃ e, (Transfer st a b amount reason refID).1 = .error e) ∧
      (Transfer st a b amount reason refID).2.event = st.event) ∨
    ((Transfer st a b amount reason refID).1 = .ok () ∧
      ∃ w1 w2, (Transfer st a b amount reason refID).2.writes.map Prod.fst =
        st.writes.map Prod.fst ++ ["BAL_" ++ w1, "BAL_" ++ w2, "TX_" ++ st.txID]) := by
  unfold Transfer
  split
  · exact Or.inl ⟨⟨_, rfl⟩, rfl⟩
  · split
    · exact Or.inl ⟨⟨_, rfl⟩, rfl⟩
    · obtain ⟨g1, g2, g3⟩ := getOrCreateBalance_quiet st a
      cases h1 : getOrCreateBalance st a with
      | mk r1 st1 =>
      rw [h1] at g1 g2 g3
      cases r1 with
      | error e => exact Or.inl ⟨⟨_, rfl⟩, g1⟩
      | ok fromBalance =>
        simp only []
        split
        · exact Or.inl ⟨⟨_, rfl⟩, g1⟩
        · obtain ⟨k1, k2, k3⟩ := getOrCreateBalance_quiet st1 b
          cases h3 : getOrCreateBalance st1 b with
          | mk r3 st3 =>
          rw [h3] at k1 k2 k3
          cases r3 with
          | error e => exact Or.inl ⟨⟨_, rfl⟩, k1.trans g1⟩
          | ok toBalance =>
            simp only []
            rcases saveBalance_cases st3.tick
              { fromBalance with Balance := fromBalance.Balance.sub amount, UpdatedAt := st3.now }
              with h4 | ⟨d1, h4⟩
            · rw [h4]
              exact Or.inl ⟨⟨_, rfl⟩, k1.trans g1⟩
            · rw [h4]
              simp only []
              rcases saveBalance_cases (st3.tick.PutState ("BAL_" ++ fromBalance.UserID) d1)
                { toBalance with Balance := toBalance.Balance.add amount, UpdatedAt := st3.now }
                with h5 | ⟨d2, h5⟩
              · rw [h5]
                exact Or.inl ⟨⟨_, rfl⟩, k1.trans g1⟩
              · rw [h5]
                simp only []
                split
                · exact Or.inl ⟨⟨_, rfl⟩, k1.trans g1⟩
                · refine Or.inr ⟨rfl, fromBalance.UserID, toBalance.UserID, ?_⟩
                  simp [Stub.SetEvent, Stub.PutState, Stub.tick] at k2 k3 g2 g3 ⊢
                  simp [k2, k3, g2, g3]

theorem Lock_atomic (st : Stub) (u : String) (amount : F64) (refID : String) :
    ((∃ e, (Lock st u amount refID).1 = .error e) ∧
      (Lock st u amount refID).2.event = st.event) ∨
    ((Lock st u amount refID).1 = .ok () ∧
      ∃ w, (Lock st u amount refID).2.writes.map Prod.fst =
        st.writes.map Prod.fst ++ ["BAL_" ++ w, "TX_" ++ st.txID]) := by
  unfold Lock
  split
  · exact Or.inl ⟨⟨_, rfl⟩, rfl⟩
  · obtain ⟨g1, g2, g3⟩ := getOrCreateBalance_quiet st u
    cases h1 : getOrCreateBalance st u with
    | mk r1 st1 =>
    rw [h1] at g1 g2 g3
    cases r1 with
    | error e => exact Or.inl ⟨⟨_, rfl⟩, g1⟩
    | ok balance =>
      simp only []
      split
      · exact Or.inl ⟨⟨_, rfl⟩, g1⟩
      · rcases saveBalance_cases st1.tick
          { balance with LockedBalance := balance.LockedBalance.add amount,
                         UpdatedAt := st1.now }
          with h2 | ⟨d1, h2⟩
        · rw [h2]
          exact Or.inl ⟨⟨_, rfl⟩, g1⟩
        · rw [h2]
          refine Or.inr ⟨rfl, balance.UserID, ?_⟩
          simp [Stub.SetEvent, Stub.PutState, Stub.tick] at g2 g3 ⊢
          simp [g2, g3]

theorem Unlock_atomic (st : Stub) (u : String) (amount : F64) (refID : String) :
    ((∃ e, (Unlock st u amount refID).1 = .error e) ∧
      (Unlock st u amount refID).2.event = st.event) ∨
    ((Unlock st u amount refID).1 = .ok () ∧
      ∃ w, (Unlock st u amount refID).2.writes.map Prod.fst =
        st.writes.map Prod.fst ++ ["BAL_" ++ w, "TX_" ++ st.txID]) := by
  unfold Unlock
  split
  · exact Or.inl ⟨⟨_, rfl⟩, rfl⟩
  · obtain ⟨g1, g2, g3⟩ := getOrCreateBalance_quiet st u
    cases h1 : getOrCreateBalance st u with
    | mk r1 st1 =>
    rw [h1] at g1 g2 g3
    cases r1 with
    | error e => exact Or.inl ⟨⟨_, rfl⟩, g1⟩
    | ok balance =>
      simp only []
      split
      · exact Or.inl ⟨⟨_, rfl⟩, g1⟩
      · rcases saveBalance_cases st1.tick
          { balance with LockedBalance := balance.LockedBalance.sub amount,
                         UpdatedAt := st1.now }
          with h2 | ⟨d1, h2⟩
        · rw [h2]
          exact Or.inl ⟨⟨_, rfl⟩, g1⟩
        · rw [h2]
          refine Or.inr ⟨rfl, balance.UserID, ?_⟩
          simp [Stub.SetEvent, Stub.PutState, Stub.tick] at g2 g3 ⊢
          simp [g2, g3]

theorem SetPrice_atomic (st : Stub) (priceID source : String) (price : F64)
    (currency : String) (basketPrice : F64) (timestamp : String) :
    ((∃ e, (SetPrice st priceID source price currency basketPrice timestamp).1 = .error e) ∧
      (SetPrice st priceID source price currency basketPrice timestamp).2.event = st.event) ∨
    ((SetPrice st priceID source price currency basketPrice timestamp).1 = .ok () ∧
      (SetPrice st priceID source price currency basketPrice timestamp).2.event = st.event ∧
      (SetPrice st priceID source price currency basketPrice timestamp).2.writes.map Prod.fst =
        st.writes.map Prod.fst ++ ["PRICE_" ++ priceID, "EPC_LATEST_PRICE", "EPC_SUPPLY"]) := by
  unfold SetPrice
  split
  · exact Or.inl ⟨⟨_, rfl⟩, rfl⟩
  · split
    · exact Or.inl ⟨⟨_, rfl⟩, rfl⟩
    · simp only []
      split
      · exact Or.inl ⟨⟨_, rfl⟩, rfl⟩
      · rename_i _ d1 _
        obtain ⟨k1, k2, k3⟩ := getSupply_quiet
          ((st.tick.PutState ("PRICE_" ++ priceID) d1).PutState "EPC_LATEST_PRICE" d1)
        cases h3 : getSupply
            ((st.tick.PutState ("PRICE_" ++ priceID) d1).PutState "EPC_LATEST_PRICE" d1) with
        | mk r3 st3 =>
        rw [h3] at k1 k2 k3
        cases r3 with
        | error e => exact Or.inl ⟨⟨_, rfl⟩, k1⟩
        | ok supply =>
          simp only []
          split
          · exact Or.inl ⟨⟨_, rfl⟩, k1⟩
          · refine Or.inr ⟨rfl, k1, ?_⟩
            simp [Stub.PutState, Stub.tick] at k2 ⊢
            simp [k2]

theorem finite_of_add_toJSON {x y : F64} {v : JSONValue} (h : (x.add y).toJSON = some v) :
    ∃ q, y = .finite q := by
  cases x <;> cases y <;> simp [F64.add, F64.toJSON] at h ⊢

theorem finite_of_sub_toJSON {x y : F64} {v : JSONValue} (h : (x.sub y).toJSON = some v) :
    ∃ q, y = .finite q := by
  cases x <;> cases y <;> simp [F64.sub, F64.neg, F64.add, F64.toJSON] at h ⊢

theorem saveBalance_ok_marshal {st st' : Stub} {b : TokenBalance}
    (h : saveBalance st b = (.ok (), st')) : ∃ d, b.marshal = some d := by
  unfold saveBalance at h
  split at h
  · cases h
  · exact ⟨_, by assumption⟩

theorem marshal_some_locked {b : TokenBalance} {d : Doc} (h : b.marshal = some d) :
    ∃ v, b.LockedBalance.toJSON = some v := by
  unfold TokenBalance.marshal at h
  split at h
  · exact ⟨_, by assumption⟩
  · cases h

/-- A `Lock` that succeeds was given a finite amount, so the log entry it
builds encodes: the ignored error of `json.Marshal(tx)` (line 394) never
arises. -/
theorem Lock_amount_finite (st : Stub) (u : String) (amount : F64) (refID : String)
    (hok : (Lock st u amount refID).1 = .ok ()) : ∃ q, amount = .finite q := by
  unfold Lock at hok
  split at hok
  · cases hok
  · cases h1 : getOrCreateBalance st u with
    | mk r1 st1 =>
    rw [h1] at hok
    cases r1 with
    | error e => cases hok
    | ok balance =>
      simp only [] at hok
      split at hok
      · cases hok
      · rcases saveBalance_cases st1.tick
          { balance with LockedBalance := balance.LockedBalance.add amount,
                         UpdatedAt := st1.now }
          with h2 | ⟨d1, h2⟩
        · rw [h2] at hok
          cases hok
        · obtain ⟨d, hd⟩ := saveBalance_ok_marshal h2
          obtain ⟨v, hv⟩ := marshal_some_locked hd
          exact finite_of_add_toJSON hv

/-- A `Unlock` that succeeds was given a finite amount (the ignored error of
line 435 never arises). -/
theorem Unlock_amount_finite (st : Stub) (u : String) (amount : F64) (refID : String)
    (hok : (Unlock st u amount refID).1 = .ok ()) : ∃ q, amount = .finite q := by
  unfold Unlock at hok
  split at hok
  · cases hok
  · cases h1 : getOrCreateBalance st u with
    | mk r1 st1 =>
    rw [h1] at hok
    cases r1 with
    | error e => cases hok
    | ok balance =>
      simp only [] at hok
      split at hok
      · cases hok
      · rcases saveBalance_cases st1.tick
          { balance with LockedBalance := balance.LockedBalance.sub amount,
                         UpdatedAt := st1.now }
          with h2 | ⟨d1, h2⟩
        · rw [h2] at hok
          cases hok
        · obtain ⟨d, hd⟩ := saveBalance_ok_marshal h2
          obtain ⟨v, hv⟩ := marshal_some_locked hd
          exact finite_of_sub_toJSON hv

theorem failure_eq_some {r : Except EPCError Unit × Stub} {e : EPCError}
    (h : failure r = some e) : r.1 = .error e := by
  unfold failure at h
  split at h
  · cases h
  · rename_i err heq
    rw [heq, Option.some.inj h]

theorem succeeded_eq_true {r : Except EPCError Unit × Stub}
    (h : succeeded r = true) : r.1 = .ok () := by
  unfold succeeded at h
  split at h
  · rename_i u heq
    rw [heq]
  · cases h

theorem Call.atomic (c : Call) (st : Stub) :
    ((∃ e, (c.run st).1 = .error e) ∧ (c.run st).2.event = st.event) ∨
    (c.run st).1 = .ok () := by
  cases c with
  | setPrice priceID source price currency basketPrice timestamp =>
    rcases SetPrice_atomic st priceID source price currency basketPrice timestamp with h | h
    · exact Or.inl h
    · exact Or.inr h.1
  | mint u amount reason refID =>
    rcases Mint_atomic st u amount reason refID with h | h
    · exact Or.inl h
    · exact Or.inr h.1
  | burn u amount reason refID =>
    rcases Burn_atomic st u amount reason refID with h | h
    · exact Or.inl h
    · exact Or.inr h.1
  | transfer a b amount reason refID =>
    rcases Transfer_atomic st a b amount reason refID with h | h
    · exact Or.inl h
    · exact Or.inr h.1
  | lock u amount refID =>
    rcases Lock_atomic st u amount refID with h | h
    · exact Or.inl h
    · exact Or.inr h.1
  | unlock u amount refID =>
    rcases Unlock_atomic st u amount refID with h | h
    · exact Or.inl h
    · exact Or.inr h.1

/-! ### Atomicity of errors -/

/-- C12: errors are atomic.  For each of SetPrice, Mint, Burn, Transfer, Lock
and Unlock (the call `c`), for amounts of any `float64` value and for every
prior store content `s`, whatever the bytes under `EPC_SUPPLY` or under a
`BAL_` key decode to or fail to decode to: if the operation returns an error,
the world state after the invocation is `s`, so no key has been written, no
event is delivered and the operation has set none.  If it returns no error,
the world state holds all of its writes, and for Mint and Burn these are the
balance record, `EPC_SUPPLY` and the log entry: no outcome changes an account
balance without the Supply record, or the Supply record without the
balance. -/
theorem errors_are_atomic (env : Env) (s : Store) (c : Call) :
    (∀ e, (c.run (newStub env s)).1 = .error e →
      exec s (env, c) = s ∧ delivered (c.run (newStub env s)) = none ∧
      (c.run (newStub env s)).2.event = none) ∧
    ((c.run (newStub env s)).1 = .ok () →
      exec s (env, c) = (c.run (newStub env s)).2.ledger ∧
      ∀ u amount reason refID,
        c = .mint u amount reason refID ∨ c = .burn u amount reason refID →
        ∃ w, (c.run (newStub env s)).2.writes.map Prod.fst =
          ["BAL_" ++ w, "EPC_SUPPLY", "TX_" ++ env.txID]) := by
  constructor
  · intro e he
    refine ⟨?_, ?_, ?_⟩
    · show commit s (c.run (newStub env s)) = s
      unfold commit
      rw [he]
    · unfold delivered
      rw [he]
    · rcases Call.atomic c (newStub env s) with ⟨-, h⟩ | h
      · exact h
      · rw [he] at h
        cases h
  · intro hok
    refine ⟨?_, ?_⟩
    · show commit s (c.run (newStub env s)) = _
      unfold commit
      rw [hok]
    · intro u amount reason refID hc
      rcases hc with rfl | rfl
      · rcases Mint_atomic (newStub env s) u amount reason refID with ⟨⟨e, he⟩, -⟩ | ⟨-, w, hw⟩
        · exact absurd (he.symm.trans hok) (by simp)
        · exact ⟨w, by simpa using hw⟩
      · rcases Burn_atomic (newStub env s) u amount reason refID with ⟨⟨e, he⟩, -⟩ | ⟨-, w, hw⟩
        · exact absurd (he.symm.trans hok) (by simp)
        · exact ⟨w, by simpa using hw⟩

set_option maxRecDepth 100000 in
/-- Instances of C12.  Where alice and bob hold 1e308 each, the transfer of
1e308 from alice to bob writes the record of alice and then fails to encode the
record of bob, whose balance is an infinity: the world state is as before.  On
a store whose `EPC_SUPPLY` bytes do not decode, minting 100 to alice writes
her balance and then fails to read the supply: the world state is as before
and no event is delivered.  On the empty ledger, minting 1 to alice succeeds
and writes the three records together. -/
theorem errors_are_atomic_witness :
    ((Transfer (newStub (exampleEnv "tx3") twoHuge) "alice" "bob" e308 "pay" "").1 =
        .error .balanceMarshal ∧
      (Transfer (newStub (exampleEnv "tx3") twoHuge) "alice" "bob" e308 "pay" "").2.writes.map
        Prod.fst = ["BAL_alice"] ∧
      exec twoHuge (exampleEnv "tx3", .transfer "alice" "bob" e308 "pay" "") = twoHuge) ∧
    ((Mint (newStub (exampleEnv "tx1") corruptSupply) "alice" (.finite 100) "reward" "").1 =
        .error .supplyDecode ∧
      (Mint (newStub (exampleEnv "tx1") corruptSupply) "alice" (.finite 100) "reward"
        "").2.writes.map Prod.fst = ["BAL_alice"] ∧
      exec corruptSupply (exampleEnv "tx1", .mint "alice" (.finite 100) "reward" "") =
        corruptSupply ∧
      delivered (Mint (newStub (exampleEnv "tx1") corruptSupply) "alice" (.finite 100)
        "reward" "") = none) ∧
    ((Mint (newStub (exampleEnv "tx1") emptyStore) "alice" one "reward" "").1 = .ok () ∧
      ∃ w, (Mint (newStub (exampleEnv "tx1") emptyStore) "alice" one "reward"
        "").2.writes.map Prod.fst = ["BAL_" ++ w, "EPC_SUPPLY", "TX_tx1"]) :=
  ⟨⟨failure_eq_some (by decide!), by decide!,
      ((errors_are_atomic (exampleEnv "tx3") twoHuge
        (.transfer "alice" "bob" e308 "pay" "")).1
        .balanceMarshal (failure_eq_some (by decide!))).1⟩,
    ⟨failure_eq_some (by decide!), by decide!,
      ((errors_are_atomic (exampleEnv "tx1") corruptSupply
        (.mint "alice" (.finite 100) "reward" "")).1
        .supplyDecode (failure_eq_some (by decide!))).1,
      ((errors_are_atomic (exampleEnv "tx1") corruptSupply
        (.mint "alice" (.finite 100) "reward" "")).1
        .supplyDecode (failure_eq_some (by decide!))).2.1⟩,
    ⟨succeeded_eq_true (by decide!),
      ((errors_are_atomic (exampleEnv "tx1") emptyStore (.mint "alice" one "reward" "")).2
        (succeeded_eq_true (by decide!))).2 "alice" one "reward" "" (Or.inl rfl)⟩⟩

/-! ### Rounding and overflow in the token operations -/

set_option maxRecDepth 100000 in
/-- Worked instance: the literals `1e16` and `1` are the numbers they name,
`1e308` is the nearest `float64` to 10^308; `1e16 + 1`, `1 + 1e16` and
`1e16 - 1` are all `1e16`, and `1e308 + 1e308` is `+Inf`. -/
theorem literal_values :
    e16 = .finite (10 ^ 16) ∧ one = .finite 1 ∧ e308 = .finite (156575653125701 * 2 ^ 976) ∧
    F64.add e16 one = e16 ∧ F64.sub e16 one = e16 ∧ F64.add one e16 = e16 ∧
    F64.add e308 e308 = .posInf := by
  decide!

set_option maxRecDepth 100000 in
/-- Worked instance: the rounding of the decimals 0.1, 0.2 and 0.3, of the sum
`0.1 + 0.2` (which is not the `float64` of 0.3), of a half-way case at the
integers (`2 ^ 53 + 1` goes to the even neighbour, `2 ^ 53 + 3` as well), at
the largest finite value and in the subnormal range. -/
theorem rounding_examples :
    F64.round (1 / 10) = .finite (3602879701896397 / 2 ^ 55) ∧
    F64.round (2 / 10) = .finite (3602879701896397 / 2 ^ 54) ∧
    F64.round (3 / 10) = .finite (5404319552844595 / 2 ^ 54) ∧
    F64.add (F64.round (1 / 10)) (F64.round (2 / 10)) = .finite (1351079888211149 / 2 ^ 52) ∧
    F64.round (2 ^ 53 + 1) = .finite (2 ^ 53) ∧
    F64.round (2 ^ 53 + 3) = .finite (2 ^ 53 + 4) ∧
    F64.round (2 ^ 1024 - 2 ^ 970) = .posInf ∧
    F64.round (2 ^ 1024 - 2 ^ 970 - 1) = .finite (2 ^ 1024 - 2 ^ 971) ∧
    F64.round (-(2 ^ 1024)) = .negInf ∧
    F64.round (1 / 2 ^ 1075) = .finite 0 ∧
    F64.round (3 / 2 ^ 1075) = .finite (1 / 2 ^ 1073) ∧
    F64.round (1 / 2 ^ 1074) = .finite (1 / 2 ^ 1074) := by
  decide!

set_option maxRecDepth 100000 in
/-- C2 (counterexample): in `float64` arithmetic Mint does not always succeed
and does not always add the amount.  In the ledger where alice holds 1e16,
`Mint("alice", 1, "reward", "")`, whose amount is above 0, succeeds and leaves
her balance at 1e16 rather than 1e16 + 1, and `totalSupply` and `totalMinted`
at 1e16 as well.  In the ledger where alice holds 1e308,
`Mint("alice", 1e308, "reward", "")` fails: the new balance is an infinity,
which `saveBalance` cannot encode. -/
theorem Mint_does_not_add_exactly :
    F64.lt .zero one = true ∧
    balanceOf afterBigMint "alice" = some (.finite (10 ^ 16)) ∧
    totalsOf afterBigMint = some (.finite (10 ^ 16), .finite (10 ^ 16), .finite 0) ∧
    succeeded (Mint (newStub (exampleEnv "tx2") afterBigMint) "alice" one "reward" "") = true ∧
    balanceOf (exec afterBigMint (exampleEnv "tx2", .mint "alice" one "reward" "")) "alice" =
      some (.finite (10 ^ 16)) ∧
    totalsOf (exec afterBigMint (exampleEnv "tx2", .mint "alice" one "reward" "")) =
      some (.finite (10 ^ 16), .finite (10 ^ 16), .finite 0) ∧
    F64.lt .zero e308 = true ∧
    balanceOf afterHugeMint "alice" = some e308 ∧
    failure (Mint (newStub (exampleEnv "tx2") afterHugeMint) "alice" e308 "reward" "") =
      some .balanceMarshal := by
  decide!

set_option maxRecDepth 100000 in
/-- C6 (counterexample): in `float64` arithmetic a successful Transfer does not
always conserve the two balances.  Where alice holds 1e16 and bob holds 1,
`Transfer("alice", "bob", 1, "pay", "")` succeeds, the balance of alice stays
1e16 and the balance of bob becomes 2: the sum has grown by 1. -/
theorem Transfer_does_not_conserve :
    balanceOf bigAndSmall "alice" = some (.finite (10 ^ 16)) ∧
    balanceOf bigAndSmall "bob" = some (.finite 1) ∧
    succeeded (Transfer (newStub (exampleEnv "tx3") bigAndSmall) "alice" "bob" one "pay" "")
      = true ∧
    balanceOf (exec bigAndSmall (exampleEnv "tx3", .transfer "alice" "bob" one "pay" ""))
      "alice" = some (.finite (10 ^ 16)) ∧
    balanceOf (exec bigAndSmall (exampleEnv "tx3", .transfer "alice" "bob" one "pay" ""))
      "bob" = some (.finite 2) := by
  decide!

set_option maxRecDepth 100000 in
/-- C7 (counterexample): in `float64` arithmetic the three conditions are not
the only failures of Transfer, and the third does not always fail it.  Where
alice holds 1e16 with 1 locked, `Transfer("alice", "bob", 1e16, "pay", "")`
succeeds although the balance minus the locked balance is below 1e16; it
leaves alice with balance 0 and 1 locked.  Where alice and bob hold 1e308 each
with nothing locked, `Transfer("alice", "bob", 1e308, "pay", "")` fails
although the amount is above 0, the accounts differ and the available balance
covers the amount: the new balance of bob is an infinity, which `saveBalance`
cannot encode. -/
theorem Transfer_passes_rounded_guard :
    balanceOf bigWithLock "alice" = some (.finite (10 ^ 16)) ∧
    lockedOf bigWithLock "alice" = some (.finite 1) ∧
    ((10 : ℚ) ^ 16 - 1 < 10 ^ 16) ∧
    succeeded (Transfer (newStub (exampleEnv "tx3") bigWithLock) "alice" "bob" e16 "pay" "")
      = true ∧
    balanceOf (exec bigWithLock (exampleEnv "tx3", .transfer "alice" "bob" e16 "pay" ""))
      "alice" = some (.finite 0) ∧
    lockedOf (exec bigWithLock (exampleEnv "tx3", .transfer "alice" "bob" e16 "pay" ""))
      "alice" = some (.finite 1) ∧
    balanceOf twoHuge "alice" = some e308 ∧ balanceOf twoHuge "bob" = some e308 ∧
    lockedOf twoHuge "alice" = some (.finite 0) ∧
    F64.lt .zero e308 = true ∧
    failure (Transfer (newStub (exampleEnv "tx3") twoHuge) "alice" "bob" e308 "pay" "") =
      some .balanceMarshal := by
  decide!

set_option maxRecDepth 100000 in
/-- C8 (counterexample): in `float64` arithmetic Lock does not always fail when
the available balance is below the amount.  Where alice holds 1e16 with 1
locked, `Lock("alice", 1e16, "order2")` succeeds although the balance minus the
locked balance is below 1e16, and her locked balance becomes 1e16, not
1 + 1e16. -/
theorem Lock_passes_rounded_guard :
    balanceOf bigWithLock "alice" = some (.finite (10 ^ 16)) ∧
    lockedOf bigWithLock "alice" = some (.finite 1) ∧
    ((10 : ℚ) ^ 16 - 1 < 10 ^ 16) ∧
    F64.lt .zero e16 = true ∧
    succeeded (Lock (newStub (exampleEnv "tx3") bigWithLock) "alice" e16 "order2") = true ∧
    lockedOf (exec bigWithLock (exampleEnv "tx3", .lock "alice" e16 "order2")) "alice" =
      some (.finite (10 ^ 16)) := by
  decide!

theorem add_of_exact {x y : ℚ} (h : Exact (x + y) = true) :
    F64.add (.finite x) (.finite y) = .finite (x + y) := by
  simpa [Exact, F64.add] using h

theorem sub_of_exact {x y : ℚ} (h : Exact (x - y) = true) :
    F64.sub (.finite x) (.finite y) = .finite (x - y) := by
  have h2 : F64.round (x + -y) = .finite (x - y) := by
    rw [← sub_eq_add_neg]
    simpa [Exact] using h
  simpa [F64.sub, F64.neg, F64.add] using h2

theorem setFloat_of_exact {v : JSONValue} (hv : exactValue v = true) (old : ℚ) :
    setFloat v (.finite old) = (setNumber v old).map F64.finite := by
  cases v with
  | number q =>
    have h : F64.round q = .finite q := by simpa [exactValue, Exact] using hv
    simp [setFloat, setNumber, h]
  | null => rfl
  | string s => rfl
  | other => rfl

theorem balance_setField_of_exact (b : EPC.TokenBalance) {kv : String × JSONValue}
    (hv : exactValue kv.2 = true) :
    TokenBalance.setField (ofBalance b) kv = (EPC.TokenBalance.setField b kv).map ofBalance := by
  unfold TokenBalance.setField EPC.TokenBalance.setField
  split_ifs
  · cases h : setString kv.2 b.UserID <;> simp [ofBalance, h]
  · simp only [ofBalance, setFloat_of_exact hv]
    cases h : setNumber kv.2 b.Balance <;> simp [ofBalance]
  · simp only [ofBalance, setFloat_of_exact hv]
    cases h : setNumber kv.2 b.LockedBalance <;> simp [ofBalance]
  · cases h : setString kv.2 b.UpdatedAt <;> simp [ofBalance, h]
  · rfl

theorem balance_fold_of_exact (fs : List (String × JSONValue))
    (hfs : fs.all (fun kv => exactValue kv.2) = true) (b : EPC.TokenBalance) :
    fs.foldlM TokenBalance.setField (ofBalance b) =
      (fs.foldlM EPC.TokenBalance.setField b).map ofBalance := by
  induction fs generalizing b with
  | nil => rfl
  | cons kv rest ih =>
    simp only [List.all_cons, Bool.and_eq_true] at hfs
    simp only [List.foldlM_cons, balance_setField_of_exact b hfs.1]
    cases h : EPC.TokenBalance.setField b kv with
    | none => rfl
    | some b1 => exact ih hfs.2 b1

theorem balance_unmarshal_of_exact {d : Doc} (hd : exactDoc d = true) :
    TokenBalance.unmarshal d = (EPC.TokenBalance.unmarshal d).map ofBalance := by
  cases d with
  | object fs => exact balance_fold_of_exact fs hd ⟨"", 0, 0, ""⟩
  | null => rfl
  | undecodable => rfl

theorem supply_setField_of_exact (s : EPC.TokenSupply) {kv : String × JSONValue}
    (hv : exactValue kv.2 = true) :
    TokenSupply.setField (ofSupply s) kv = (EPC.TokenSupply.setField s kv).map ofSupply := by
  unfold TokenSupply.setField EPC.TokenSupply.setField
  split_ifs
  · simp only [ofSupply, setFloat_of_exact hv]
    cases h : setNumber kv.2 s.TotalSupply <;> simp [ofSupply]
  · simp only [ofSupply, setFloat_of_exact hv]
    cases h : setNumber kv.2 s.TotalMinted <;> simp [ofSupply]
  · simp only [ofSupply, setFloat_of_exact hv]
    cases h : setNumber kv.2 s.TotalBurned <;> simp [ofSupply]
  · simp only [ofSupply, setFloat_of_exact hv]
    cases h : setNumber kv.2 s.CurrentPrice <;> simp [ofSupply]
  · cases h : setString kv.2 s.UpdatedAt <;> simp [ofSupply, h]
  · rfl

theorem supply_fold_of_exact (fs : List (String × JSONValue))
    (hfs : fs.all (fun kv => exactValue kv.2) = true) (s : EPC.TokenSupply) :
    fs.foldlM TokenSupply.setField (ofSupply s) =
      (fs.foldlM EPC.TokenSupply.setField s).map ofSupply := by
  induction fs generalizing s with
  | nil => rfl
  | cons kv rest ih =>
    simp only [List.all_cons, Bool.and_eq_true] at hfs
    simp only [List.foldlM_cons, supply_setField_of_exact s hfs.1]
    cases h : EPC.TokenSupply.setField s kv with
    | none => rfl
    | some s1 => exact ih hfs.2 s1

theorem supply_unmarshal_of_exact {d : Doc} (hd : exactDoc d = true) :
    TokenSupply.unmarshal d = (EPC.TokenSupply.unmarshal d).map ofSupply := by
  cases d with
  | object fs => exact supply_fold_of_exact fs hd ⟨0, 0, 0, 0, ""⟩
  | null => rfl
  | undecodable => rfl

theorem getOrCreateBalance_of_exact (st : Stub) (hst : ExactStore st.state) (u : String) :
    getOrCreateBalance st u =
      match EPC.getOrCreateBalance st u with
      | (.ok b, st1) => (.ok (ofBalance b), st1)
      | (.error _, st1) => (.error .balanceDecode, st1) := by
  unfold getOrCreateBalance EPC.getOrCreateBalance
  cases h : st.GetState ("BAL_" ++ u) with
  | none => rfl
  | some d =>
    simp only [balance_unmarshal_of_exact (hst _ _ h)]
    cases EPC.TokenBalance.unmarshal d <;> rfl

theorem getSupply_of_exact (st : Stub) (hst : ExactStore st.state) :
    getSupply st =
      match EPC.getSupply st with
      | (.ok sup, st1) => (.ok (ofSupply sup), st1)
      | (.error _, st1) => (.error .supplyDecode, st1) := by
  unfold getSupply EPC.getSupply
  cases h : st.GetState "EPC_SUPPLY" with
  | none => rfl
  | some d =>
    simp only [supply_unmarshal_of_exact (hst _ _ h)]
    cases EPC.TokenSupply.unmarshal d <;> rfl

theorem read_balance (st : Stub) (u : String) :
    EPC.getOrCreateBalance st u = (.error .balanceDecode, st) ∨
    ∃ b st1, EPC.getOrCreateBalance st u = (.ok b, st1) ∧ st1.state = st.state ∧
      st1.writes = st.writes ∧
      ∃ b0, balanceRecord st.state u = some b0 ∧ b0.Balance = b.Balance ∧
        b0.LockedBalance = b.LockedBalance := by
  rw [balanceRecord_eq]
  unfold EPC.getOrCreateBalance
  simp only [Stub.GetState]
  cases h : st.state ("BAL_" ++ u) with
  | none => exact Or.inr ⟨_, _, rfl, rfl, rfl, _, rfl, rfl, rfl⟩
  | some d =>
    simp only []
    cases hd : EPC.TokenBalance.unmarshal d with
    | none => exact Or.inl rfl
    | some b => exact Or.inr ⟨_, _, rfl, rfl, rfl, _, rfl, rfl, rfl⟩

theorem read_supply (st : Stub) :
    EPC.getSupply st = (.error .supplyDecode, st) ∨
    ∃ sup st1, EPC.getSupply st = (.ok sup, st1) ∧ st1.state = st.state ∧
      ∃ sup0, supplyOf st.state = some sup0 ∧ sup0.TotalSupply = sup.TotalSupply ∧
        sup0.TotalMinted = sup.TotalMinted ∧ sup0.TotalBurned = sup.TotalBurned := by
  rw [supplyOf_eq]
  unfold EPC.getSupply
  simp only [Stub.GetState]
  cases h : st.state "EPC_SUPPLY" with
  | none => exact Or.inr ⟨_, _, rfl, rfl, _, rfl, rfl, rfl, rfl⟩
  | some d =>
    simp only []
    cases hd : EPC.TokenSupply.unmarshal d with
    | none => exact Or.inl rfl
    | some b => exact Or.inr ⟨_, _, rfl, rfl, _, rfl, rfl, rfl, rfl⟩

/-- Where the numbers of the store, the new balance and the new totals are
`float64` values, `Mint` over `float64` leaves the stub that `Mint` over exact
decimals leaves, with the same verdict. -/
theorem Mint_agrees (st : Stub) (u : String) (q : ℚ) (reason refID : String)
    (hst : ExactStore st.state)
    (hb : ∀ b, balanceRecord st.state u = some b → Exact (b.Balance + q) = true)
    (hs : ∀ sup, supplyOf st.state = some sup →
      Exact (sup.TotalSupply + q) = true ∧ Exact (sup.TotalMinted + q) = true) :
    (Mint st u (.finite q) reason refID).2 = (EPC.Mint st u q reason refID).2 ∧
    verdict (Mint st u (.finite q) reason refID).1 =
      exactVerdict (EPC.Mint st u q reason refID).1 := by
  unfold Mint EPC.Mint
  by_cases hq : q ≤ 0
  · simp [F64.le, F64.zero, hq, verdict, exactVerdict, EPCError.isInsufficientFunds,
      EPCError.isInsufficientLock, EPC.EPCError.isInsufficientFunds,
      EPC.EPCError.isInsufficientLock]
  · simp only [F64.le, F64.zero, hq, decide_False, if_false, Bool.false_eq_true]
    rw [getOrCreateBalance_of_exact st hst u]
    rcases read_balance st u with h | ⟨b, st1, h, hs1, hw1, b0, hb0, e1, e2⟩
    · rw [h]
      exact ⟨rfl, rfl⟩
    · rw [h]
      have hb1 := hb b0 hb0
      rw [e1] at hb1
      simp only [ofBalance, add_of_exact hb1, saveBalance, TokenBalance.marshal, F64.toJSON,
        EPC.saveBalance, EPC.TokenBalance.marshal]
      generalize hst2 : st1.tick.PutState ("BAL_" ++ b.UserID) _ = st2
      have hs2 : st2.state = st.state := by
        rw [← hst2]
        exact hs1
      rw [getSupply_of_exact st2 (hs2 ▸ hst)]
      rcases read_supply st2 with h2 | ⟨sup, st3, h2, hs3, sup0, hsup0, e3, e4, e5⟩
      · rw [h2]
        exact ⟨rfl, rfl⟩
      · rw [h2]
        rw [hs2] at hsup0
        obtain ⟨hx1, hx2⟩ := hs sup0 hsup0
        rw [e3] at hx1
        rw [e4] at hx2
        simp only [ofSupply, add_of_exact hx1, add_of_exact hx2, TokenSupply.marshal,
          F64.toJSON, TokenTransaction.marshal, EPC.TokenSupply.marshal,
          EPC.TokenTransaction.marshal]
        constructor <;> trivial

/-- Where the numbers of the store, the new balance and the new totals are
`float64` values, `Burn` over `float64` leaves the stub that `Burn` over exact
decimals leaves, with the same verdict. -/
theorem Burn_agrees (st : Stub) (u : String) (q : ℚ) (reason refID : String)
    (hst : ExactStore st.state)
    (hb : ∀ b, balanceRecord st.state u = some b → Exact (b.Balance - q) = true)
    (hs : ∀ sup, supplyOf st.state = some sup →
      Exact (sup.TotalSupply - q) = true ∧ Exact (sup.TotalBurned + q) = true) :
    (Burn st u (.finite q) reason refID).2 = (EPC.Burn st u q reason refID).2 ∧
    verdict (Burn st u (.finite q) reason refID).1 =
      exactVerdict (EPC.Burn st u q reason refID).1 := by
  unfold Burn EPC.Burn
  by_cases hq : q ≤ 0
  · simp [F64.le, F64.zero, hq, verdict, exactVerdict, EPCError.isInsufficientFunds,
      EPCError.isInsufficientLock, EPC.EPCError.isInsufficientFunds,
      EPC.EPCError.isInsufficientLock]
  · simp only [F64.le, F64.zero, hq, decide_False, if_false, Bool.false_eq_true]
    rw [getOrCreateBalance_of_exact st hst u]
    rcases read_balance st u with h | ⟨b, st1, h, hs1, hw1, b0, hb0, e1, e2⟩
    · rw [h]
      exact ⟨rfl, rfl⟩
    · rw [h]
      have hb1 := hb b0 hb0
      rw [e1] at hb1
      by_cases hlt : b.Balance < q
      · simp only [ofBalance, F64.lt, hlt, decide_True, if_true]
        constructor <;> trivial
      · simp only [ofBalance, F64.lt, hlt, decide_False, if_false, Bool.false_eq_true,
          sub_of_exact hb1, saveBalance, TokenBalance.marshal, F64.toJSON,
          EPC.saveBalance, EPC.TokenBalance.marshal]
        generalize hst2 : st1.tick.PutState ("BAL_" ++ b.UserID) _ = st2
        have hs2 : st2.state = st.state := by
          rw [← hst2]
          exact hs1
        rw [getSupply_of_exact st2 (hs2 ▸ hst)]
        rcases read_supply st2 with h2 | ⟨sup, st3, h2, hs3, sup0, hsup0, e3, e4, e5⟩
        · rw [h2]
          exact ⟨rfl, rfl⟩
        · rw [h2]
          rw [hs2] at hsup0
          obtain ⟨hx1, hx2⟩ := hs sup0 hsup0
          rw [e3] at hx1
          rw [e5] at hx2
          simp only [ofSupply, sub_of_exact hx1, add_of_exact hx2, TokenSupply.marshal,
            F64.toJSON, TokenTransaction.marshal, EPC.TokenSupply.marshal,
            EPC.TokenTransaction.marshal]
          constructor <;> trivial

/-- Where the numbers of the store, the available balance of the sender and
the two new balances are `float64` values, `Transfer` over `float64` leaves the
stub that `Transfer` over exact decimals leaves, with the same verdict. -/
theorem Transfer_agrees (st : Stub) (a b : String) (q : ℚ) (reason refID : String)
    (hst : ExactStore st.state)
    (ha : ∀ ba, balanceRecord st.state a = some ba →
      Exact (ba.Balance - ba.LockedBalance) = true ∧ Exact (ba.Balance - q) = true)
    (hb : ∀ bb, balanceRecord st.state b = some bb → Exact (bb.Balance + q) = true) :
    (Transfer st a b (.finite q) reason refID).2 = (EPC.Transfer st a b q reason refID).2 ∧
    verdict (Transfer st a b (.finite q) reason refID).1 =
      exactVerdict (EPC.Transfer st a b q reason refID).1 := by
  unfold Transfer EPC.Transfer
  by_cases hq : q ≤ 0
  · simp [F64.le, F64.zero, hq, verdict, exactVerdict, EPCError.isInsufficientFunds,
      EPCError.isInsufficientLock, EPC.EPCError.isInsufficientFunds,
      EPC.EPCError.isInsufficientLock]
  · simp only [F64.le, F64.zero, hq, decide_False, if_false, Bool.false_eq_true]
    by_cases hab : a = b
    · simp only [hab, if_true]
      constructor <;> trivial
    · simp only [hab, if_false]
      rw [getOrCreateBalance_of_exact st hst a]
      rcases read_balance st a with h | ⟨ba, st1, h, hs1, hw1, b0, hb0, e1, e2⟩
      · rw [h]
        exact ⟨rfl, rfl⟩
      · rw [h]
        obtain ⟨hx1, hx2⟩ := ha b0 hb0
        rw [e1, e2] at hx1
        rw [e1] at hx2
        by_cases hlt : ba.Balance - ba.LockedBalance < q
        · simp only [ofBalance, sub_of_exact hx1, F64.lt, hlt, decide_True, if_true]
          constructor <;> trivial
        · simp only [ofBalance, sub_of_exact hx1, F64.lt, hlt, decide_False, if_false,
            Bool.false_eq_true]
          rw [getOrCreateBalance_of_exact st1 (hs1 ▸ hst) b]
          rcases read_balance st1 b with h2 | ⟨bb, st2, h2, hs2, hw2, b1, hb1, e3, e4⟩
          · rw [h2]
            exact ⟨rfl, rfl⟩
          · rw [h2]
            rw [hs1] at hb1
            have hx3 := hb b1 hb1
            rw [e3] at hx3
            simp only [ofBalance, sub_of_exact hx2, add_of_exact hx3, saveBalance,
              TokenBalance.marshal, F64.toJSON, EPC.saveBalance, EPC.TokenBalance.marshal,
              TokenTransaction.marshal, EPC.TokenTransaction.marshal]
            constructor <;> trivial

/-- Where the numbers of the store, the available balance and the new locked
balance are `float64` values, `Lock` over `float64` leaves the stub that `Lock`
over exact decimals leaves, with the same verdict. -/
theorem Lock_agrees (st : Stub) (u : String) (q : ℚ) (refID : String)
    (hst : ExactStore st.state)
    (hb : ∀ b, balanceRecord st.state u = some b →
      Exact (b.Balance - b.LockedBalance) = true ∧ Exact (b.LockedBalance + q) = true) :
    (Lock st u (.finite q) refID).2 = (EPC.Lock st u q refID).2 ∧
    verdict (Lock st u (.finite q) refID).1 = exactVerdict (EPC.Lock st u q refID).1 := by
  unfold Lock EPC.Lock
  by_cases hq : q ≤ 0
  · simp [F64.le, F64.zero, hq, verdict, exactVerdict, EPCError.isInsufficientFunds,
      EPCError.isInsufficientLock, EPC.EPCError.isInsufficientFunds,
      EPC.EPCError.isInsufficientLock]
  · simp only [F64.le, F64.zero, hq, decide_False, if_false, Bool.false_eq_true]
    rw [getOrCreateBalance_of_exact st hst u]
    rcases read_balance st u with h | ⟨b, st1, h, hs1, hw1, b0, hb0, e1, e2⟩
    · rw [h]
      exact ⟨rfl, rfl⟩
    · rw [h]
      obtain ⟨hx1, hx2⟩ := hb b0 hb0
      rw [e1, e2] at hx1
      rw [e2] at hx2
      by_cases hlt : b.Balance - b.LockedBalance < q
      · simp only [ofBalance, sub_of_exact hx1, F64.lt, hlt, decide_True, if_true]
        constructor <;> trivial
      · simp only [ofBalance, sub_of_exact hx1, F64.lt, hlt, decide_False, if_false,
          Bool.false_eq_true, add_of_exact hx2, saveBalance, TokenBalance.marshal,
          F64.toJSON, EPC.saveBalance, EPC.TokenBalance.marshal, TokenTransaction.marshal,
          EPC.TokenTransaction.marshal, Option.getD_some]
        constructor <;> trivial

/-- Where the numbers of the store and the new locked balance are `float64`
values, `Unlock` over `float64` leaves the stub that `Unlock` over exact
decimals leaves, with the same verdict. -/
theorem Unlock_agrees (st : Stub) (u : String) (q : ℚ) (refID : String)
    (hst : ExactStore st.state)
    (hb : ∀ b, balanceRecord st.state u = some b → Exact (b.LockedBalance - q) = true) :
    (Unlock st u (.finite q) refID).2 = (EPC.Unlock st u q refID).2 ∧
    verdict (Unlock st u (.finite q) refID).1 = exactVerdict (EPC.Unlock st u q refID).1 := by
  unfold Unlock EPC.Unlock
  by_cases hq : q ≤ 0
  · simp [F64.le, F64.zero, hq, verdict, exactVerdict, EPCError.isInsufficientFunds,
      EPCError.isInsufficientLock, EPC.EPCError.isInsufficientFunds,
      EPC.EPCError.isInsufficientLock]
  · simp only [F64.le, F64.zero, hq, decide_False, if_false, Bool.false_eq_true]
    rw [getOrCreateBalance_of_exact st hst u]
    rcases read_balance st u with h | ⟨b, st1, h, hs1, hw1, b0, hb0, e1, e2⟩
    · rw [h]
      exact ⟨rfl, rfl⟩
    · rw [h]
      have hx1 := hb b0 hb0
      rw [e2] at hx1
      by_cases hlt : b.LockedBalance < q
      · simp only [ofBalance, F64.lt, hlt, decide_True, if_true]
        constructor <;> trivial
      · simp only [ofBalance, F64.lt, hlt, decide_False, if_false,
          Bool.false_eq_true, sub_of_exact hx1, saveBalance, TokenBalance.marshal,
          F64.toJSON, EPC.saveBalance, EPC.TokenBalance.marshal, TokenTransaction.marshal,
          EPC.TokenTransaction.marshal, Option.getD_some]
        constructor <;> trivial

theorem ExactStore_empty : ExactStore emptyStore := by
  intro k d h
  cases h

theorem ExactStore_put {s : Store} (hs : ExactStore s) (k : String) {d : Doc}
    (hd : exactDoc d = true) : ExactStore (s.put k d) := by
  intro k1 d1 h
  unfold Store.put at h
  split at h
  · cases h
    exact hd
  · exact hs k1 d1 h

set_option maxRecDepth 100000 in
/-- Worked instance: on the ledger where alice holds 100, every number stored is
a `float64`, and so are the 50 left to alice and the 50 bob receives when alice
transfers 50: the `float64` transfer and the exact-decimal transfer leave the
same stub, and both succeed. -/
theorem Transfer_agrees_instance :
    (Transfer (newStub (exampleEnv "tx2") afterMint) "alice" "bob" (.finite 50) "pay" "").2 =
      (EPC.Transfer (newStub (exampleEnv "tx2") afterMint) "alice" "bob" 50 "pay" "").2 ∧
    verdict (Transfer (newStub (exampleEnv "tx2") afterMint) "alice" "bob" (.finite 50)
      "pay" "").1 = .ok := by
  have hst : ExactStore afterMint := by
    have e : afterMint =
        ((emptyStore.put "BAL_alice" (EPC.TokenBalance.marshal
            ⟨"alice", 100, 0, "2024-01-01T00:00:00Z"⟩)).put "EPC_SUPPLY"
          (EPC.TokenSupply.marshal ⟨100, 100, 0, 0, "2024-01-01T00:00:00Z"⟩)).put "TX_tx1"
          (EPC.TokenTransaction.marshal
            ⟨"tx1", "MINT", "", "alice", 100, "reward", "", "2024-01-01T00:00:00Z"⟩) := by
      with_unfolding_all rfl
    rw [e]
    exact ExactStore_put (ExactStore_put (ExactStore_put ExactStore_empty _ (by decide!)) _
      (by decide!)) _ (by decide!)
  have h := Transfer_agrees (newStub (exampleEnv "tx2") afterMint) "alice" "bob" 50 "pay" ""
    hst
    (by
      intro ba hba
      have e : balanceRecord afterMint "alice" =
          some ⟨"alice", 100, 0, "2024-01-01T00:00:00Z"⟩ := by with_unfolding_all rfl
      rw [show (newStub (exampleEnv "tx2") afterMint).state = afterMint from rfl, e] at hba
      cases hba
      exact ⟨by decide!, by decide!⟩)
    (by
      intro bb hbb
      have e : balanceRecord afterMint "bob" = some ⟨"bob", 0, 0, ""⟩ := by
        with_unfolding_all rfl
      rw [show (newStub (exampleEnv "tx2") afterMint).state = afterMint from rfl, e] at hbb
      cases hbb
      decide!)
  refine ⟨h.1, ?_⟩
  rw [h.2]
  have e : (EPC.Transfer (newStub (exampleEnv "tx2") afterMint) "alice" "bob" 50 "pay" "").1
      = .ok () := by with_unfolding_all rfl
  rw [e]
  rfl

set_option maxRecDepth 100000 in
/-- Worked instance: at the amounts 100, 30, 50 and 70 no sum or difference
rounds, and the `float64` operations return what the exact-decimal ones do.
After `Mint("alice", 100)` alice holds 100 and the totals are 100, 100, 0;
`Burn("alice", 30)` then leaves 70 and the totals 70, 100, 30;
`Transfer("alice", "bob", 50)` leaves 50 and 50; `Lock("alice", 70)` locks 70,
after which `Transfer("alice", "bob", 50)` fails for want of available balance
(30 against 50) and `Unlock("alice", 70)` brings the locked balance back
to 0. -/
theorem small_amounts_exact :
    balanceOf (execAll emptyStore [(exampleEnv "tx1", .mint "alice" (.finite 100) "reward" "")])
      "alice" = some (.finite 100) ∧
    totalsOf (execAll emptyStore [(exampleEnv "tx1", .mint "alice" (.finite 100) "reward" "")])
      = some (.finite 100, .finite 100, .finite 0) ∧
    balanceOf (execAll emptyStore
      [(exampleEnv "tx1", .mint "alice" (.finite 100) "reward" ""),
       (exampleEnv "tx2", .burn "alice" (.finite 30) "redeem" "")]) "alice" =
      some (.finite 70) ∧
    totalsOf (execAll emptyStore
      [(exampleEnv "tx1", .mint "alice" (.finite 100) "reward" ""),
       (exampleEnv "tx2", .burn "alice" (.finite 30) "redeem" "")]) =
      some (.finite 70, .finite 100, .finite 30) ∧
    balanceOf (execAll emptyStore
      [(exampleEnv "tx1", .mint "alice" (.finite 100) "reward" ""),
       (exampleEnv "tx2", .transfer "alice" "bob" (.finite 50) "pay" "")]) "alice" =
      some (.finite 50) ∧
    balanceOf (execAll emptyStore
      [(exampleEnv "tx1", .mint "alice" (.finite 100) "reward" ""),
       (exampleEnv "tx2", .transfer "alice" "bob" (.finite 50) "pay" "")]) "bob" =
      some (.finite 50) ∧
    lockedOf (execAll emptyStore
      [(exampleEnv "tx1", .mint "alice" (.finite 100) "reward" ""),
       (exampleEnv "tx2", .lock "alice" (.finite 70) "order1")]) "alice" =
      some (.finite 70) ∧
    failure (Transfer (newStub (exampleEnv "tx3") (execAll emptyStore
      [(exampleEnv "tx1", .mint "alice" (.finite 100) "reward" ""),
       (exampleEnv "tx2", .lock "alice" (.finite 70) "order1")]))
      "alice" "bob" (.finite 50) "pay" "") =
      some (.insufficientAvailable (.finite 30) (.finite 50)) ∧
    lockedOf (execAll emptyStore
      [(exampleEnv "tx1", .mint "alice" (.finite 100) "reward" ""),
       (exampleEnv "tx2", .lock "alice" (.finite 70) "order1"),
       (exampleEnv "tx3", .unlock "alice" (.finite 70) "order1")]) "alice" =
      some (.finite 0) ∧
    balanceOf (execAll emptyStore
      [(exampleEnv "tx1", .mint "alice" (.finite 100) "reward" ""),
       (exampleEnv "tx2", .lock "alice" (.finite 70) "order1"),
       (exampleEnv "tx3", .unlock "alice" (.finite 70) "order1")]) "alice" =
      some (.finite 100) := by
  decide!

end Float64

end EPC
